import Mathlib

/-!
# superdupergraphs: the drawing engine (`src/drawing.js`)

A shallow embedding of the annotation engine: the geometry kernel, the
per-variant hit tests, the transform functions and the `DrawingManager`
list operations, followed by the properties proved about them.

Numbers are elements of a linearly ordered field `K`; the results stated
"over the reals" take `K = ℝ`.  The functions of the JavaScript `Math`
object that are not field operations (`cos`, `sin`, the square root behind
`hypot`) are passed in a `JSMath K` record, so that every definition below
is computable.
-/

set_option autoImplicit false

namespace SuperDuperGraphs

/-! ## Data model -/

/-- A canvas point `{x, y}`. -/
@[ext]
structure Point (K : Type) where
  x : K
  y : K
deriving DecidableEq

/-- The `type` tag of a drawing; `unknown` stands for every value that none
of the `switch` statements lists (a missing tag included). -/
inductive DrawingType where
  | pencil | line | segment | arrow | rectangle | ellipse | text | icon | projection
  | unknown
deriving DecidableEq

/-- A drawing object.  JavaScript drawings are plain records whose fields may
be absent; each field the engine reads or copies is an `Option`, `none`
standing for `undefined`. -/
structure Drawing (K : Type) where
  type : DrawingType
  points : Option (List (Point K)) := none
  start : Option (Point K) := none
  «end» : Option (Point K) := none
  x : Option K := none
  y : Option K := none
  angle : Option K := none
  size : Option K := none
  text : Option String := none
  font : Option String := none
  icon : Option String := none
  label : Option String := none
  color : Option String := none
  width : Option K := none
  fill : Option String := none
  opacity : Option K := none
  dash : Option (List K) := none
  headLength : Option K := none
  headWidth : Option K := none
  textBaseline : Option String := none
deriving DecidableEq

/-- The functions of the JavaScript `Math` object the engine calls that are
not field or order operations. -/
structure JSMath (K : Type) where
  cos : K → K
  sin : K → K
  sqrt : K → K

section Defs

variable {K : Type} [LinearOrderedField K]

/-- The function `Math.hypot(a, b)`, the square root of the sum of squares. -/
def JSMath.hypot (M : JSMath K) (a b : K) : K := M.sqrt (a * a + b * b)

/-- JavaScript `v || d` for an optional number: `d` when `v` is `undefined`
or `0`, else `v`. -/
def orElse (v : Option K) (d : K) : K :=
  match v with
  | some a => if a = 0 then d else a
  | none => d

/-- JavaScript `s.length`: the number of UTF-16 code units of `s`. -/
def jsLength (s : String) : Nat :=
  (s.toList.map fun c => if c.toNat < 0x10000 then 1 else 2).sum

/-- The expression `drawing.text?.length || 1` as a number. -/
def textLengthOr1 (text : Option String) : Nat :=
  match text with
  | some s => if jsLength s = 0 then 1 else jsLength s
  | none => 1

/-! ## Geometry kernel -/

def rotatePointAround (M : JSMath K) (point center : Point K) (angle : K) : Point K :=
  let dx := point.x - center.x
  let dy := point.y - center.y
  let cosA := M.cos angle
  let sinA := M.sin angle
  { x := center.x + dx * cosA - dy * sinA
    y := center.y + dx * sinA + dy * cosA }

/-- The `forEach` of `getDrawingCenter` and `boundingFromPoints`: running
`(minX, maxX, minY, maxY)` over the points. -/
def extentFold (init : K × K × K × K) (pts : List (Point K)) : K × K × K × K :=
  pts.foldl (fun acc p => (min acc.1 p.x, max acc.2.1 p.x, min acc.2.2.1 p.y, max acc.2.2.2 p.y)) init

def getDrawingCenter (drawing : Drawing K) : Point K :=
  match drawing.type with
  | .pencil =>
    match drawing.points.getD [] with
    | [] => { x := 0, y := 0 }
    | p0 :: rest =>
      let e := extentFold (p0.x, p0.x, p0.y, p0.y) (p0 :: rest)
      { x := (e.1 + e.2.1) / 2, y := (e.2.2.1 + e.2.2.2) / 2 }
  | .line | .segment | .arrow | .projection =>
    { x := orElse (drawing.start.map Point.x) 0 / 2 + orElse (drawing.«end».map Point.x) 0 / 2
      y := orElse (drawing.start.map Point.y) 0 / 2 + orElse (drawing.«end».map Point.y) 0 / 2 }
  | .rectangle | .ellipse =>
    { x := orElse (drawing.start.map Point.x) 0 / 2 + orElse (drawing.«end».map Point.x) 0 / 2
      y := orElse (drawing.start.map Point.y) 0 / 2 + orElse (drawing.«end».map Point.y) 0 / 2 }
  | .text | .icon => { x := orElse drawing.x 0, y := orElse drawing.y 0 }
  | .unknown => { x := 0, y := 0 }

/-! ## Transforms -/

def translateDrawing (drawing : Drawing K) (dx dy : K) : Drawing K :=
  match drawing.type with
  | .pencil =>
    { drawing with
      points := some ((drawing.points.getD []).map fun p => { x := p.x + dx, y := p.y + dy }) }
  | .line | .segment | .arrow | .projection =>
    { drawing with
      start := drawing.start.map fun s => { x := s.x + dx, y := s.y + dy }
      «end» := drawing.«end».map fun e => { x := e.x + dx, y := e.y + dy } }
  | .rectangle | .ellipse =>
    { drawing with
      start := drawing.start.map fun s => { x := s.x + dx, y := s.y + dy }
      «end» := drawing.«end».map fun e => { x := e.x + dx, y := e.y + dy } }
  | .text | .icon =>
    { drawing with x := some (orElse drawing.x 0 + dx), y := some (orElse drawing.y 0 + dy) }
  | .unknown => drawing

def rotateDrawing (M : JSMath K) (drawing : Drawing K) (angleDelta : K) : Drawing K :=
  let center := getDrawingCenter drawing
  match drawing.type with
  | .pencil =>
    { drawing with
      points := some ((drawing.points.getD []).map fun p => rotatePointAround M p center angleDelta) }
  | .line | .segment | .arrow | .projection =>
    { drawing with
      start := drawing.start.map fun s => rotatePointAround M s center angleDelta
      «end» := drawing.«end».map fun e => rotatePointAround M e center angleDelta }
  | .rectangle | .ellipse => { drawing with angle := some (orElse drawing.angle 0 + angleDelta) }
  | .text | .icon => { drawing with angle := some (orElse drawing.angle 0 + angleDelta) }
  | .unknown => drawing

def scalePoint (M : JSMath K) (point anchor : Point K) (angle scaleX scaleY : K) : Point K :=
  let loc := rotatePointAround M point anchor (-angle)
  let scaled : Point K :=
    { x := anchor.x + (loc.x - anchor.x) * scaleX, y := anchor.y + (loc.y - anchor.y) * scaleY }
  rotatePointAround M scaled anchor angle

/-! ## Bounding boxes -/

/-- The object returned by `boundingFromPoints` and `getBoundingBox`. -/
structure BoundingBox (K : Type) where
  minX : K
  maxX : K
  minY : K
  maxY : K
  width : K
  height : K
  center : Point K
  angle : K
  corners : List (Point K)

def rotateCorners (M : JSMath K) (corners : List (Point K)) (center : Point K) (angle : K) :
    List (Point K) :=
  corners.map fun p => rotatePointAround M p center angle

/-- The function `boundingFromPoints(points, angle = 0)`; `none` is a missing
`points` argument. -/
def boundingFromPoints (points : Option (List (Point K))) (angle : K) : BoundingBox K :=
  match points.getD [] with
  | [] =>
    { minX := 0, maxX := 0, minY := 0, maxY := 0, width := 0, height := 0
      center := { x := 0, y := 0 }, angle := angle, corners := [] }
  | p0 :: rest =>
    let e := extentFold (p0.x, p0.x, p0.y, p0.y) (p0 :: rest)
    let minX := e.1
    let maxX := e.2.1
    let minY := e.2.2.1
    let maxY := e.2.2.2
    let width := maxX - minX
    let height := maxY - minY
    let center : Point K := { x := (minX + maxX) / 2, y := (minY + maxY) / 2 }
    { minX := minX, maxX := maxX, minY := minY, maxY := maxY, width := width, height := height
      center := center, angle := angle
      corners := [{ x := minX, y := minY }, { x := maxX, y := minY }, { x := maxX, y := maxY },
        { x := minX, y := maxY }] }

/-- The function `getBoundingBox(drawing)`; `none` is a missing drawing. -/
def getBoundingBox (M : JSMath K) (drawing : Option (Drawing K)) : BoundingBox K :=
  match drawing with
  | none => boundingFromPoints (some []) 0
  | some drawing =>
    let angle := orElse drawing.angle 0
    match drawing.type with
    | .pencil => boundingFromPoints (some (drawing.points.getD [])) 0
    | .line | .segment | .arrow | .projection =>
      let pts := (match drawing.start with | some s => [s] | none => [])
        ++ (match drawing.«end» with | some e => [e] | none => [])
      boundingFromPoints (some pts) 0
    | .rectangle | .ellipse =>
      let center : Point K :=
        { x := orElse (drawing.start.map Point.x) 0 / 2 + orElse (drawing.«end».map Point.x) 0 / 2
          y := orElse (drawing.start.map Point.y) 0 / 2 + orElse (drawing.«end».map Point.y) 0 / 2 }
      let width := |orElse (drawing.start.map Point.x) 0 - orElse (drawing.«end».map Point.x) 0|
      let height := |orElse (drawing.start.map Point.y) 0 - orElse (drawing.«end».map Point.y) 0|
      let corners : List (Point K) :=
        [{ x := center.x - width / 2, y := center.y - height / 2 },
         { x := center.x + width / 2, y := center.y - height / 2 },
         { x := center.x + width / 2, y := center.y + height / 2 },
         { x := center.x - width / 2, y := center.y + height / 2 }]
      let rotated := if angle = 0 then corners else rotateCorners M corners center angle
      let bbox := boundingFromPoints (some rotated) angle
      { bbox with width := width, height := height, center := center, angle := angle
                  corners := rotated }
    | .text =>
      let width : K := (textLengthOr1 drawing.text : K) * 8
      let height : K := 16
      let center : Point K :=
        { x := orElse drawing.x 0 + width / 2, y := orElse drawing.y 0 + height / 2 }
      let corners : List (Point K) :=
        [{ x := orElse drawing.x 0, y := orElse drawing.y 0 },
         { x := orElse drawing.x 0 + width, y := orElse drawing.y 0 },
         { x := orElse drawing.x 0 + width, y := orElse drawing.y 0 + height },
         { x := orElse drawing.x 0, y := orElse drawing.y 0 + height }]
      let rotated := if angle = 0 then corners else rotateCorners M corners center angle
      { boundingFromPoints (some rotated) angle with
        width := width, height := height, center := center, corners := rotated }
    | .icon =>
      let size := orElse drawing.size 16
      let center : Point K := { x := orElse drawing.x 0, y := orElse drawing.y 0 }
      let half := size / 2
      let corners : List (Point K) :=
        [{ x := center.x - half, y := center.y - half },
         { x := center.x + half, y := center.y - half },
         { x := center.x + half, y := center.y + half },
         { x := center.x - half, y := center.y + half }]
      let rotated := if angle = 0 then corners else rotateCorners M corners center angle
      { boundingFromPoints (some rotated) angle with
        width := size, height := size, center := center, corners := rotated }
    | .unknown => boundingFromPoints (some []) 0

/-! ### The font-size pattern

`parseFontSize` and the text case of `scaleDrawing` use the regular
expression literal `/(\d+(?:\\.\\d+)?)px/`.  In a regular expression literal
`\\` is an escaped backslash, so the optional group reads: a backslash, any
one character, a backslash, one or more letters `d`. -/

/-- The class `.` of a regular expression without flags: one UTF-16 code
unit that is not a line terminator. -/
def isRegexDot (c : Char) : Bool :=
  decide (c.toNat < 0x10000) && !(c.toNat = 0x0A || c.toNat = 0x0D || c.toNat = 0x2028
    || c.toNat = 0x2029)

/-- The optional group `(?:\\.\\d+)` followed by `px`, tried at the head of
`s`: the text the group matched and what follows `px`. -/
def matchFontGroup (s : List Char) : Option (List Char × List Char) :=
  match s with
  | '\\' :: c :: '\\' :: 'd' :: tl =>
    if isRegexDot c then
      match tl.dropWhile (fun a => a == 'd') with
      | 'p' :: 'x' :: after =>
        some ('\\' :: c :: '\\' :: 'd' :: tl.takeWhile (fun a => a == 'd'), after)
      | _ => none
    else none
  | _ => none

/-- The pattern tried at the head of `s`: capture group 1 and what follows
the match.  `\d+` and `d+` are greedy, and a shorter run can never be
followed by the next element of the pattern, so only the longest runs are
tried. -/
def matchFontSizeAt (s : List Char) : Option (List Char × List Char) :=
  let digits := s.takeWhile Char.isDigit
  if digits.isEmpty then none
  else
    match matchFontGroup (s.dropWhile Char.isDigit) with
    | some (g, after) => some (digits ++ g, after)
    | none =>
      match s.dropWhile Char.isDigit with
      | 'p' :: 'x' :: after => some (digits, after)
      | _ => none

/-- The leftmost match of the pattern in `s`: the text before the match,
capture group 1, and the text after the match. -/
def findFontSize : List Char → Option (List Char × List Char × List Char)
  | [] => none
  | c :: cs =>
    match matchFontSizeAt (c :: cs) with
    | some (g, after) => some ([], g, after)
    | none => (findFontSize cs).map fun r => (c :: r.1, r.2.1, r.2.2)

/-- The conversion `Number(s)` for a capture of the pattern: the value of a digit string;
`none` (NaN) when the capture holds the backslash group. -/
def captureToNumber (g : List Char) : Option K :=
  if g.all Char.isDigit then
    some ((g.foldl (fun n c => 10 * n + (c.toNat - '0'.toNat)) 0 : Nat) : K)
  else none

/-- The function `parseFontSize(font)`: `none` stands for `null` and for `NaN`, which the
callers treat alike (both are falsy). -/
def parseFontSize (font : Option String) : Option K :=
  match font with
  | none => none
  | some f =>
    match findFontSize f.toList with
    | some (_, g, _) => captureToNumber g
    | none => none

/-- The text case of `scaleDrawing`: the new `font`.  `fmt` is the
number-to-string conversion of the template literal; its output holds no
`$`, so `replace` inserts it as it is, in place of the first match. -/
def scaleFont (fmt : K → String) (font : Option String) (avgScale : K) : Option String :=
  match (parseFontSize font : Option K) with
  | none => font
  | some size =>
    if size = 0 then font
    else
      let newSize := max 4 (size * avgScale)
      if newSize = 0 then font
      else
        match font with
        | none => none
        | some f =>
          match findFontSize f.toList with
          | some (before, _, after) =>
            some (String.mk before ++ (fmt newSize ++ "px") ++ String.mk after)
          | none => some f

def scaleDrawing (M : JSMath K) (fmt : K → String) (drawing : Drawing K) (anchor : Point K)
    (angle scaleX scaleY : K) : Drawing K :=
  match drawing.type with
  | .pencil =>
    { drawing with
      points := some ((drawing.points.getD []).map fun p => scalePoint M p anchor angle scaleX scaleY) }
  | .line | .segment | .arrow | .projection =>
    { drawing with
      start := drawing.start.map fun s => scalePoint M s anchor angle scaleX scaleY
      «end» := drawing.«end».map fun e => scalePoint M e anchor angle scaleX scaleY }
  | .rectangle | .ellipse =>
    { drawing with
      start := drawing.start.map fun s => scalePoint M s anchor angle scaleX scaleY
      «end» := drawing.«end».map fun e => scalePoint M e anchor angle scaleX scaleY }
  | .text =>
    let avgScale := orElse (some ((|scaleX| + |scaleY|) / 2)) 1
    let newFont := scaleFont fmt drawing.font avgScale
    let pos : Point K := { x := orElse drawing.x 0, y := orElse drawing.y 0 }
    let scaledPos := scalePoint M pos anchor angle scaleX scaleY
    { drawing with x := some scaledPos.x, y := some scaledPos.y, font := newFont }
  | .icon =>
    let avgScale := orElse (some ((|scaleX| + |scaleY|) / 2)) 1
    let size := max 4 (orElse drawing.size 16 * avgScale)
    let pos : Point K := { x := orElse drawing.x 0, y := orElse drawing.y 0 }
    let scaledPos := scalePoint M pos anchor angle scaleX scaleY
    { drawing with x := some scaledPos.x, y := some scaledPos.y, size := some size }
  | .unknown => drawing

/-! ## Hit testing -/

def distanceToSegment (M : JSMath K) (point a b : Point K) : K :=
  let dx := b.x - a.x
  let dy := b.y - a.y
  if dx = 0 ∧ dy = 0 then
    M.hypot (point.x - a.x) (point.y - a.y)
  else
    let t := max 0 (min 1 (((point.x - a.x) * dx + (point.y - a.y) * dy) / (dx * dx + dy * dy)))
    let projX := a.x + t * dx
    let projY := a.y + t * dy
    M.hypot (point.x - projX) (point.y - projY)

def pointNearLine (M : JSMath K) (point : Point K) (start «end» : Option (Point K))
    (tolerance : K) : Bool :=
  match start, «end» with
  | some s, some e => decide (distanceToSegment M point s e ≤ tolerance)
  | _, _ => false

/-- The `for` loop of `pointNearPolyline` over the consecutive pairs
`pts[i], pts[i + 1]`. -/
def polylineLoop (M : JSMath K) (point : Point K) (tolerance : K) : List (Point K) → Bool
  | a :: b :: rest =>
    if pointNearLine M point (some a) (some b) tolerance then true
    else polylineLoop M point tolerance (b :: rest)
  | _ => false

def pointNearPolyline (M : JSMath K) (point : Point K) (pts : Option (List (Point K)))
    (tolerance : K) : Bool :=
  match pts with
  | none => false
  | some ps => if ps.length < 2 then false else polylineLoop M point tolerance ps

def pointInRect (M : JSMath K) (point : Point K) (start «end» : Option (Point K))
    (tolerance angle : K) : Bool :=
  match start, «end» with
  | some s, some e =>
    let center : Point K := { x := (s.x + e.x) / 2, y := (s.y + e.y) / 2 }
    let testPoint := if angle = 0 then point else rotatePointAround M point center (-angle)
    let x1 := min s.x e.x - tolerance
    let x2 := max s.x e.x + tolerance
    let y1 := min s.y e.y - tolerance
    let y2 := max s.y e.y + tolerance
    decide (testPoint.x ≥ x1) && decide (testPoint.x ≤ x2) && decide (testPoint.y ≥ y1)
      && decide (testPoint.y ≤ y2)
  | _, _ => false

/-- A division by a zero radius gives an infinity or NaN in JavaScript, and
the comparison with `1` is then false; the field division of `K` is used
only for non-zero radii. -/
def pointInEllipse (M : JSMath K) (point : Point K) (start «end» : Option (Point K))
    (tolerance angle : K) : Bool :=
  match start, «end» with
  | some s, some e =>
    let cx := (s.x + e.x) / 2
    let cy := (s.y + e.y) / 2
    let rx := max 1 (|s.x - e.x| / 2) + tolerance
    let ry := max 1 (|s.y - e.y| / 2) + tolerance
    let testPoint := if angle = 0 then point else rotatePointAround M point { x := cx, y := cy } (-angle)
    if rx = 0 ∨ ry = 0 then false
    else
      let normX := (testPoint.x - cx) / rx
      let normY := (testPoint.y - cy) / ry
      decide (normX * normX + normY * normY ≤ 1)
  | _, _ => false

def pointNearText (M : JSMath K) (point : Point K) (drawing : Drawing K) (tolerance : K) : Bool :=
  match drawing.x, drawing.y with
  | some dx, some dy =>
    let angle := orElse drawing.angle 0
    let center : Point K := { x := dx, y := dy }
    let testPoint := if angle = 0 then point else rotatePointAround M point center (-angle)
    let width : K := (textLengthOr1 drawing.text : K) * 8
    let height : K := 16
    decide (testPoint.x ≥ dx - tolerance) && decide (testPoint.x ≤ dx + width + tolerance)
      && decide (testPoint.y ≥ dy - tolerance) && decide (testPoint.y ≤ dy + height + tolerance)
  | _, _ => false

def pointNearIcon (M : JSMath K) (point : Point K) (drawing : Drawing K) (tolerance : K) : Bool :=
  match drawing.x, drawing.y with
  | some dx, some dy =>
    let angle := orElse drawing.angle 0
    let center : Point K := { x := dx, y := dy }
    let testPoint := if angle = 0 then point else rotatePointAround M point center (-angle)
    let size := orElse drawing.size 16
    decide (|testPoint.x - dx| ≤ size / 2 + tolerance)
      && decide (|testPoint.y - dy| ≤ size / 2 + tolerance)
  | _, _ => false

def isPointOnDrawing (M : JSMath K) (point : Point K) (drawing : Drawing K) (tolerance : K) : Bool :=
  match drawing.type with
  | .pencil => pointNearPolyline M point drawing.points tolerance
  | .line | .segment => pointNearLine M point drawing.start drawing.«end» tolerance
  | .arrow => pointNearLine M point drawing.start drawing.«end» tolerance
  | .rectangle => pointInRect M point drawing.start drawing.«end» tolerance (orElse drawing.angle 0)
  | .ellipse => pointInEllipse M point drawing.start drawing.«end» tolerance (orElse drawing.angle 0)
  | .text => pointNearText M point drawing tolerance
  | .icon => pointNearIcon M point drawing tolerance
  | .projection => pointNearLine M point drawing.start drawing.«end» tolerance
  | .unknown => false

/-! ## DrawingManager

The manager's state is its `drawings` array, a list of drawings.  The
rendering context and the theme are read by `render` only and take no part
in the list operations. -/

structure DrawingManager (K : Type) where
  drawings : List (Drawing K)

/-- The object `{index, drawing}` returned by `hitTest` and `eraseAt`. -/
structure Hit (K : Type) where
  index : Nat
  drawing : Drawing K

/-- Reading `arr[index]`: `none` (`undefined`) outside `0 .. length - 1`. -/
def arrayGet {α : Type} (arr : List α) (index : Int) : Option α :=
  if 0 ≤ index then arr[index.toNat]? else none

/-- Writing `arr[index] = v`: replaces an element in range and appends at
`index = length`.  For any other index the array stops being a list of
drawings (a negative index stores a property beside the elements, an index
past the length leaves holes); the result is then `none`. -/
def arraySet {α : Type} (arr : List α) (index : Int) (v : α) : Option (List α) :=
  if 0 ≤ index ∧ index.toNat < arr.length then some (arr.set index.toNat v)
  else if index = arr.length then some (arr ++ [v])
  else none

/-- The call `arr.splice(start, deleteCount)`: the array that remains and the array
of removed elements. -/
def splice {α : Type} (arr : List α) (start deleteCount : Nat) : List α × List α :=
  (arr.take start ++ arr.drop (start + deleteCount), (arr.drop start).take deleteCount)

namespace DrawingManager

def add (self : DrawingManager K) (drawing : Drawing K) : DrawingManager K :=
  { drawings := self.drawings ++ [{ drawing with }] }

def clear (_self : DrawingManager K) : DrawingManager K :=
  { drawings := [] }

/-- The loop of `hitTest`, entered with `i = n - 1`.  The loop index stays
below the length, so the branch for a missing entry is never taken. -/
def hitTestLoop (M : JSMath K) (drawings : List (Drawing K)) (point : Point K) (tolerance : K) :
    Nat → Option (Hit K)
  | 0 => none
  | i + 1 =>
    match drawings[i]? with
    | some d =>
      if isPointOnDrawing M point d tolerance then some { index := i, drawing := d }
      else hitTestLoop M drawings point tolerance i
    | none => none

def hitTest (M : JSMath K) (self : DrawingManager K) (point : Point K) (tolerance : K) :
    Option (Hit K) :=
  hitTestLoop M self.drawings point tolerance self.drawings.length

def translate (self : DrawingManager K) (index : Int) (dx dy : K) :
    Option (Drawing K) × DrawingManager K :=
  match arrayGet self.drawings index with
  | none => (none, self)
  | some original =>
    let moved := translateDrawing original dx dy
    (some moved, { drawings := self.drawings.set index.toNat moved })

def rotate (M : JSMath K) (self : DrawingManager K) (index : Int) (angleDelta : K) :
    Option (Drawing K) × DrawingManager K :=
  match arrayGet self.drawings index with
  | none => (none, self)
  | some original =>
    let rotated := rotateDrawing M original angleDelta
    (some rotated, { drawings := self.drawings.set index.toNat rotated })

/-- The method `resizeTo`: the returned value, and the manager afterwards
(`none` when the write left no list of drawings, see `arraySet`). -/
def resizeTo (M : JSMath K) (fmt : K → String) (self : DrawingManager K) (index : Int)
    (baseDrawing : Option (Drawing K)) (anchor : Point K) (angle scaleX scaleY : K) :
    Option (Drawing K) × Option (DrawingManager K) :=
  match baseDrawing <|> arrayGet self.drawings index with
  | none => (none, some self)
  | some source =>
    let next := scaleDrawing M fmt source anchor angle scaleX scaleY
    (some next, (arraySet self.drawings index next).map fun ds => { drawings := ds })

def getCenter (_self : DrawingManager K) (drawing : Drawing K) : Point K :=
  getDrawingCenter drawing

def undo (self : DrawingManager K) : Option (Drawing K) × DrawingManager K :=
  if self.drawings.length = 0 then (none, self)
  else (self.drawings.getLast?, { drawings := self.drawings.dropLast })

/-- The loop of `eraseAt`, entered with `i = n - 1`; as in `hitTestLoop` the
branch for a missing entry is never taken. -/
def eraseAtLoop (M : JSMath K) (drawings : List (Drawing K)) (point : Point K) (tolerance : K) :
    Nat → Option (Hit K) × List (Drawing K)
  | 0 => (none, drawings)
  | i + 1 =>
    match drawings[i]? with
    | some d =>
      if isPointOnDrawing M point d tolerance then
        let r := splice drawings i 1
        (r.2.head?.map fun removed => { drawing := removed, index := i }, r.1)
      else eraseAtLoop M drawings point tolerance i
    | none => (none, drawings)

def eraseAt (M : JSMath K) (self : DrawingManager K) (point : Point K) (tolerance : K) :
    Option (Hit K) × DrawingManager K :=
  let r := eraseAtLoop M self.drawings point tolerance self.drawings.length
  (r.1, { drawings := r.2 })

end DrawingManager

/-! ## Reference notions for the distance claims -/

/-- The point `a + t (b - a)` of the segment from `a` to `b`. -/
def segmentPoint (a b : Point K) (t : K) : Point K :=
  { x := a.x + t * (b.x - a.x), y := a.y + t * (b.y - a.y) }

/-- The Euclidean distance between two points. -/
def euclideanDistance (M : JSMath K) (p q : Point K) : K :=
  M.sqrt ((p.x - q.x) ^ 2 + (p.y - q.y) ^ 2)

/-- The parameter of the orthogonal projection of `p` on the line through
`a` and `b`. -/
def projectionParameter (p a b : Point K) : K :=
  ((p.x - a.x) * (b.x - a.x) + (p.y - a.y) * (b.y - a.y)) / ((b.x - a.x) ^ 2 + (b.y - a.y) ^ 2)

/-- The normalised ellipse equation of the specification for the ellipse
boxed by `s` and `e`, with radii `rx`, `ry`, at `p` rotated back by `-θ` about
the midpoint of `s` and `e`: `((q.x - cx) / rx)² + ((q.y - cy) / ry)² ≤ 1`. -/
def ellipseEquation (M : JSMath K) (p s e : Point K) (θ rx ry : K) : Prop :=
  (((rotatePointAround M p { x := (s.x + e.x) / 2, y := (s.y + e.y) / 2 } (-θ)).x
      - (s.x + e.x) / 2) / rx) ^ 2
    + (((rotatePointAround M p { x := (s.x + e.x) / 2, y := (s.y + e.y) / 2 } (-θ)).y
      - (s.y + e.y) / 2) / ry) ^ 2 ≤ 1

/-- The glyph-box test of the specification for a text anchored at `(x, y)`
with `n` characters: `p` rotated back by `-θ` about the anchor lies in the
box from `(x, y)` to `(x + 8 n, y + 16)` inflated by `t`. -/
def textBoxTest (M : JSMath K) (p : Point K) (x y θ : K) (n : Nat) (t : K) : Prop :=
  x - t ≤ (rotatePointAround M p { x := x, y := y } (-θ)).x ∧
  (rotatePointAround M p { x := x, y := y } (-θ)).x ≤ x + 8 * (n : K) + t ∧
  y - t ≤ (rotatePointAround M p { x := x, y := y } (-θ)).y ∧
  (rotatePointAround M p { x := x, y := y } (-θ)).y ≤ y + 16 + t

/-- The square test of the specification for an icon anchored at `(x, y)`
with side `s`: `p` rotated back by `-θ` about the anchor lies in the square of
side `s` centred on the anchor, inflated by `t`. -/
def iconBoxTest (M : JSMath K) (p : Point K) (x y θ s t : K) : Prop :=
  |(rotatePointAround M p { x := x, y := y } (-θ)).x - x| ≤ s / 2 + t ∧
  |(rotatePointAround M p { x := x, y := y } (-θ)).y - y| ≤ s / 2 + t

/-- An incomplete shape in the sense of the specification: a pencil path
with no points array or fewer than 2 points, a line, segment, arrow,
projection, rectangle or ellipse missing `start` or `end`, a text or icon
missing `x` or `y`, or a drawing with an unknown type tag. -/
def isIncomplete (d : Drawing K) : Bool :=
  match d.type with
  | .pencil =>
    match d.points with
    | none => true
    | some pts => decide (pts.length < 2)
  | .line | .segment | .arrow | .projection | .rectangle | .ellipse =>
    d.start.isNone || d.«end».isNone
  | .text | .icon => d.x.isNone || d.y.isNone
  | .unknown => true

/-- The axis-aligned bounding box of a list of points: each bound is the
coordinate of some point of the list, and every point lies within the
bounds. -/
def IsBoundingBoxOf (pts : List (Point K)) (minX maxX minY maxY : K) : Prop :=
  (∃ q ∈ pts, q.x = minX) ∧ (∃ q ∈ pts, q.x = maxX) ∧
  (∃ q ∈ pts, q.y = minY) ∧ (∃ q ∈ pts, q.y = maxY) ∧
  ∀ q ∈ pts, minX ≤ q.x ∧ q.x ≤ maxX ∧ minY ≤ q.y ∧ q.y ≤ maxY

/-- The whole number that a run of decimal digits denotes. -/
def digitsValue (ds : List Char) : Nat :=
  ds.foldl (fun n c => 10 * n + (c.toNat - '0'.toNat)) 0

/-- The average scale of the text and icon cases of `scaleDrawing`:
`(|scaleX| + |scaleY|) / 2`, or `1` when that is `0`. -/
def averageScale (scaleX scaleY : K) : K :=
  if (|scaleX| + |scaleY|) / 2 = 0 then 1 else (|scaleX| + |scaleY|) / 2

/-- The corners of the glyph box of the specification for a text anchored at
`(x, y)` with `n` characters, before any rotation: `(x, y)`, `(x + 8 n, y)`,
`(x + 8 n, y + 16)`, `(x, y + 16)`. -/
def glyphBoxCorners (x y : K) (n : Nat) : List (Point K) :=
  [{ x := x, y := y }, { x := x + 8 * (n : K), y := y },
   { x := x + 8 * (n : K), y := y + 16 }, { x := x, y := y + 16 }]

/-! ## Rendering

The 2D rendering context is an object of the host environment.  It is
modelled by the dimensions of its canvas and the log of the calls and
property assignments made on it, oldest first. -/

/-- One call or property assignment on the rendering context. -/
inductive CanvasOp (K : Type) where
  | save
  | restore
  | setTransform (a b c d e f : K)
  | clearRect (x y w h : K)
  | globalAlpha (v : K)
  | strokeStyle (v : String)
  | lineWidth (v : K)
  | setLineDash (segments : List K)
  | fillStyle (v : String)
  | beginPath
  | closePath
  | moveTo (x y : K)
  | lineTo (x y : K)
  | stroke
  | fill
  | translate (x y : K)
  | rotate (angle : K)
  | fillRect (x y w h : K)
  | strokeRect (x y w h : K)
  | ellipse (x y radiusX radiusY rotation startAngle endAngle : K)
  | font (v : String)
  | textBaseline (v : String)
  | textAlign (v : String)
  | fillText (text : String) (x y : K)
deriving DecidableEq

/-- The rendering context: the size of its canvas and the log of the calls
made on it. -/
structure Ctx (K : Type) where
  canvasWidth : K
  canvasHeight : K
  calls : List (CanvasOp K)

/-- The colours `theme.tools.stroke` and `theme.tools.text`. -/
structure ThemeTools where
  stroke : String
  text : String

/-- The theme the draw routines read: `theme.tools` and the optional
`theme.projection`. -/
structure Theme where
  tools : ThemeTools
  projection : Option String := none

/-- Making one call on the context appends it to the log. -/
def Ctx.call (ctx : Ctx K) (op : CanvasOp K) : Ctx K :=
  { ctx with calls := ctx.calls ++ [op] }

/-- The context with an empty log, used to read off the calls a routine makes. -/
def Ctx.fresh (ctx : Ctx K) : Ctx K := { ctx with calls := [] }

/-- Making a list of calls on the context, in order. -/
def Ctx.emit (ctx : Ctx K) (ops : List (CanvasOp K)) : Ctx K :=
  { ctx with calls := ctx.calls ++ ops }

/-- JavaScript `a || b` for optional strings: `b` when `a` is `undefined` or
the empty string, else `a`. -/
def strOrOpt (a b : Option String) : Option String :=
  match a with
  | some s => if s = "" then b else some s
  | none => b

/-- JavaScript `a || d` for an optional string and a string default. -/
def strOr (a : Option String) (d : String) : String :=
  match a with
  | some s => if s = "" then d else s
  | none => d

/-- The function `safeClear(ctx)`: resets the transform and clears the whole
canvas between a `save` and a `restore`. -/
def safeClear (ctx : Ctx K) : Ctx K :=
  let ctx1 := ctx.call .save
  let ctx2 := ctx1.call (.setTransform 1 0 0 1 0 0)
  let ctx3 := ctx2.call (.clearRect 0 0 ctx.canvasWidth ctx.canvasHeight)
  ctx3.call .restore

/-- The function `strokeAndFill(ctx, drawing, theme)`: sets the stroke
properties, the dash pattern when the drawing has one, and the fill style
when the drawing has a fill. -/
def strokeAndFill (ctx : Ctx K) (drawing : Drawing K) (theme : Theme) : Ctx K :=
  let ctx1 := ctx.call (.globalAlpha (drawing.opacity.getD 1))
  let ctx2 := ctx1.call (.strokeStyle (strOr drawing.color theme.tools.stroke))
  let ctx3 := ctx2.call (.lineWidth (orElse drawing.width 2))
  let ctx4 := match drawing.dash with
    | some dash => ctx3.call (.setLineDash dash)
    | none => ctx3
  match drawing.fill with
  | some fill => if fill = "" then ctx4 else ctx4.call (.fillStyle fill)
  | none => ctx4

/-- The function `drawPencil(ctx, drawing, theme)`. -/
def drawPencil (ctx : Ctx K) (drawing : Drawing K) (theme : Theme) : Ctx K :=
  let pts := drawing.points.getD []
  if pts.length < 2 then ctx
  else
    match pts with
    | [] => ctx
    | p0 :: rest =>
      let ctx1 := ctx.call .save
      let ctx2 := strokeAndFill ctx1 drawing theme
      let ctx3 := ctx2.call .beginPath
      let ctx4 := ctx3.call (.moveTo p0.x p0.y)
      let ctx5 := rest.foldl (fun c p => c.call (.lineTo p.x p.y)) ctx4
      let ctx6 := ctx5.call .stroke
      ctx6.call .restore

/-- The function `drawLine(ctx, drawing, theme)`. -/
def drawLine (ctx : Ctx K) (drawing : Drawing K) (theme : Theme) : Ctx K :=
  match drawing.start, drawing.«end» with
  | some start, some e =>
    let ctx1 := ctx.call .save
    let ctx2 := strokeAndFill ctx1 drawing theme
    let ctx3 := ctx2.call .beginPath
    let ctx4 := ctx3.call (.moveTo start.x start.y)
    let ctx5 := ctx4.call (.lineTo e.x e.y)
    let ctx6 := ctx5.call .stroke
    ctx6.call .restore
  | _, _ => ctx

/-- The function `drawArrow(ctx, drawing, theme)`; `atan2` and `pi` stand for
`Math.atan2` and `Math.PI`. -/
def drawArrow (M : JSMath K) (atan2 : K → K → K) (pi : K) (ctx : Ctx K)
    (drawing : Drawing K) (theme : Theme) : Ctx K :=
  match drawing.start, drawing.«end» with
  | some start, some e =>
    let ctx1 := ctx.call .save
    let ctx2 := strokeAndFill ctx1 drawing theme
    let ctx3 := ctx2.call .beginPath
    let ctx4 := ctx3.call (.moveTo start.x start.y)
    let ctx5 := ctx4.call (.lineTo e.x e.y)
    let ctx6 := ctx5.call .stroke
    let angle := atan2 (e.y - start.y) (e.x - start.x)
    let headLength := orElse drawing.headLength 10
    let headWidth := orElse drawing.headWidth 4
    let ctx7 := ctx6.call .beginPath
    let ctx8 := ctx7.call (.moveTo e.x e.y)
    let ctx9 := ctx8.call (.lineTo (e.x - headLength * M.cos (angle - pi / 8))
      (e.y - headLength * M.sin (angle - pi / 8)))
    let ctx10 := ctx9.call (.lineTo (e.x - headWidth * M.cos angle)
      (e.y - headWidth * M.sin angle))
    let ctx11 := ctx10.call (.lineTo (e.x - headLength * M.cos (angle + pi / 8))
      (e.y - headLength * M.sin (angle + pi / 8)))
    let ctx12 := ctx11.call .closePath
    let ctx13 := match drawing.fill with
      | some fill => if fill = "" then ctx12 else ctx12.call .fill
      | none => ctx12
    let ctx14 := ctx13.call .stroke
    ctx14.call .restore
  | _, _ => ctx

/-- The function `drawRectangle(ctx, drawing, theme)`. -/
def drawRectangle (ctx : Ctx K) (drawing : Drawing K) (theme : Theme) : Ctx K :=
  match drawing.start, drawing.«end» with
  | some start, some e =>
    let w := |start.x - e.x|
    let h := |start.y - e.y|
    let cx := (start.x + e.x) / 2
    let cy := (start.y + e.y) / 2
    let ctx1 := ctx.call .save
    let ctx2 := strokeAndFill ctx1 drawing theme
    let ctx3 := ctx2.call (.translate cx cy)
    let ctx4 := match drawing.angle with
      | some angle => if angle = 0 then ctx3 else ctx3.call (.rotate angle)
      | none => ctx3
    let ctx5 := match drawing.fill with
      | some fill => if fill = "" then ctx4 else ctx4.call (.fillRect (-w / 2) (-h / 2) w h)
      | none => ctx4
    let ctx6 := ctx5.call (.strokeRect (-w / 2) (-h / 2) w h)
    ctx6.call .restore
  | _, _ => ctx

/-- The function `drawEllipse(ctx, drawing, theme)`; `pi` stands for
`Math.PI`. -/
def drawEllipse (pi : K) (ctx : Ctx K) (drawing : Drawing K) (theme : Theme) : Ctx K :=
  match drawing.start, drawing.«end» with
  | some start, some e =>
    let cx := (start.x + e.x) / 2
    let cy := (start.y + e.y) / 2
    let rx := |start.x - e.x| / 2
    let ry := |start.y - e.y| / 2
    let ctx1 := ctx.call .save
    let ctx2 := strokeAndFill ctx1 drawing theme
    let ctx3 := ctx2.call (.translate cx cy)
    let ctx4 := match drawing.angle with
      | some angle => if angle = 0 then ctx3 else ctx3.call (.rotate angle)
      | none => ctx3
    let ctx5 := ctx4.call .beginPath
    let ctx6 := ctx5.call (.ellipse 0 0 rx ry 0 0 (pi * 2))
    let ctx7 := match drawing.fill with
      | some fill => if fill = "" then ctx6 else ctx6.call .fill
      | none => ctx6
    let ctx8 := ctx7.call .stroke
    ctx8.call .restore
  | _, _ => ctx

/-- The function `drawText(ctx, drawing, theme)`. -/
def drawText (ctx : Ctx K) (drawing : Drawing K) (theme : Theme) : Ctx K :=
  match drawing.x, drawing.y with
  | some x, some y =>
    let ctx1 := ctx.call .save
    let ctx2 := ctx1.call (.translate x y)
    let ctx3 := match drawing.angle with
      | some angle => if angle = 0 then ctx2 else ctx2.call (.rotate angle)
      | none => ctx2
    let ctx4 := ctx3.call (.fillStyle (strOr drawing.color theme.tools.text))
    let ctx5 := ctx4.call (.font (strOr drawing.font "12px/1 sans-serif"))
    let ctx6 := ctx5.call (.textBaseline (strOr drawing.textBaseline "top"))
    let ctx7 := ctx6.call (.fillText (strOr drawing.text "Note") 0 0)
    ctx7.call .restore
  | _, _ => ctx

/-- The function `drawIcon(ctx, drawing, theme)`; `fmt` is the conversion of
a number to a string that the template literal of the font applies. -/
def drawIcon (fmt : K → String) (ctx : Ctx K) (drawing : Drawing K) (theme : Theme) : Ctx K :=
  match drawing.x, drawing.y with
  | some x, some y =>
    let ctx1 := ctx.call .save
    let ctx2 := ctx1.call (.translate x y)
    let ctx3 := match drawing.angle with
      | some angle => if angle = 0 then ctx2 else ctx2.call (.rotate angle)
      | none => ctx2
    let ctx4 := ctx3.call (.fillStyle (strOr drawing.color theme.tools.text))
    let size := orElse drawing.size 16
    let ctx5 := ctx4.call (.font (fmt size ++ "px/1 sans-serif"))
    let ctx6 := ctx5.call (.textBaseline "middle")
    let ctx7 := ctx6.call (.textAlign "center")
    let ctx8 := ctx7.call (.fillText (strOr drawing.icon "😀") 0 0)
    ctx8.call .restore
  | _, _ => ctx

/-- The function `drawProjection(ctx, drawing, theme)`. -/
def drawProjection (ctx : Ctx K) (drawing : Drawing K) (theme : Theme) : Ctx K :=
  match drawing.start, drawing.«end» with
  | some start, some e =>
    let ctx1 := ctx.call .save
    let ctx2 := ctx1.call (.globalAlpha (drawing.opacity.getD 1))
    let ctx3 := ctx2.call
      (.strokeStyle (strOr (strOrOpt drawing.color theme.projection) theme.tools.stroke))
    let ctx4 := ctx3.call (.lineWidth (orElse drawing.width 2))
    let ctx5 := ctx4.call (.setLineDash (drawing.dash.getD [8, 6]))
    let ctx6 := ctx5.call .beginPath
    let ctx7 := ctx6.call (.moveTo start.x start.y)
    let ctx8 := ctx7.call (.lineTo e.x e.y)
    let ctx9 := ctx8.call .stroke
    let ctx10 := ctx9.call (.setLineDash [])
    let ctx11 := match drawing.label with
      | some label =>
        if label = "" then ctx10
        else
          let c1 := ctx10.call
            (.fillStyle (strOr (strOrOpt drawing.color theme.projection) theme.tools.text))
          let c2 := c1.call (.font (strOr drawing.font "11px/1 sans-serif"))
          let c3 := c2.call (.textBaseline "bottom")
          c3.call (.fillText label (e.x + 6) (e.y - 6))
      | none => ctx10
    ctx11.call .restore
  | _, _ => ctx

/-- The callback `render` passes to `items.forEach`: the `switch` on the type
tag that calls the draw routine of the variant, and nothing for any other
tag. -/
def DrawingManager.renderItem (M : JSMath K) (atan2 : K → K → K) (pi : K) (fmt : K → String)
    (theme : Theme) (ctx : Ctx K) (d : Drawing K) : Ctx K :=
  match d.type with
  | .pencil => drawPencil ctx d theme
  | .line | .segment => drawLine ctx d theme
  | .arrow => drawArrow M atan2 pi ctx d theme
  | .rectangle => drawRectangle ctx d theme
  | .ellipse => drawEllipse pi ctx d theme
  | .text => drawText ctx d theme
  | .icon => drawIcon fmt ctx d theme
  | .projection => drawProjection ctx d theme
  | .unknown => ctx

/-- The method `render(draft)`, given the context and theme the manager
holds: clears the canvas, then runs the callback on every item of
`draft ? [...this.drawings, draft] : this.drawings` from first to last.
Returns the context and the manager after the call. -/
def DrawingManager.render (M : JSMath K) (atan2 : K → K → K) (pi : K) (fmt : K → String)
    (self : DrawingManager K) (ctx : Ctx K) (theme : Theme) (draft : Option (Drawing K)) :
    Ctx K × DrawingManager K :=
  let ctx1 := safeClear ctx
  let items := match draft with
    | some d => self.drawings ++ [d]
    | none => self.drawings
  (items.foldl (DrawingManager.renderItem M atan2 pi fmt theme) ctx1, self)

/-- The calls `strokeAndFill` makes, in order: the three stroke properties,
the dash pattern when the drawing has one, the fill style when the drawing
has a non-empty fill. -/
def styleCalls (drawing : Drawing K) (theme : Theme) : List (CanvasOp K) :=
  [.globalAlpha (drawing.opacity.getD 1), .strokeStyle (strOr drawing.color theme.tools.stroke),
    .lineWidth (orElse drawing.width 2)]
  ++ (match drawing.dash with
      | some dash => [.setLineDash dash]
      | none => [])
  ++ (match drawing.fill with
      | some fill => if fill = "" then [] else [.fillStyle fill]
      | none => [])

/-- The call of `if (drawing.angle) ctx.rotate(drawing.angle)`: one `rotate`
for an angle that is present and not `0`, else none. -/
def rotateCalls (drawing : Drawing K) : List (CanvasOp K) :=
  match drawing.angle with
  | some angle => if angle = 0 then [] else [.rotate angle]
  | none => []

/-- The calls of a statement guarded by `if (drawing.fill)`: `ops` for a fill
that is present and not empty, else none. -/
def fillCalls (drawing : Drawing K) (ops : List (CanvasOp K)) : List (CanvasOp K) :=
  match drawing.fill with
  | some fill => if fill = "" then [] else ops
  | none => []

/-- The calls of the block guarded by `if (drawing.label)` in
`drawProjection`, for the end point `e`. -/
def labelCalls (drawing : Drawing K) (theme : Theme) (e : Point K) : List (CanvasOp K) :=
  match drawing.label with
  | some label =>
    if label = "" then []
    else
      [.fillStyle (strOr (strOrOpt drawing.color theme.projection) theme.tools.text),
       .font (strOr drawing.font "11px/1 sans-serif"), .textBaseline "bottom",
       .fillText label (e.x + 6) (e.y - 6)]
  | none => []

/-! ## The resize caller

The chart in `src/dist/index.js` starts a resize when the pointer goes down
on a corner handle of a bounding box, and on every pointer move scales the
snapshot taken at that moment. -/

/-- The function `rotatePoint(point, center, angle)` of `src/dist/index.js`. -/
def rotatePoint (M : JSMath K) (point center : Point K) (angle : K) : Point K :=
  let dx := point.x - center.x
  let dy := point.y - center.y
  let cosA := M.cos angle
  let sinA := M.sin angle
  { x := center.x + dx * cosA - dy * sinA, y := center.y + dx * sinA + dy * cosA }

/-- A corner handle `{name, point, anchor}`: the corner it sits on and the
opposite corner. -/
structure Handle (K : Type) where
  name : String
  point : Point K
  anchor : Point K

/-- The pointer state `tryResize` stores; `tool` and `mode` are the constants
`'grab'` and `'resize'`.  The snapshot `baseDrawing` is a copy of the drawing
made through JSON. -/
structure PointerState (K : Type) where
  targetIndex : Int
  handle : String
  anchor : Point K
  angle : K
  startWidth : K
  startHeight : K
  baseDrawing : Drawing K

/-- The method `_hitHandle(box, pos, tolerance)`: the first of the handles
`tl`, `tr`, `br`, `bl` within `tolerance` of `pos`; `none` is `null`, also
returned for a missing box or fewer than 4 corners. -/
def _hitHandle (M : JSMath K) (box : Option (BoundingBox K)) (pos : Point K) (tolerance : K) :
    Option (Handle K) :=
  match box with
  | none => none
  | some box =>
    match box.corners with
    | c0 :: c1 :: c2 :: c3 :: _ =>
      let handles : List (Handle K) :=
        [{ name := "tl", point := c0, anchor := c2 }, { name := "tr", point := c1, anchor := c3 },
         { name := "br", point := c2, anchor := c0 }, { name := "bl", point := c3, anchor := c1 }]
      handles.find? fun h => decide (M.hypot (pos.x - h.point.x) (pos.y - h.point.y) ≤ tolerance)
    | _ => none

/-- The closure `tryResize(index, drawing)` of `_handlePointerDown`, for the
pointer position `pos` and the tolerance of the grab tool: the pointer state
it stores when it returns `true`, and `none` when it returns `false`. -/
def tryResize (M : JSMath K) (pos : Point K) (tolerance : K) (index : Option Int)
    (drawing : Option (Drawing K)) : Option (PointerState K) :=
  match index, drawing with
  | some index, some drawing =>
    let box := getBoundingBox M (some drawing)
    match _hitHandle M (some box) pos tolerance with
    | none => none
    | some handle =>
      let localHandle := rotatePoint M handle.point handle.anchor (-(orElse (some box.angle) 0))
      let startVec : Point K :=
        { x := localHandle.x - handle.anchor.x, y := localHandle.y - handle.anchor.y }
      some { targetIndex := index, handle := handle.name, anchor := handle.anchor
             angle := orElse (some box.angle) 0
             startWidth := max 1 |startVec.x|, startHeight := max 1 |startVec.y|
             baseDrawing := drawing }
  | _, _ => none

/-- The branch `mode === 'resize'` of `_handlePointerMove` for the pointer
position `pos`: the drawing manager afterwards (`none` when the write of
`resizeTo` left no list of drawings).  With no drawing at the target index
the handler returns before the branch. -/
def handlePointerMoveResize (M : JSMath K) (fmt : K → String) (drawingManager : DrawingManager K)
    (pointerState : PointerState K) (pos : Point K) : Option (DrawingManager K) :=
  match arrayGet drawingManager.drawings pointerState.targetIndex with
  | none => some drawingManager
  | some _ =>
    let angle := orElse (some pointerState.angle) 0
    let anchor := pointerState.anchor
    let localPos := rotatePoint M pos anchor (-angle)
    let vec : Point K := { x := localPos.x - anchor.x, y := localPos.y - anchor.y }
    let width := max 8 |vec.x|
    let height := max 8 |vec.y|
    let scaleX := width / orElse (some pointerState.startWidth) 1
    let scaleY := height / orElse (some pointerState.startHeight) 1
    (drawingManager.resizeTo M fmt pointerState.targetIndex (some pointerState.baseDrawing)
      anchor angle scaleX scaleY).2

end Defs

/-! ## JavaScript numbers

A JavaScript number is an IEEE 754 binary64 value, and every arithmetic
operation rounds its exact result to the nearest such value.  The
definitions above compute in a field, without rounding.  For the claims
whose truth depends on the rounding, the geometry functions are given once
more below over any type with the operations, comparisons and numerals they
use, and `Double` provides those with the rounding of binary64. -/

/-- The number of halvings that bring `n` below 2, that is `⌊log₂ n⌋` for
`n ≥ 1`; the first argument bounds the number of steps and `n` itself is
enough. -/
def halvings : Nat → Nat → Nat
  | 0, _ => 0
  | fuel + 1, n => if n < 2 then 0 else halvings fuel (n / 2) + 1

/-- The binary exponent of a rational `q ≠ 0`: the `e` with
`2 ^ e ≤ |q| < 2 ^ (e + 1)`. -/
def binaryExponent (q : ℚ) : ℤ :=
  let n := q.num.natAbs
  let d := q.den
  let e0 : ℤ := (halvings n n : ℤ) - (halvings d d : ℤ)
  if |q| < 2 ^ e0 then e0 - 1 else e0

/-- Rounding of a rational to the nearest binary64 value, ties to the value
with an even significand: the significand has 53 bits, and below
`2 ^ (-1022)` the spacing stays `2 ^ (-1074)`.  A result of magnitude
`2 ^ 1024` or more, which is an infinity in binary64, is outside the model. -/
def roundToDouble (q : ℚ) : ℚ :=
  if q = 0 then 0
  else
    let u : ℚ := 2 ^ max (binaryExponent q - 52) (-1074)
    let k : ℚ := |q| / u
    let f : ℤ := ⌊k⌋
    let r : ℚ := k - f
    let m : ℤ :=
      if r < 1 / 2 then f else if 1 / 2 < r then f + 1 else if f % 2 = 0 then f else f + 1
    if q < 0 then -(m * u) else m * u

/-- A finite JavaScript number, as the rational it denotes.  The two zeros
are one value; `NaN` and the infinities are not represented, so a division
by zero and an overflow are outside the model. -/
structure Double where
  val : ℚ
deriving DecidableEq

/-- The number a decimal literal denotes: the nearest binary64 value. -/
def Double.ofRat (q : ℚ) : Double := ⟨roundToDouble q⟩

instance : Zero Double := ⟨⟨0⟩⟩

instance : One Double := ⟨⟨1⟩⟩

instance : NatCast Double := ⟨fun n => ⟨roundToDouble n⟩⟩

instance : Add Double := ⟨fun a b => ⟨roundToDouble (a.val + b.val)⟩⟩

instance : Sub Double := ⟨fun a b => ⟨roundToDouble (a.val - b.val)⟩⟩

instance : Mul Double := ⟨fun a b => ⟨roundToDouble (a.val * b.val)⟩⟩

instance : Div Double := ⟨fun a b => ⟨roundToDouble (a.val / b.val)⟩⟩

instance : Neg Double := ⟨fun a => ⟨-a.val⟩⟩

instance : LinearOrder Double :=
  LinearOrder.lift' Double.val (fun a b h => by cases a; cases b; simp_all)

instance (a b : Double) : Decidable (a ≤ b) := inferInstanceAs (Decidable (a.val ≤ b.val))

namespace Machine

section MachineDefs

variable {K : Type} [Zero K] [One K] [NatCast K] [Add K] [Sub K] [Mul K] [Div K] [Neg K]
  [LinearOrder K]

/-- The function `Math.abs`. -/
def abs (a : K) : K := max a (-a)

/-- The function `Math.hypot(a, b)`, as in `JSMath.hypot`. -/
def hypot (M : JSMath K) (a b : K) : K := M.sqrt (a * a + b * b)

/-- JavaScript `v || d` for an optional number, as in `orElse`. -/
def orElse (v : Option K) (d : K) : K :=
  match v with
  | some a => if a = 0 then d else a
  | none => d

def rotatePointAround (M : JSMath K) (point center : Point K) (angle : K) : Point K :=
  let dx := point.x - center.x
  let dy := point.y - center.y
  let cosA := M.cos angle
  let sinA := M.sin angle
  { x := center.x + dx * cosA - dy * sinA
    y := center.y + dx * sinA + dy * cosA }

def scalePoint (M : JSMath K) (point anchor : Point K) (angle scaleX scaleY : K) : Point K :=
  let loc := rotatePointAround M point anchor (-angle)
  let scaled : Point K :=
    { x := anchor.x + (loc.x - anchor.x) * scaleX, y := anchor.y + (loc.y - anchor.y) * scaleY }
  rotatePointAround M scaled anchor angle

/-- The `forEach` of `boundingFromPoints`, as in `extentFold`. -/
def extentFold (init : K × K × K × K) (pts : List (Point K)) : K × K × K × K :=
  pts.foldl (fun acc p => (min acc.1 p.x, max acc.2.1 p.x, min acc.2.2.1 p.y, max acc.2.2.2 p.y)) init

def rotateCorners (M : JSMath K) (corners : List (Point K)) (center : Point K) (angle : K) :
    List (Point K) :=
  corners.map fun p => rotatePointAround M p center angle

def boundingFromPoints (points : Option (List (Point K))) (angle : K) : BoundingBox K :=
  match points.getD [] with
  | [] =>
    { minX := 0, maxX := 0, minY := 0, maxY := 0, width := 0, height := 0
      center := { x := 0, y := 0 }, angle := angle, corners := [] }
  | p0 :: rest =>
    let e := extentFold (p0.x, p0.x, p0.y, p0.y) (p0 :: rest)
    let minX := e.1
    let maxX := e.2.1
    let minY := e.2.2.1
    let maxY := e.2.2.2
    let width := maxX - minX
    let height := maxY - minY
    let center : Point K := { x := (minX + maxX) / 2, y := (minY + maxY) / 2 }
    { minX := minX, maxX := maxX, minY := minY, maxY := maxY, width := width, height := height
      center := center, angle := angle
      corners := [{ x := minX, y := minY }, { x := maxX, y := minY }, { x := maxX, y := maxY },
        { x := minX, y := maxY }] }

def getBoundingBox (M : JSMath K) (drawing : Option (Drawing K)) : BoundingBox K :=
  match drawing with
  | none => boundingFromPoints (some []) 0
  | some drawing =>
    let angle := orElse drawing.angle 0
    match drawing.type with
    | .pencil => boundingFromPoints (some (drawing.points.getD [])) 0
    | .line | .segment | .arrow | .projection =>
      let pts := (match drawing.start with | some s => [s] | none => [])
        ++ (match drawing.«end» with | some e => [e] | none => [])
      boundingFromPoints (some pts) 0
    | .rectangle | .ellipse =>
      let center : Point K :=
        { x := orElse (drawing.start.map Point.x) 0 / 2 + orElse (drawing.«end».map Point.x) 0 / 2
          y := orElse (drawing.start.map Point.y) 0 / 2 + orElse (drawing.«end».map Point.y) 0 / 2 }
      let width :=
        abs (orElse (drawing.start.map Point.x) 0 - orElse (drawing.«end».map Point.x) 0)
      let height :=
        abs (orElse (drawing.start.map Point.y) 0 - orElse (drawing.«end».map Point.y) 0)
      let corners : List (Point K) :=
        [{ x := center.x - width / 2, y := center.y - height / 2 },
         { x := center.x + width / 2, y := center.y - height / 2 },
         { x := center.x + width / 2, y := center.y + height / 2 },
         { x := center.x - width / 2, y := center.y + height / 2 }]
      let rotated := if angle = 0 then corners else rotateCorners M corners center angle
      let bbox := boundingFromPoints (some rotated) angle
      { bbox with width := width, height := height, center := center, angle := angle
                  corners := rotated }
    | .text =>
      let width : K := (textLengthOr1 drawing.text : K) * 8
      let height : K := 16
      let center : Point K :=
        { x := orElse drawing.x 0 + width / 2, y := orElse drawing.y 0 + height / 2 }
      let corners : List (Point K) :=
        [{ x := orElse drawing.x 0, y := orElse drawing.y 0 },
         { x := orElse drawing.x 0 + width, y := orElse drawing.y 0 },
         { x := orElse drawing.x 0 + width, y := orElse drawing.y 0 + height },
         { x := orElse drawing.x 0, y := orElse drawing.y 0 + height }]
      let rotated := if angle = 0 then corners else rotateCorners M corners center angle
      { boundingFromPoints (some rotated) angle with
        width := width, height := height, center := center, corners := rotated }
    | .icon =>
      let size := orElse drawing.size 16
      let center : Point K := { x := orElse drawing.x 0, y := orElse drawing.y 0 }
      let half := size / 2
      let corners : List (Point K) :=
        [{ x := center.x - half, y := center.y - half },
         { x := center.x + half, y := center.y - half },
         { x := center.x + half, y := center.y + half },
         { x := center.x - half, y := center.y + half }]
      let rotated := if angle = 0 then corners else rotateCorners M corners center angle
      { boundingFromPoints (some rotated) angle with
        width := size, height := size, center := center, corners := rotated }
    | .unknown => boundingFromPoints (some []) 0

def distanceToSegment (M : JSMath K) (point a b : Point K) : K :=
  let dx := b.x - a.x
  let dy := b.y - a.y
  if dx = 0 ∧ dy = 0 then
    hypot M (point.x - a.x) (point.y - a.y)
  else
    let t := max 0 (min 1 (((point.x - a.x) * dx + (point.y - a.y) * dy) / (dx * dx + dy * dy)))
    let projX := a.x + t * dx
    let projY := a.y + t * dy
    hypot M (point.x - projX) (point.y - projY)

def pointNearLine (M : JSMath K) (point : Point K) (start «end» : Option (Point K))
    (tolerance : K) : Bool :=
  match start, «end» with
  | some s, some e => decide (distanceToSegment M point s e ≤ tolerance)
  | _, _ => false

def polylineLoop (M : JSMath K) (point : Point K) (tolerance : K) : List (Point K) → Bool
  | a :: b :: rest =>
    if pointNearLine M point (some a) (some b) tolerance then true
    else polylineLoop M point tolerance (b :: rest)
  | _ => false

def pointNearPolyline (M : JSMath K) (point : Point K) (pts : Option (List (Point K)))
    (tolerance : K) : Bool :=
  match pts with
  | none => false
  | some ps => if ps.length < 2 then false else polylineLoop M point tolerance ps

def pointInRect (M : JSMath K) (point : Point K) (start «end» : Option (Point K))
    (tolerance angle : K) : Bool :=
  match start, «end» with
  | some s, some e =>
    let center : Point K := { x := (s.x + e.x) / 2, y := (s.y + e.y) / 2 }
    let testPoint := if angle = 0 then point else rotatePointAround M point center (-angle)
    let x1 := min s.x e.x - tolerance
    let x2 := max s.x e.x + tolerance
    let y1 := min s.y e.y - tolerance
    let y2 := max s.y e.y + tolerance
    decide (testPoint.x ≥ x1) && decide (testPoint.x ≤ x2) && decide (testPoint.y ≥ y1)
      && decide (testPoint.y ≤ y2)
  | _, _ => false

def pointInEllipse (M : JSMath K) (point : Point K) (start «end» : Option (Point K))
    (tolerance angle : K) : Bool :=
  match start, «end» with
  | some s, some e =>
    let cx := (s.x + e.x) / 2
    let cy := (s.y + e.y) / 2
    let rx := max 1 (abs (s.x - e.x) / 2) + tolerance
    let ry := max 1 (abs (s.y - e.y) / 2) + tolerance
    let testPoint := if angle = 0 then point else rotatePointAround M point { x := cx, y := cy } (-angle)
    if rx = 0 ∨ ry = 0 then false
    else
      let normX := (testPoint.x - cx) / rx
      let normY := (testPoint.y - cy) / ry
      decide (normX * normX + normY * normY ≤ 1)
  | _, _ => false

def pointNearText (M : JSMath K) (point : Point K) (drawing : Drawing K) (tolerance : K) : Bool :=
  match drawing.x, drawing.y with
  | some dx, some dy =>
    let angle := orElse drawing.angle 0
    let center : Point K := { x := dx, y := dy }
    let testPoint := if angle = 0 then point else rotatePointAround M point center (-angle)
    let width : K := (textLengthOr1 drawing.text : K) * 8
    let height : K := 16
    decide (testPoint.x ≥ dx - tolerance) && decide (testPoint.x ≤ dx + width + tolerance)
      && decide (testPoint.y ≥ dy - tolerance) && decide (testPoint.y ≤ dy + height + tolerance)
  | _, _ => false

def pointNearIcon (M : JSMath K) (point : Point K) (drawing : Drawing K) (tolerance : K) : Bool :=
  match drawing.x, drawing.y with
  | some dx, some dy =>
    let angle := orElse drawing.angle 0
    let center : Point K := { x := dx, y := dy }
    let testPoint := if angle = 0 then point else rotatePointAround M point center (-angle)
    let size := orElse drawing.size 16
    decide (abs (testPoint.x - dx) ≤ size / 2 + tolerance)
      && decide (abs (testPoint.y - dy) ≤ size / 2 + tolerance)
  | _, _ => false

def isPointOnDrawing (M : JSMath K) (point : Point K) (drawing : Drawing K) (tolerance : K) : Bool :=
  match drawing.type with
  | .pencil => pointNearPolyline M point drawing.points tolerance
  | .line | .segment => pointNearLine M point drawing.start drawing.«end» tolerance
  | .arrow => pointNearLine M point drawing.start drawing.«end» tolerance
  | .rectangle => pointInRect M point drawing.start drawing.«end» tolerance (orElse drawing.angle 0)
  | .ellipse => pointInEllipse M point drawing.start drawing.«end» tolerance (orElse drawing.angle 0)
  | .text => pointNearText M point drawing tolerance
  | .icon => pointNearIcon M point drawing tolerance
  | .projection => pointNearLine M point drawing.start drawing.«end» tolerance
  | .unknown => false

end MachineDefs

end Machine

end SuperDuperGraphs

/-! ## Properties of the drawing list -/

namespace SuperDuperGraphs

open DrawingManager

section ListProps

/-- What the `hitTest` loop entered below index `n` returns: the greatest hit
index below `n`, or nothing when no index below `n` is hit. -/
theorem hitTestLoop_spec {K : Type} [LinearOrderedField K] (M : JSMath K) (L : List (Drawing K)) (p : Point K) (t : K) :
    ∀ n, n ≤ L.length →
      (∀ h, hitTestLoop M L p t n = some h →
        h.index < n ∧ L[h.index]? = some h.drawing ∧ isPointOnDrawing M p h.drawing t = true ∧
          ∀ j d, h.index < j → j < n → L[j]? = some d → isPointOnDrawing M p d t = false) ∧
      (hitTestLoop M L p t n = none →
        ∀ j d, j < n → L[j]? = some d → isPointOnDrawing M p d t = false) := by
  intro n
  induction n with
  | zero =>
    intro _
    refine ⟨fun h hh => ?_, fun _ j d hj => absurd hj (Nat.not_lt_zero j)⟩
    simp [hitTestLoop] at hh
  | succ i ih =>
    intro hn
    have hi : i < L.length := hn
    have hget : L[i]? = some L[i] := List.getElem?_eq_getElem hi
    obtain ⟨ih1, ih2⟩ := ih (Nat.le_of_lt hi)
    by_cases hit : isPointOnDrawing M p L[i] t = true
    · have hloop : hitTestLoop M L p t (i + 1) = some { index := i, drawing := L[i] } := by
        simp [hitTestLoop, hget, hit]
      refine ⟨fun h hh => ?_, fun hnone => ?_⟩
      · rw [hloop] at hh
        cases hh
        exact ⟨Nat.lt_succ_self i, hget, hit, fun j d hij hj _ => by simp only at hij; omega⟩
      · rw [hloop] at hnone
        cases hnone
    · have hloop : hitTestLoop M L p t (i + 1) = hitTestLoop M L p t i := by
        simp [hitTestLoop, hget, hit]
      have hmiss : isPointOnDrawing M p L[i] t = false := by simpa using hit
      refine ⟨fun h hh => ?_, fun hnone j d hj hd => ?_⟩
      · rw [hloop] at hh
        obtain ⟨h1, h2, h3, h4⟩ := ih1 h hh
        refine ⟨Nat.lt_succ_of_lt h1, h2, h3, fun j d hij hj hd => ?_⟩
        rcases Nat.lt_succ_iff_lt_or_eq.mp hj with hlt | heq
        · exact h4 j d hij hlt hd
        · subst heq
          rw [hget] at hd
          cases hd
          exact hmiss
      · rw [hloop] at hnone
        rcases Nat.lt_succ_iff_lt_or_eq.mp hj with hlt | heq
        · exact ih2 hnone j d hlt hd
        · subst heq
          rw [hget] at hd
          cases hd
          exact hmiss

/-- The `eraseAt` loop finds what the `hitTest` loop finds and removes it. -/
theorem eraseAtLoop_eq {K : Type} [LinearOrderedField K] (M : JSMath K) (L : List (Drawing K)) (p : Point K) (t : K) :
    ∀ n, n ≤ L.length →
      eraseAtLoop M L p t n =
        match hitTestLoop M L p t n with
        | some h => (some h, L.take h.index ++ L.drop (h.index + 1))
        | none => (none, L) := by
  intro n
  induction n with
  | zero => intro _; simp [eraseAtLoop, hitTestLoop]
  | succ i ih =>
    intro hn
    have hi : i < L.length := hn
    have hget : L[i]? = some L[i] := List.getElem?_eq_getElem hi
    by_cases hit : isPointOnDrawing M p L[i] t = true
    · have hdrop : (L.drop i).head? = some L[i] := by
        rw [List.head?_drop, hget]
      simp [eraseAtLoop, hitTestLoop, hget, hit, splice, List.head?_take, hdrop]
    · simp [eraseAtLoop, hitTestLoop, hget, hit, ih (Nat.le_of_lt hi)]

/-- C1: `hitTest(p, t)` returns `{index: i, drawing: L[i]}` exactly for the
greatest index `i` whose entry is hit, and `null` exactly when no entry of
the list is hit.  `hitTest` only reads the list: it is a function of the
manager and yields no new manager. -/
theorem hitTest_topmost {K : Type} [LinearOrderedField K] (M : JSMath K)
    (self : DrawingManager K) (p : Point K) (t : K) :
    (∀ i d, self.hitTest M p t = some { index := i, drawing := d } ↔
      (self.drawings[i]? = some d ∧ isPointOnDrawing M p d t = true ∧
        ∀ j e, i < j → self.drawings[j]? = some e → isPointOnDrawing M p e t = false)) ∧
    (self.hitTest M p t = none ↔ ∀ d ∈ self.drawings, isPointOnDrawing M p d t = false) := by
  obtain ⟨hsome, hnone⟩ := hitTestLoop_spec M self.drawings p t self.drawings.length (Nat.le_refl _)
  have hlt : ∀ j (e : Drawing K), self.drawings[j]? = some e → j < self.drawings.length :=
    fun j e he => (List.getElem?_eq_some_iff.mp he).1
  constructor
  · intro i d
    constructor
    · intro h
      obtain ⟨_, h2, h3, h4⟩ := hsome _ h
      exact ⟨h2, h3, fun j e hij he => h4 j e hij (hlt j e he) he⟩
    · rintro ⟨h2, h3, h4⟩
      cases hres : self.hitTest M p t with
      | none =>
        have := hnone hres i d (hlt i d h2) h2
        rw [h3] at this
        cases this
      | some r =>
        obtain ⟨_, r2, r3, r4⟩ := hsome r hres
        have hidx : r.index = i := by
          rcases Nat.lt_trichotomy r.index i with hlt1 | heq | hgt
          · have := r4 i d hlt1 (hlt i d h2) h2
            rw [h3] at this
            cases this
          · exact heq
          · have := h4 r.index r.drawing hgt r2
            rw [r3] at this
            cases this
        cases r with
        | mk ri rd =>
          simp only at hidx r2
          subst hidx
          rw [h2] at r2
          cases r2
          rfl
  · constructor
    · intro h d hd
      obtain ⟨j, hj, hjd⟩ := List.getElem_of_mem hd
      exact hnone h j d hj (by rw [List.getElem?_eq_getElem hj, hjd])
    · intro h
      cases hres : self.hitTest M p t with
      | none => rfl
      | some r =>
        obtain ⟨_, r2, r3, _⟩ := hsome r hres
        have := h r.drawing (List.getElem?_mem r2)
        rw [r3] at this
        cases this

/-- C1, the scenario of the specification: rectangle A is added, then
rectangle B, both cover `(5, 5)`; `hitTest` answers with B at index 1. -/
theorem hitTest_topmost_witness :
    DrawingManager.hitTest (JSMath.mk Real.cos Real.sin Real.sqrt)
      { drawings := [{ type := .rectangle, start := some ⟨0, 0⟩, «end» := some ⟨10, 10⟩ },
                     { type := .rectangle, start := some ⟨2, 2⟩, «end» := some ⟨8, 8⟩ }] }
      (⟨5, 5⟩ : Point ℝ) 2
      = some { index := 1,
               drawing := { type := .rectangle, start := some ⟨2, 2⟩, «end» := some ⟨8, 8⟩ } } := by
  refine ((hitTest_topmost _ _ _ _).1 1 _).mpr ⟨rfl, ?_, ?_⟩
  · norm_num [isPointOnDrawing, pointInRect, orElse]
  · intro j e hj he
    have : j < 2 := (List.getElem?_eq_some_iff.mp he).1
    omega

/-- C2: `eraseAt(p, t)` finds the entry `hitTest(p, t)` finds, returns it with
its index, and leaves the list without exactly that entry: one shorter, the
entries before `i` where they were, each entry after `i` one place down.
When `hitTest` finds nothing, `eraseAt` returns `null` and the list is as it
was. -/
theorem eraseAt_removes_topmost {K : Type} [LinearOrderedField K] (M : JSMath K) (self : DrawingManager K) (p : Point K) (t : K) :
    (∀ i d, self.hitTest M p t = some { index := i, drawing := d } →
      (self.eraseAt M p t).1 = some { index := i, drawing := d } ∧
      (self.eraseAt M p t).2.drawings.length + 1 = self.drawings.length ∧
      (self.eraseAt M p t).2.drawings = self.drawings.eraseIdx i ∧
      (∀ j, j < i → (self.eraseAt M p t).2.drawings[j]? = self.drawings[j]?) ∧
      (∀ j, i < j → (self.eraseAt M p t).2.drawings[j - 1]? = self.drawings[j]?)) ∧
    (self.hitTest M p t = none → self.eraseAt M p t = (none, self)) := by
  have heq := eraseAtLoop_eq M self.drawings p t self.drawings.length (Nat.le_refl _)
  constructor
  · intro i d h
    have hloop : hitTestLoop M self.drawings p t self.drawings.length
        = some { index := i, drawing := d } := h
    have hi : i < self.drawings.length :=
      ((hitTestLoop_spec M self.drawings p t self.drawings.length (Nat.le_refl _)).1 _ hloop).1
    rw [hloop] at heq
    have hds : (self.eraseAt M p t).2.drawings = self.drawings.eraseIdx i := by
      simp [eraseAt, heq, List.eraseIdx_eq_take_drop_succ]
    refine ⟨by simp [eraseAt, heq], ?_, hds, ?_, ?_⟩
    · rw [hds, List.length_eraseIdx, if_pos hi]
      omega
    · intro j hj
      rw [hds, List.getElem?_eraseIdx, if_pos hj]
    · intro j hj
      rw [hds, List.getElem?_eraseIdx, if_neg (by omega)]
      congr 1
      omega
  · intro h
    have hloop : hitTestLoop M self.drawings p t self.drawings.length = none := h
    rw [hloop] at heq
    simp [eraseAt, heq]

/-- C2 on a list of three: the middle rectangle is the only one under
`(5, 5)`; it is returned with index 1 and the other two close up in order. -/
theorem eraseAt_removes_topmost_witness :
    (DrawingManager.eraseAt (JSMath.mk Real.cos Real.sin Real.sqrt)
      { drawings := [{ type := .rectangle, start := some ⟨20, 20⟩, «end» := some ⟨30, 30⟩ },
                     { type := .rectangle, start := some ⟨0, 0⟩, «end» := some ⟨10, 10⟩ },
                     { type := .rectangle, start := some ⟨40, 40⟩, «end» := some ⟨50, 50⟩ }] }
      (⟨5, 5⟩ : Point ℝ) 2).2.drawings
      = [{ type := .rectangle, start := some ⟨20, 20⟩, «end» := some ⟨30, 30⟩ },
         { type := .rectangle, start := some ⟨40, 40⟩, «end» := some ⟨50, 50⟩ }] := by
  refine (((eraseAt_removes_topmost (JSMath.mk Real.cos Real.sin Real.sqrt)
    { drawings := [{ type := .rectangle, start := some ⟨20, 20⟩, «end» := some ⟨30, 30⟩ },
                   { type := .rectangle, start := some ⟨0, 0⟩, «end» := some ⟨10, 10⟩ },
                   { type := .rectangle, start := some ⟨40, 40⟩, «end» := some ⟨50, 50⟩ }] }
    (⟨5, 5⟩ : Point ℝ) 2).1 1
    { type := .rectangle, start := some ⟨0, 0⟩, «end» := some ⟨10, 10⟩ } ?_).2.2.1).trans rfl
  norm_num [DrawingManager.hitTest, hitTestLoop, isPointOnDrawing, pointInRect, orElse]

/-- C3: `undo()` right after `add(s)` returns a shape equal to `s` and leaves
the list as it was before the `add`. -/
theorem undo_add {K : Type} (self : DrawingManager K) (s : Drawing K) :
    (self.add s).undo = (some s, self) := by
  simp [add, undo, List.getLast?_append]

/-- C3 on a list of one line: adding an icon and undoing gives the icon back
and the list of one line. -/
theorem undo_add_witness :
    DrawingManager.undo
        (DrawingManager.add ({ drawings := [{ type := .line }] } : DrawingManager ℚ)
          { type := .icon, x := some 1, y := some 2 })
      = (some { type := .icon, x := some 1, y := some 2 }, { drawings := [{ type := .line }] }) :=
  undo_add ({ drawings := [{ type := .line }] } : DrawingManager ℚ)
    { type := .icon, x := some 1, y := some 2 }

/-- C4: `undo()` on an empty list returns `null` and leaves it empty; on a
list of length `n > 0` it returns `L[n - 1]` and leaves the first `n - 1`
entries.  `undo` is a total function: it has no failing case. -/
theorem undo_spec {K : Type} (self : DrawingManager K) :
    (self.drawings = [] → self.undo = (none, { drawings := [] })) ∧
    (self.drawings ≠ [] →
      ∃ d, self.drawings[self.drawings.length - 1]? = some d ∧
        self.undo = (some d, { drawings := self.drawings.take (self.drawings.length - 1) })) := by
  cases self with
  | mk L =>
    constructor
    · intro h
      simp only at h
      subst h
      rfl
    · intro h
      simp only at h
      have hlen : L.length ≠ 0 := fun h0 => h (List.length_eq_zero.mp h0)
      refine ⟨L.getLast h, ?_, ?_⟩
      · rw [List.getLast_eq_getElem]
        exact List.getElem?_eq_getElem _
      · simp [undo, hlen, List.getLast?_eq_getLast _ h, List.dropLast_eq_take]

/-- C4 on the empty list and on a list of two. -/
theorem undo_spec_witness :
    DrawingManager.undo ({ drawings := [] } : DrawingManager ℚ) = (none, { drawings := [] }) ∧
    ∃ d, ([{ type := .line }, { type := .icon }] : List (Drawing ℚ))[2 - 1]? = some d ∧
      DrawingManager.undo ({ drawings := [{ type := .line }, { type := .icon }] } : DrawingManager ℚ)
        = (some d, { drawings := [{ type := .line }] }) :=
  ⟨(undo_spec _).1 rfl, (undo_spec { drawings := [{ type := .line }, { type := .icon }] }).2
    (by simp)⟩

/-- C5: `translate` and `rotate` on an index outside `0 .. length - 1` return
`null` and leave the list as it was. -/
theorem translate_rotate_out_of_range {K : Type} [LinearOrderedField K] (M : JSMath K) (self : DrawingManager K) (i : Int)
    (dx dy angleDelta : K) (h : i < 0 ∨ (self.drawings.length : Int) ≤ i) :
    self.translate i dx dy = (none, self) ∧ self.rotate M i angleDelta = (none, self) := by
  have hget : arrayGet self.drawings i = none := by
    unfold arrayGet
    split
    · rw [List.getElem?_eq_none_iff]
      omega
    · rfl
  simp [DrawingManager.translate, DrawingManager.rotate, hget]

/-- C5 at index `-1` of a list of one rectangle. -/
theorem translate_rotate_out_of_range_witness :
    ((-1 : Int) < 0 ∨ ((([{ type := .rectangle, start := some ⟨0, 0⟩, «end» := some ⟨10, 10⟩ }] :
        List (Drawing ℝ)).length : Nat) : Int) ≤ -1) ∧
    DrawingManager.translate
        ({ drawings := [{ type := .rectangle, start := some ⟨0, 0⟩, «end» := some ⟨10, 10⟩ }] } :
          DrawingManager ℝ) (-1) 3 4
      = (none, { drawings := [{ type := .rectangle, start := some ⟨0, 0⟩, «end» := some ⟨10, 10⟩ }] }) ∧
    DrawingManager.rotate (JSMath.mk Real.cos Real.sin Real.sqrt)
        ({ drawings := [{ type := .rectangle, start := some ⟨0, 0⟩, «end» := some ⟨10, 10⟩ }] } :
          DrawingManager ℝ) (-1) 1
      = (none, { drawings := [{ type := .rectangle, start := some ⟨0, 0⟩, «end» := some ⟨10, 10⟩ }] }) :=
  ⟨Or.inl (by decide), translate_rotate_out_of_range _ _ (-1) 3 4 1 (Or.inl (by decide))⟩

/-- With no `baseDrawing`, `resizeTo` on an index outside `0 .. length - 1`
returns `null` and leaves the list as it was. -/
theorem resizeTo_out_of_range_no_base {K : Type} [LinearOrderedField K] (M : JSMath K)
    (fmt : K → String) (self : DrawingManager K) (i : Int) (anchor : Point K)
    (angle scaleX scaleY : K) (h : i < 0 ∨ (self.drawings.length : Int) ≤ i) :
    self.resizeTo M fmt i none anchor angle scaleX scaleY = (none, some self) := by
  have hget : arrayGet self.drawings i = none := by
    unfold arrayGet
    split
    · rw [List.getElem?_eq_none_iff]
      omega
    · rfl
  simp [resizeTo, hget]

/-- With a `baseDrawing`, `resizeTo` never looks at the index before it
writes: at `index = length` it returns the scaled snapshot and appends it. -/
theorem resizeTo_base_at_length {K : Type} [LinearOrderedField K] (M : JSMath K)
    (fmt : K → String) (self : DrawingManager K) (base : Drawing K) (anchor : Point K)
    (angle scaleX scaleY : K) :
    self.resizeTo M fmt (self.drawings.length : Int) (some base) anchor angle scaleX scaleY
      = (some (scaleDrawing M fmt base anchor angle scaleX scaleY),
         some { drawings := self.drawings ++ [scaleDrawing M fmt base anchor angle scaleX scaleY] }) := by
  simp [resizeTo, arraySet]

/-- C6, the code at the failing input: on the empty list, index 0 is out of
range, yet `resizeTo(0, rect, (0,0), 0, 1, 1)` with a rectangle snapshot
returns that rectangle instead of `null`, and the list afterwards holds one
entry. -/
theorem resizeTo_out_of_range_with_base (fmt : ℝ → String) :
    DrawingManager.resizeTo (JSMath.mk Real.cos Real.sin Real.sqrt) fmt { drawings := [] } 0
        (some { type := .rectangle, start := some ⟨0, 0⟩, «end» := some ⟨10, 10⟩ }) ⟨0, 0⟩ 0 1 1
      = (some { type := .rectangle, start := some ⟨0, 0⟩, «end» := some ⟨10, 10⟩ },
         some { drawings := [{ type := .rectangle, start := some ⟨0, 0⟩, «end» := some ⟨10, 10⟩ }] }) := by
  have h := resizeTo_base_at_length (JSMath.mk Real.cos Real.sin Real.sqrt) fmt { drawings := [] }
    { type := .rectangle, start := some ⟨0, 0⟩, «end» := some ⟨10, 10⟩ } ⟨0, 0⟩ 0 1 1
  have hs : scaleDrawing (JSMath.mk Real.cos Real.sin Real.sqrt) fmt
      { type := .rectangle, start := some ⟨0, 0⟩, «end» := some ⟨10, 10⟩ } ⟨0, 0⟩ 0 1 1
      = { type := .rectangle, start := some ⟨0, 0⟩, «end» := some ⟨10, 10⟩ } := by
    simp [scaleDrawing, scalePoint, rotatePointAround]
  rw [hs] at h
  simpa using h

end ListProps

/-! ## Properties of the geometry kernel and of the hit tests, over the reals -/

section RealProps

/-- C7: rotating a point about `C` by `θ` and then by `-θ` gives the point
back, and `rotatePointAround` is the standard rotation `C + R(θ)(P - C)` with
`R(θ) = [[cos θ, -sin θ], [sin θ, cos θ]]`. -/
theorem rotatePointAround_round_trip (P C : Point ℝ) (θ : ℝ) :
    rotatePointAround (JSMath.mk Real.cos Real.sin Real.sqrt)
        (rotatePointAround (JSMath.mk Real.cos Real.sin Real.sqrt) P C θ) C (-θ) = P ∧
    rotatePointAround (JSMath.mk Real.cos Real.sin Real.sqrt) P C θ
      = { x := C.x + (Matrix.mulVec !![Real.cos θ, -Real.sin θ; Real.sin θ, Real.cos θ]
                        ![P.x - C.x, P.y - C.y]) 0
          y := C.y + (Matrix.mulVec !![Real.cos θ, -Real.sin θ; Real.sin θ, Real.cos θ]
                        ![P.x - C.x, P.y - C.y]) 1 } := by
  constructor
  · ext
    · simp only [rotatePointAround, Real.cos_neg, Real.sin_neg]
      linear_combination (P.x - C.x) * Real.cos_sq_add_sin_sq θ
    · simp only [rotatePointAround, Real.cos_neg, Real.sin_neg]
      linear_combination (P.y - C.y) * Real.cos_sq_add_sin_sq θ
  · ext
    · simp [rotatePointAround, Matrix.mulVec, Matrix.dotProduct, Fin.sum_univ_two]
      ring
    · simp [rotatePointAround, Matrix.mulVec, Matrix.dotProduct, Fin.sum_univ_two]
      ring

/-- C7 at `P = (1, 2)`, `C = (3, 4)` and a quarter turn. -/
theorem rotatePointAround_round_trip_witness :
    rotatePointAround (JSMath.mk Real.cos Real.sin Real.sqrt)
        (rotatePointAround (JSMath.mk Real.cos Real.sin Real.sqrt) ⟨1, 2⟩ ⟨3, 4⟩ (Real.pi / 2))
        ⟨3, 4⟩ (-(Real.pi / 2)) = ⟨1, 2⟩ :=
  (rotatePointAround_round_trip ⟨1, 2⟩ ⟨3, 4⟩ (Real.pi / 2)).1

/-- A quadratic `t ↦ Q (t² - 2 t t₀)` with `Q ≥ 0` is least on `[0, 1]` at
`t₀` clamped to `[0, 1]`. -/
theorem clamp_minimises (Q t0 t : ℝ) (hQ : 0 ≤ Q) (h0 : 0 ≤ t) (h1 : t ≤ 1) :
    Q * ((max 0 (min 1 t0)) ^ 2 - 2 * (max 0 (min 1 t0)) * t0) ≤ Q * (t ^ 2 - 2 * t * t0) := by
  apply mul_le_mul_of_nonneg_left _ hQ
  rcases le_total t0 0 with hneg | hpos
  · have hs : max 0 (min 1 t0) = 0 := by
      rw [min_eq_right (by linarith), max_eq_left hneg]
    rw [hs]
    nlinarith [mul_nonneg h0 h0, mul_nonneg h0 (neg_nonneg.mpr hneg)]
  · rcases le_total t0 1 with hle | hge
    · have hs : max 0 (min 1 t0) = t0 := by
        rw [min_eq_right hle, max_eq_right hpos]
      rw [hs]
      nlinarith [sq_nonneg (t - t0)]
    · have hs : max 0 (min 1 t0) = 1 := by
        rw [min_eq_left hge, max_eq_right zero_le_one]
      rw [hs]
      nlinarith [mul_nonneg (sub_nonneg.mpr h1) (sub_nonneg.mpr h1),
        mul_nonneg (sub_nonneg.mpr h1) (sub_nonneg.mpr hge)]

/-- The squared distance from `p` to `a + t (b - a)` as a quadratic in `t`. -/
theorem sqDist_segmentPoint (p a b : Point ℝ) (t : ℝ) :
    (p.x - (segmentPoint a b t).x) ^ 2 + (p.y - (segmentPoint a b t).y) ^ 2
      = ((p.x - a.x) ^ 2 + (p.y - a.y) ^ 2)
        + (t ^ 2 * ((b.x - a.x) ^ 2 + (b.y - a.y) ^ 2)
            - 2 * t * ((p.x - a.x) * (b.x - a.x) + (p.y - a.y) * (b.y - a.y))) := by
  simp only [segmentPoint]
  ring

/-- For `a ≠ b`, `distanceToSegment` is the distance to the segment point at
the clamped projection parameter. -/
theorem distanceToSegment_eq_clamped (p a b : Point ℝ) (hab : a ≠ b) :
    distanceToSegment (JSMath.mk Real.cos Real.sin Real.sqrt) p a b
      = euclideanDistance (JSMath.mk Real.cos Real.sin Real.sqrt) p
          (segmentPoint a b (max 0 (min 1 (projectionParameter p a b)))) := by
  have hne : ¬ (b.x - a.x = 0 ∧ b.y - a.y = 0) := by
    rintro ⟨hx, hy⟩
    exact hab (Point.ext (sub_eq_zero.mp hx).symm (sub_eq_zero.mp hy).symm)
  simp only [distanceToSegment, hne, if_false, euclideanDistance, segmentPoint,
    projectionParameter, JSMath.hypot]
  congr 1
  ring_nf

/-- C8: `distanceToSegment(p, a, b)` is the least Euclidean distance from `p`
to the points `a + t (b - a)`, `0 ≤ t ≤ 1`: it is attained on the segment and
no segment point is nearer.  It is the distance from `p` to `a` when `a = b`,
the perpendicular distance to the line when the projection parameter lies in
`[0, 1]`, and the distance to the nearer endpoint otherwise. -/
theorem distanceToSegment_is_minimum (p a b : Point ℝ) :
    (∃ t, 0 ≤ t ∧ t ≤ 1 ∧
      distanceToSegment (JSMath.mk Real.cos Real.sin Real.sqrt) p a b
        = euclideanDistance (JSMath.mk Real.cos Real.sin Real.sqrt) p (segmentPoint a b t)) ∧
    (∀ t, 0 ≤ t → t ≤ 1 →
      distanceToSegment (JSMath.mk Real.cos Real.sin Real.sqrt) p a b
        ≤ euclideanDistance (JSMath.mk Real.cos Real.sin Real.sqrt) p (segmentPoint a b t)) ∧
    (a = b →
      distanceToSegment (JSMath.mk Real.cos Real.sin Real.sqrt) p a b
        = euclideanDistance (JSMath.mk Real.cos Real.sin Real.sqrt) p a) ∧
    (a ≠ b → 0 ≤ projectionParameter p a b → projectionParameter p a b ≤ 1 →
      distanceToSegment (JSMath.mk Real.cos Real.sin Real.sqrt) p a b
        = |(b.x - a.x) * (p.y - a.y) - (b.y - a.y) * (p.x - a.x)|
            / euclideanDistance (JSMath.mk Real.cos Real.sin Real.sqrt) a b) ∧
    (a ≠ b → projectionParameter p a b < 0 →
      distanceToSegment (JSMath.mk Real.cos Real.sin Real.sqrt) p a b
        = euclideanDistance (JSMath.mk Real.cos Real.sin Real.sqrt) p a ∧
      euclideanDistance (JSMath.mk Real.cos Real.sin Real.sqrt) p a
        ≤ euclideanDistance (JSMath.mk Real.cos Real.sin Real.sqrt) p b) ∧
    (a ≠ b → 1 < projectionParameter p a b →
      distanceToSegment (JSMath.mk Real.cos Real.sin Real.sqrt) p a b
        = euclideanDistance (JSMath.mk Real.cos Real.sin Real.sqrt) p b ∧
      euclideanDistance (JSMath.mk Real.cos Real.sin Real.sqrt) p b
        ≤ euclideanDistance (JSMath.mk Real.cos Real.sin Real.sqrt) p a) := by
  have hseg0 : segmentPoint a b 0 = a := by ext <;> simp [segmentPoint]
  have hseg1 : segmentPoint a b 1 = b := by ext <;> simp [segmentPoint]
  -- the case `a = b`
  have hdeg : a = b → ∀ t,
      distanceToSegment (JSMath.mk Real.cos Real.sin Real.sqrt) p a b
        = euclideanDistance (JSMath.mk Real.cos Real.sin Real.sqrt) p (segmentPoint a b t) := by
    intro hab t
    subst hab
    simp [distanceToSegment, euclideanDistance, segmentPoint, JSMath.hypot, sq]
  -- the minimum, for `a ≠ b`
  have hmin : a ≠ b → ∀ t, 0 ≤ t → t ≤ 1 →
      distanceToSegment (JSMath.mk Real.cos Real.sin Real.sqrt) p a b
        ≤ euclideanDistance (JSMath.mk Real.cos Real.sin Real.sqrt) p (segmentPoint a b t) := by
    intro hab t h0 h1
    rw [distanceToSegment_eq_clamped p a b hab]
    simp only [euclideanDistance]
    apply Real.sqrt_le_sqrt
    rw [sqDist_segmentPoint, sqDist_segmentPoint]
    have hQ : 0 ≤ (b.x - a.x) ^ 2 + (b.y - a.y) ^ 2 := by positivity
    have hQne : (b.x - a.x) ^ 2 + (b.y - a.y) ^ 2 ≠ 0 := by
      intro h0'
      have hx : b.x - a.x = 0 := by nlinarith [sq_nonneg (b.x - a.x), sq_nonneg (b.y - a.y)]
      have hy : b.y - a.y = 0 := by nlinarith [sq_nonneg (b.x - a.x), sq_nonneg (b.y - a.y)]
      exact hab (Point.ext (sub_eq_zero.mp hx).symm (sub_eq_zero.mp hy).symm)
    have hN : (p.x - a.x) * (b.x - a.x) + (p.y - a.y) * (b.y - a.y)
        = projectionParameter p a b * ((b.x - a.x) ^ 2 + (b.y - a.y) ^ 2) := by
      unfold projectionParameter
      field_simp
    have key := clamp_minimises _ (projectionParameter p a b) t hQ h0 h1
    rw [hN]
    nlinarith [key]
  refine ⟨?_, ?_, fun hab => ?_, fun hab h0 h1 => ?_, fun hab hneg => ?_, fun hab hgt => ?_⟩
  · by_cases hab : a = b
    · exact ⟨0, le_refl 0, zero_le_one, hdeg hab 0⟩
    · exact ⟨max 0 (min 1 (projectionParameter p a b)), le_max_left _ _,
        max_le zero_le_one (min_le_left _ _), distanceToSegment_eq_clamped p a b hab⟩
  · intro t h0 h1
    by_cases hab : a = b
    · exact le_of_eq (hdeg hab t)
    · exact hmin hab t h0 h1
  · rw [hdeg hab 0, hseg0]
  · rw [distanceToSegment_eq_clamped p a b hab, min_eq_right h1, max_eq_right h0]
    have hQpos : 0 < (b.x - a.x) ^ 2 + (b.y - a.y) ^ 2 := by
      rcases lt_or_eq_of_le (by positivity : 0 ≤ (b.x - a.x) ^ 2 + (b.y - a.y) ^ 2) with h | h
      · exact h
      · exfalso
        have hx : b.x - a.x = 0 := by nlinarith [sq_nonneg (b.x - a.x), sq_nonneg (b.y - a.y)]
        have hy : b.y - a.y = 0 := by nlinarith [sq_nonneg (b.x - a.x), sq_nonneg (b.y - a.y)]
        exact hab (Point.ext (sub_eq_zero.mp hx).symm (sub_eq_zero.mp hy).symm)
    simp only [euclideanDistance]
    rw [sqDist_segmentPoint]
    have hab2 : (a.x - b.x) ^ 2 + (a.y - b.y) ^ 2 = (b.x - a.x) ^ 2 + (b.y - a.y) ^ 2 := by ring
    rw [hab2, ← Real.sqrt_sq_eq_abs, ← Real.sqrt_div (sq_nonneg _)]
    congr 1
    unfold projectionParameter
    field_simp
    ring
  · rw [distanceToSegment_eq_clamped p a b hab, min_eq_right (by linarith),
      max_eq_left (le_of_lt hneg), hseg0]
    refine ⟨rfl, ?_⟩
    have := hmin hab 1 zero_le_one (le_refl 1)
    rwa [distanceToSegment_eq_clamped p a b hab, min_eq_right (by linarith),
      max_eq_left (le_of_lt hneg), hseg0, hseg1] at this
  · rw [distanceToSegment_eq_clamped p a b hab, min_eq_left (le_of_lt hgt),
      max_eq_right zero_le_one, hseg1]
    refine ⟨rfl, ?_⟩
    have := hmin hab 0 (le_refl 0) zero_le_one
    rwa [distanceToSegment_eq_clamped p a b hab, min_eq_left (le_of_lt hgt),
      max_eq_right zero_le_one, hseg0, hseg1] at this

/-- C8, the scenario of the specification: the distance from `(5, 3)` to the
segment from `(0, 0)` to `(10, 0)` is 3, the perpendicular distance. -/
theorem distanceToSegment_is_minimum_witness :
    distanceToSegment (JSMath.mk Real.cos Real.sin Real.sqrt) ⟨5, 3⟩ ⟨0, 0⟩ ⟨10, 0⟩ = 3 := by
  have hab : (⟨0, 0⟩ : Point ℝ) ≠ ⟨10, 0⟩ := by
    intro h
    have hx := congrArg Point.x h
    norm_num at hx
  have h := (distanceToSegment_is_minimum ⟨5, 3⟩ ⟨0, 0⟩ ⟨10, 0⟩).2.2.2.1 hab
    (by norm_num [projectionParameter]) (by norm_num [projectionParameter])
  rw [h]
  have hsqrt : Real.sqrt 100 = 10 := by
    rw [show (100 : ℝ) = 10 ^ 2 by norm_num]
    exact Real.sqrt_sq (by norm_num)
  norm_num [euclideanDistance, hsqrt]

/-- The expression `v || 0` is `v`, or `0` when `v` is absent. -/
theorem orElse_zero {K : Type} [LinearOrderedField K] (v : Option K) : orElse v 0 = v.getD 0 := by
  cases v with
  | none => rfl
  | some a =>
    by_cases h : a = 0
    · simp [orElse, h]
    · simp [orElse, h]

/-- The hit tests skip the rotation when the angle is `0`; over the reals
that is the rotation by `-0`. -/
theorem testPoint_eq_rotate (p c : Point ℝ) (θ : ℝ) :
    (if θ = 0 then p else rotatePointAround (JSMath.mk Real.cos Real.sin Real.sqrt) p c (-θ))
      = rotatePointAround (JSMath.mk Real.cos Real.sin Real.sqrt) p c (-θ) := by
  by_cases h : θ = 0
  · subst h
    ext <;> simp [rotatePointAround]
  · simp [h]

/-- C9: a rectangle is hit at `p` exactly when `p`, rotated back by `-θ` about
the midpoint of `start` and `end`, lies in the axis-aligned box of `start` and
`end` inflated by the tolerance; so for a tolerance `t ≥ 0` every point whose
un-rotated image lies anywhere in the box, the interior included, is a hit.
`θ` is the `angle` field, `0` when absent. -/
theorem rectangle_hit_iff (d : Drawing ℝ) (s e p : Point ℝ) (t : ℝ)
    (hty : d.type = DrawingType.rectangle) (hs : d.start = some s) (he : d.«end» = some e) :
    (isPointOnDrawing (JSMath.mk Real.cos Real.sin Real.sqrt) p d t = true ↔
      (min s.x e.x - t ≤ (rotatePointAround (JSMath.mk Real.cos Real.sin Real.sqrt) p
          { x := (s.x + e.x) / 2, y := (s.y + e.y) / 2 } (-(d.angle.getD 0))).x ∧
       (rotatePointAround (JSMath.mk Real.cos Real.sin Real.sqrt) p
          { x := (s.x + e.x) / 2, y := (s.y + e.y) / 2 } (-(d.angle.getD 0))).x ≤ max s.x e.x + t ∧
       min s.y e.y - t ≤ (rotatePointAround (JSMath.mk Real.cos Real.sin Real.sqrt) p
          { x := (s.x + e.x) / 2, y := (s.y + e.y) / 2 } (-(d.angle.getD 0))).y ∧
       (rotatePointAround (JSMath.mk Real.cos Real.sin Real.sqrt) p
          { x := (s.x + e.x) / 2, y := (s.y + e.y) / 2 } (-(d.angle.getD 0))).y ≤ max s.y e.y + t)) ∧
    (0 ≤ t →
      min s.x e.x ≤ (rotatePointAround (JSMath.mk Real.cos Real.sin Real.sqrt) p
          { x := (s.x + e.x) / 2, y := (s.y + e.y) / 2 } (-(d.angle.getD 0))).x →
      (rotatePointAround (JSMath.mk Real.cos Real.sin Real.sqrt) p
          { x := (s.x + e.x) / 2, y := (s.y + e.y) / 2 } (-(d.angle.getD 0))).x ≤ max s.x e.x →
      min s.y e.y ≤ (rotatePointAround (JSMath.mk Real.cos Real.sin Real.sqrt) p
          { x := (s.x + e.x) / 2, y := (s.y + e.y) / 2 } (-(d.angle.getD 0))).y →
      (rotatePointAround (JSMath.mk Real.cos Real.sin Real.sqrt) p
          { x := (s.x + e.x) / 2, y := (s.y + e.y) / 2 } (-(d.angle.getD 0))).y ≤ max s.y e.y →
      isPointOnDrawing (JSMath.mk Real.cos Real.sin Real.sqrt) p d t = true) := by
  have hiff : isPointOnDrawing (JSMath.mk Real.cos Real.sin Real.sqrt) p d t = true ↔
      (min s.x e.x - t ≤ (rotatePointAround (JSMath.mk Real.cos Real.sin Real.sqrt) p
          { x := (s.x + e.x) / 2, y := (s.y + e.y) / 2 } (-(d.angle.getD 0))).x ∧
       (rotatePointAround (JSMath.mk Real.cos Real.sin Real.sqrt) p
          { x := (s.x + e.x) / 2, y := (s.y + e.y) / 2 } (-(d.angle.getD 0))).x ≤ max s.x e.x + t ∧
       min s.y e.y - t ≤ (rotatePointAround (JSMath.mk Real.cos Real.sin Real.sqrt) p
          { x := (s.x + e.x) / 2, y := (s.y + e.y) / 2 } (-(d.angle.getD 0))).y ∧
       (rotatePointAround (JSMath.mk Real.cos Real.sin Real.sqrt) p
          { x := (s.x + e.x) / 2, y := (s.y + e.y) / 2 } (-(d.angle.getD 0))).y ≤ max s.y e.y + t) := by
    simp only [isPointOnDrawing, hty, pointInRect, hs, he, orElse_zero, testPoint_eq_rotate,
      Bool.and_eq_true, decide_eq_true_eq, ge_iff_le, and_assoc]
  refine ⟨hiff, fun ht h1 h2 h3 h4 => hiff.mpr ⟨?_, ?_, ?_, ?_⟩⟩ <;> linarith

/-- C9, the scenario of the specification: the rectangle from `(0, 0)` to
`(10, 10)` with tolerance 2 is hit at its interior point `(5, 5)` and is not
hit at `(50, 50)`. -/
theorem rectangle_hit_iff_witness :
    isPointOnDrawing (JSMath.mk Real.cos Real.sin Real.sqrt) ⟨5, 5⟩
        { type := .rectangle, start := some ⟨0, 0⟩, «end» := some ⟨10, 10⟩ } 2 = true ∧
    isPointOnDrawing (JSMath.mk Real.cos Real.sin Real.sqrt) ⟨50, 50⟩
        { type := .rectangle, start := some ⟨0, 0⟩, «end» := some ⟨10, 10⟩ } 2 = false := by
  constructor
  · refine (rectangle_hit_iff { type := .rectangle, start := some ⟨0, 0⟩, «end» := some ⟨10, 10⟩ }
      ⟨0, 0⟩ ⟨10, 10⟩ ⟨5, 5⟩ 2 rfl rfl rfl).1.mpr ?_
    norm_num [rotatePointAround]
  · rw [← Bool.not_eq_true]
    intro h
    have h' := (rectangle_hit_iff { type := .rectangle, start := some ⟨0, 0⟩, «end» := some ⟨10, 10⟩ }
      ⟨0, 0⟩ ⟨10, 10⟩ ⟨50, 50⟩ 2 rfl rfl rfl).1.mp h
    norm_num [rotatePointAround] at h'

/-- C10 as stated fails on a degenerate ellipse: for the ellipse boxed by
`(0, 0)` and `(1, 1)` (half-width and half-height 1/2) and tolerance 0, the
point `(3/2, 1/2)` is a hit, while the equation with radii
`|start.x - end.x| / 2 + t = 1/2` rejects it. -/
theorem ellipse_hit_radii_counterexample :
    ¬ (isPointOnDrawing (JSMath.mk Real.cos Real.sin Real.sqrt) ⟨3 / 2, 1 / 2⟩
          { type := .ellipse, start := some ⟨0, 0⟩, «end» := some ⟨1, 1⟩ } 0 = true ↔
        ellipseEquation (JSMath.mk Real.cos Real.sin Real.sqrt) ⟨3 / 2, 1 / 2⟩ ⟨0, 0⟩ ⟨1, 1⟩ 0
          (|(0 : ℝ) - 1| / 2 + 0) (|(0 : ℝ) - 1| / 2 + 0)) := by
  intro h
  have hhit : isPointOnDrawing (JSMath.mk Real.cos Real.sin Real.sqrt) ⟨3 / 2, 1 / 2⟩
      { type := .ellipse, start := some ⟨0, 0⟩, «end» := some ⟨1, 1⟩ } 0 = true := by
    norm_num [isPointOnDrawing, pointInEllipse, orElse]
  have hclaim := h.mp hhit
  norm_num [ellipseEquation, rotatePointAround] at hclaim

/-- C10, amended: for a tolerance `t ≥ 0` an ellipse is hit at `p` exactly
when `p`, rotated back by `-θ` about the midpoint of `start` and `end`,
satisfies the normalised ellipse equation with radii
`rx = max(1, |start.x - end.x| / 2) + t` and
`ry = max(1, |start.y - end.y| / 2) + t`; when both half-extents are at least
1 these are the radii `|start.x - end.x| / 2 + t`, `|start.y - end.y| / 2 + t`.
`θ` is the `angle` field, `0` when absent. -/
theorem ellipse_hit_iff (d : Drawing ℝ) (s e p : Point ℝ) (t : ℝ)
    (hty : d.type = DrawingType.ellipse) (hs : d.start = some s) (he : d.«end» = some e)
    (ht : 0 ≤ t) :
    (isPointOnDrawing (JSMath.mk Real.cos Real.sin Real.sqrt) p d t = true ↔
      ellipseEquation (JSMath.mk Real.cos Real.sin Real.sqrt) p s e (d.angle.getD 0)
        (max 1 (|s.x - e.x| / 2) + t) (max 1 (|s.y - e.y| / 2) + t)) ∧
    (1 ≤ |s.x - e.x| / 2 → 1 ≤ |s.y - e.y| / 2 →
      (isPointOnDrawing (JSMath.mk Real.cos Real.sin Real.sqrt) p d t = true ↔
        ellipseEquation (JSMath.mk Real.cos Real.sin Real.sqrt) p s e (d.angle.getD 0)
          (|s.x - e.x| / 2 + t) (|s.y - e.y| / 2 + t))) := by
  have hrx : max 1 (|s.x - e.x| / 2) + t ≠ 0 := by
    have := le_max_left (1 : ℝ) (|s.x - e.x| / 2)
    intro h0
    linarith
  have hry : max 1 (|s.y - e.y| / 2) + t ≠ 0 := by
    have := le_max_left (1 : ℝ) (|s.y - e.y| / 2)
    intro h0
    linarith
  have hiff : isPointOnDrawing (JSMath.mk Real.cos Real.sin Real.sqrt) p d t = true ↔
      ellipseEquation (JSMath.mk Real.cos Real.sin Real.sqrt) p s e (d.angle.getD 0)
        (max 1 (|s.x - e.x| / 2) + t) (max 1 (|s.y - e.y| / 2) + t) := by
    simp only [isPointOnDrawing, hty, pointInEllipse, hs, he, orElse_zero, testPoint_eq_rotate,
      hrx, hry, or_self, if_false, decide_eq_true_eq, ellipseEquation, sq]
  refine ⟨hiff, fun hx hy => ?_⟩
  rw [hiff, max_eq_right hx, max_eq_right hy]

/-- C10 amended, at the degenerate ellipse boxed by `(0, 0)` and `(1, 1)`:
with tolerance 0 the radii are 1, and the point `(3/2, 1/2)`, at distance 1
from the centre, is a hit. -/
theorem ellipse_hit_iff_witness :
    (0 : ℝ) ≤ 0 ∧
    isPointOnDrawing (JSMath.mk Real.cos Real.sin Real.sqrt) ⟨3 / 2, 1 / 2⟩
      { type := .ellipse, start := some ⟨0, 0⟩, «end» := some ⟨1, 1⟩ } 0 = true := by
  refine ⟨le_refl 0, (ellipse_hit_iff { type := .ellipse, start := some ⟨0, 0⟩, «end» := some ⟨1, 1⟩ }
    ⟨0, 0⟩ ⟨1, 1⟩ ⟨3 / 2, 1 / 2⟩ 0 rfl rfl rfl (le_refl 0)).1.mpr ?_⟩
  norm_num [ellipseEquation, rotatePointAround]

end RealProps

/-! ## The line-like hit tests -/

section LineProps

/-- The loop of `pointNearPolyline` answers true exactly when some pair of
consecutive points spans a segment within the tolerance. -/
theorem polylineLoop_iff {K : Type} [LinearOrderedField K] (M : JSMath K) (p : Point K) (t : K) :
    ∀ ps : List (Point K), polylineLoop M p t ps = true ↔
      ∃ i a b, ps[i]? = some a ∧ ps[i + 1]? = some b ∧ distanceToSegment M p a b ≤ t
  | [] => by simp [polylineLoop]
  | [a] => by simp [polylineLoop]
  | a :: b :: rest => by
    have ih := polylineLoop_iff M p t (b :: rest)
    constructor
    · intro h
      by_cases hab : distanceToSegment M p a b ≤ t
      · exact ⟨0, a, b, rfl, by simp, hab⟩
      · have h' : polylineLoop M p t (b :: rest) = true := by
          simpa [polylineLoop, pointNearLine, hab] using h
        obtain ⟨i, x, y, h1, h2, h3⟩ := ih.mp h'
        exact ⟨i + 1, x, y, by simpa using h1, by simpa using h2, h3⟩
    · rintro ⟨i, x, y, h1, h2, h3⟩
      by_cases hab : distanceToSegment M p a b ≤ t
      · simp [polylineLoop, pointNearLine, hab]
      · cases i with
        | zero =>
          simp only [List.getElem?_cons_zero, Option.some.injEq, zero_add,
            List.getElem?_cons_succ] at h1 h2
          subst h1 h2
          exact absurd h3 hab
        | succ j =>
          have h' : polylineLoop M p t (b :: rest) = true :=
            ih.mpr ⟨j, x, y, by simpa using h1, by simpa using h2, h3⟩
          simpa [polylineLoop, pointNearLine, hab] using h'

/-- Over the reals, the distance from `(5, y)` to the segment from `(0, 0)` to
`(10, 0)` is `|y|`. -/
theorem distanceToSegment_above_midpoint (y : ℝ) :
    distanceToSegment (JSMath.mk Real.cos Real.sin Real.sqrt) ⟨5, y⟩ ⟨0, 0⟩ ⟨10, 0⟩ = |y| := by
  have ht : max (0 : ℝ) (min 1 ((5 * 10) / (10 * 10))) = 1 / 2 := by norm_num
  simp only [distanceToSegment, JSMath.hypot]
  norm_num [ht]
  exact Real.sqrt_mul_self_eq_abs y

/-- C11: a pencil path with points `pts` is hit exactly when some pair of
consecutive points `pts[i]`, `pts[i + 1]` has `distanceToSegment` at most the
tolerance; a line, segment, arrow or projection with `start` and `end` is hit
exactly when `distanceToSegment(p, start, end)` is at most the tolerance (the
arrow head and the projection label add nothing). -/
theorem lineLike_hit_iff {K : Type} [LinearOrderedField K] (M : JSMath K) (p : Point K) (t : K)
    (d : Drawing K) :
    (∀ pts, d.type = DrawingType.pencil → d.points = some pts →
      (isPointOnDrawing M p d t = true ↔
        ∃ i a b, pts[i]? = some a ∧ pts[i + 1]? = some b ∧ distanceToSegment M p a b ≤ t)) ∧
    (∀ s e, d.type = DrawingType.line ∨ d.type = DrawingType.segment ∨
        d.type = DrawingType.arrow ∨ d.type = DrawingType.projection →
      d.start = some s → d.«end» = some e →
      (isPointOnDrawing M p d t = true ↔ distanceToSegment M p s e ≤ t)) := by
  constructor
  · intro pts hty hpts
    rw [← polylineLoop_iff M p t pts]
    by_cases hlen : pts.length < 2
    · have hloop : polylineLoop M p t pts = false := by
        match pts, hlen with
        | [], _ => rfl
        | [_], _ => rfl
        | _ :: _ :: _, h => exact absurd h (by simp)
      simp [isPointOnDrawing, hty, pointNearPolyline, hpts, hlen, hloop]
    · simp [isPointOnDrawing, hty, pointNearPolyline, hpts, hlen]
  · intro s e hty hs he
    rcases hty with h | h | h | h <;>
      simp [isPointOnDrawing, h, pointNearLine, hs, he]

/-- C11, the scenario of the specification: the pencil path through `(0, 0)`
and `(10, 0)` with tolerance 5 is hit at `(5, 3)` and is not hit at
`(5, 10)`. -/
theorem lineLike_hit_iff_witness :
    isPointOnDrawing (JSMath.mk Real.cos Real.sin Real.sqrt) ⟨5, 3⟩
        { type := .pencil, points := some [⟨0, 0⟩, ⟨10, 0⟩] } 5 = true ∧
    isPointOnDrawing (JSMath.mk Real.cos Real.sin Real.sqrt) ⟨5, 10⟩
        { type := .pencil, points := some [⟨0, 0⟩, ⟨10, 0⟩] } 5 = false := by
  constructor
  · refine ((lineLike_hit_iff (JSMath.mk Real.cos Real.sin Real.sqrt) ⟨5, 3⟩ 5
      { type := .pencil, points := some [⟨0, 0⟩, ⟨10, 0⟩] }).1 _ rfl rfl).mpr
      ⟨0, ⟨0, 0⟩, ⟨10, 0⟩, rfl, rfl, ?_⟩
    rw [distanceToSegment_above_midpoint, abs_of_pos (by norm_num)]
    norm_num
  · rw [← Bool.not_eq_true]
    intro h
    obtain ⟨i, a, b, h1, h2, h3⟩ :=
      ((lineLike_hit_iff (JSMath.mk Real.cos Real.sin Real.sqrt) ⟨5, 10⟩ 5
        { type := .pencil, points := some [⟨0, 0⟩, ⟨10, 0⟩] }).1 _ rfl rfl).mp h
    have hi : i = 0 := by
      have := (List.getElem?_eq_some_iff.mp h2).1
      simp at this
      omega
    subst hi
    simp only [List.getElem?_cons_zero, Option.some.injEq, zero_add,
      List.getElem?_cons_succ] at h1 h2
    subst h1 h2
    rw [distanceToSegment_above_midpoint, abs_of_pos (by norm_num)] at h3
    norm_num at h3

end LineProps

/-! ## The text and icon hit tests, over the reals -/

section AnchorProps

/-- C12 as stated fails for the empty string: the text `""` anchored at
`(0, 0)` is hit at `(5, 0)` with tolerance 0, while the box of width
`8 × 0` rejects that point. -/
theorem text_hit_empty_counterexample :
    ¬ (isPointOnDrawing (JSMath.mk Real.cos Real.sin Real.sqrt) ⟨5, 0⟩
          { type := .text, x := some 0, y := some 0, text := some "" } 0 = true ↔
        textBoxTest (JSMath.mk Real.cos Real.sin Real.sqrt) ⟨5, 0⟩ 0 0 0 (jsLength "") 0) := by
  intro h
  have hhit : isPointOnDrawing (JSMath.mk Real.cos Real.sin Real.sqrt) ⟨5, 0⟩
      { type := .text, x := some 0, y := some 0, text := some "" } 0 = true := by
    norm_num [isPointOnDrawing, pointNearText, orElse, textLengthOr1, jsLength]
  have hclaim := h.mp hhit
  norm_num [textBoxTest, rotatePointAround, jsLength] at hclaim

/-- C12, amended: a text anchored at `(x, y)` is hit at `p` exactly when `p`,
rotated back by `-θ` about the anchor, lies in the box from `(x, y)` to
`(x + 8 n, y + 16)` inflated by the tolerance, where `n` is the length of the
text string when that is at least 1, and `n = 1` when the string is empty or
absent.  `θ` is the `angle` field, `0` when absent. -/
theorem text_hit_iff (d : Drawing ℝ) (x y : ℝ) (p : Point ℝ) (t : ℝ)
    (hty : d.type = DrawingType.text) (hx : d.x = some x) (hy : d.y = some y) :
    (∀ s, d.text = some s → 1 ≤ jsLength s →
      (isPointOnDrawing (JSMath.mk Real.cos Real.sin Real.sqrt) p d t = true ↔
        textBoxTest (JSMath.mk Real.cos Real.sin Real.sqrt) p x y (d.angle.getD 0)
          (jsLength s) t)) ∧
    (d.text = some "" ∨ d.text = none →
      (isPointOnDrawing (JSMath.mk Real.cos Real.sin Real.sqrt) p d t = true ↔
        textBoxTest (JSMath.mk Real.cos Real.sin Real.sqrt) p x y (d.angle.getD 0) 1 t)) := by
  have hiff : isPointOnDrawing (JSMath.mk Real.cos Real.sin Real.sqrt) p d t = true ↔
      textBoxTest (JSMath.mk Real.cos Real.sin Real.sqrt) p x y (d.angle.getD 0)
        (textLengthOr1 d.text) t := by
    simp only [isPointOnDrawing, hty, pointNearText, hx, hy, orElse_zero, testPoint_eq_rotate,
      Bool.and_eq_true, decide_eq_true_eq, ge_iff_le, and_assoc, textBoxTest,
      mul_comm ((textLengthOr1 d.text : ℕ) : ℝ) 8]
  constructor
  · intro s hs hlen
    have hn : textLengthOr1 d.text = jsLength s := by
      have h0 : jsLength s ≠ 0 := by omega
      simp [textLengthOr1, hs, h0]
    rw [hiff, hn]
  · intro h
    have hn : textLengthOr1 d.text = 1 := by
      rcases h with h | h <;> simp [textLengthOr1, h, jsLength]
    rw [hiff, hn]

/-- C12 amended, at the text `"ab"` anchored at `(0, 0)`: with tolerance 0 the
box is 16 wide, so `(16, 16)` is a hit. -/
theorem text_hit_iff_witness :
    isPointOnDrawing (JSMath.mk Real.cos Real.sin Real.sqrt) ⟨16, 16⟩
      { type := .text, x := some 0, y := some 0, text := some "ab" } 0 = true := by
  refine ((text_hit_iff { type := .text, x := some 0, y := some 0, text := some "ab" } 0 0
    ⟨16, 16⟩ 0 rfl rfl rfl).1 "ab" rfl (by decide)).mpr ?_
  have hn : jsLength "ab" = 2 := by decide
  norm_num [textBoxTest, rotatePointAround, hn]

/-- C13 as stated fails for an icon whose `size` is `0`: the icon anchored at
`(0, 0)` with size 0 is hit at `(5, 0)` with tolerance 0, while the square of
side 0 rejects that point. -/
theorem icon_hit_zero_size_counterexample :
    ¬ (isPointOnDrawing (JSMath.mk Real.cos Real.sin Real.sqrt) ⟨5, 0⟩
          { type := .icon, x := some 0, y := some 0, size := some 0 } 0 = true ↔
        iconBoxTest (JSMath.mk Real.cos Real.sin Real.sqrt) ⟨5, 0⟩ 0 0 0 0 0) := by
  intro h
  have hhit : isPointOnDrawing (JSMath.mk Real.cos Real.sin Real.sqrt) ⟨5, 0⟩
      { type := .icon, x := some 0, y := some 0, size := some 0 } 0 = true := by
    norm_num [isPointOnDrawing, pointNearIcon, orElse]
  have hclaim := h.mp hhit
  norm_num [iconBoxTest, rotatePointAround] at hclaim

/-- C13, amended: an icon anchored at `(x, y)` is hit at `p` exactly when `p`,
rotated back by `-θ` about the anchor, lies in the square of side `s` centred
on the anchor and inflated by the tolerance, where `s` is the `size` field,
and `s = 16` when `size` is absent or `0`.  `θ` is the `angle` field, `0`
when absent. -/
theorem icon_hit_iff (d : Drawing ℝ) (x y : ℝ) (p : Point ℝ) (t : ℝ)
    (hty : d.type = DrawingType.icon) (hx : d.x = some x) (hy : d.y = some y) :
    (∀ s, d.size = some s → s ≠ 0 →
      (isPointOnDrawing (JSMath.mk Real.cos Real.sin Real.sqrt) p d t = true ↔
        iconBoxTest (JSMath.mk Real.cos Real.sin Real.sqrt) p x y (d.angle.getD 0) s t)) ∧
    (d.size = none ∨ d.size = some 0 →
      (isPointOnDrawing (JSMath.mk Real.cos Real.sin Real.sqrt) p d t = true ↔
        iconBoxTest (JSMath.mk Real.cos Real.sin Real.sqrt) p x y (d.angle.getD 0) 16 t)) := by
  have hiff : isPointOnDrawing (JSMath.mk Real.cos Real.sin Real.sqrt) p d t = true ↔
      iconBoxTest (JSMath.mk Real.cos Real.sin Real.sqrt) p x y (d.angle.getD 0)
        (orElse d.size 16) t := by
    simp only [isPointOnDrawing, hty, pointNearIcon, hx, hy, orElse_zero, testPoint_eq_rotate,
      Bool.and_eq_true, decide_eq_true_eq, iconBoxTest]
  constructor
  · intro s hs hs0
    have hn : orElse d.size 16 = s := by simp [orElse, hs, hs0]
    rw [hiff, hn]
  · intro h
    have hn : orElse d.size 16 = 16 := by
      rcases h with h | h <;> simp [orElse, h]
    rw [hiff, hn]

/-- C13 amended, at an icon of size 20 anchored at `(0, 0)`: with tolerance 0
the point `(10, -10)`, a corner of the square, is a hit. -/
theorem icon_hit_iff_witness :
    isPointOnDrawing (JSMath.mk Real.cos Real.sin Real.sqrt) ⟨10, -10⟩
      { type := .icon, x := some 0, y := some 0, size := some 20 } 0 = true := by
  refine ((icon_hit_iff { type := .icon, x := some 0, y := some 0, size := some 20 } 0 0
    ⟨10, -10⟩ 0 rfl rfl rfl).1 20 rfl (by norm_num)).mpr ?_
  norm_num [iconBoxTest, rotatePointAround, abs_of_pos]

end AnchorProps

/-! ## Incomplete shapes -/

section IncompleteProps

/-- An incomplete shape is never hit. -/
theorem isPointOnDrawing_incomplete {K : Type} [LinearOrderedField K] (M : JSMath K)
    (p : Point K) (t : K) (d : Drawing K) (h : isIncomplete d = true) :
    isPointOnDrawing M p d t = false := by
  unfold isIncomplete at h
  unfold isPointOnDrawing
  cases hty : d.type <;> simp only [hty] at h ⊢
  case pencil =>
    cases hp : d.points with
    | none => rfl
    | some pts =>
      simp only [hp, decide_eq_true_eq] at h
      simp [pointNearPolyline, h]
  case text | icon =>
    cases hx : d.x <;> cases hy : d.y <;> simp_all [pointNearText, pointNearIcon]
  all_goals
    cases hs : d.start <;> cases he : d.«end» <;>
      simp_all [pointNearLine, pointInRect, pointInEllipse]

/-- Below the length of `L`, the `hitTest` loop on `L ++ [d]` is the loop on
`L`. -/
theorem hitTestLoop_append {K : Type} [LinearOrderedField K] (M : JSMath K)
    (L : List (Drawing K)) (d : Drawing K) (p : Point K) (t : K) :
    ∀ n, n ≤ L.length → hitTestLoop M (L ++ [d]) p t n = hitTestLoop M L p t n := by
  intro n
  induction n with
  | zero => intro _; rfl
  | succ i ih =>
    intro hn
    have hi : i < L.length := hn
    have hget : (L ++ [d])[i]? = L[i]? := List.getElem?_append_left hi
    simp only [hitTestLoop, hget, ih (Nat.le_of_lt hi)]

/-- C14: an incomplete shape (a pencil path with no or fewer than 2 points, a
line, segment, arrow, projection, rectangle or ellipse missing `start` or
`end`, a text or icon missing `x` or `y`, an unknown type tag) is never hit,
for every point and tolerance; so `hitTest` and `eraseAt` never return such an
entry, and an incomplete shape on top of the list is passed over: both answer
as they do on the list below it, and `eraseAt` leaves it in place. -/
theorem incomplete_never_hit {K : Type} [LinearOrderedField K] (M : JSMath K)
    (p : Point K) (t : K) (d : Drawing K) (h : isIncomplete d = true)
    (self : DrawingManager K) :
    isPointOnDrawing M p d t = false ∧
    (∀ i, self.hitTest M p t ≠ some { index := i, drawing := d }) ∧
    (∀ i, (self.eraseAt M p t).1 ≠ some { index := i, drawing := d }) ∧
    DrawingManager.hitTest M { drawings := self.drawings ++ [d] } p t = self.hitTest M p t ∧
    DrawingManager.eraseAt M { drawings := self.drawings ++ [d] } p t
      = ((self.eraseAt M p t).1, { drawings := (self.eraseAt M p t).2.drawings ++ [d] }) := by
  have hmiss := isPointOnDrawing_incomplete M p t d h
  have hspec := hitTestLoop_spec M self.drawings p t self.drawings.length (Nat.le_refl _)
  have herase := eraseAtLoop_eq M self.drawings p t self.drawings.length (Nat.le_refl _)
  have hnever : ∀ i, self.hitTest M p t ≠ some { index := i, drawing := d } := by
    intro i hres
    have := (hspec.1 _ hres).2.2.1
    simp only at this
    rw [hmiss] at this
    cases this
  have htop : hitTestLoop M (self.drawings ++ [d]) p t (self.drawings ++ [d]).length
      = hitTestLoop M self.drawings p t self.drawings.length := by
    have hlen : (self.drawings ++ [d]).length = self.drawings.length + 1 := by simp
    have hget : (self.drawings ++ [d])[self.drawings.length]? = some d := by simp
    rw [hlen]
    simp only [hitTestLoop, hget, hmiss, Bool.false_eq_true, if_false]
    exact hitTestLoop_append M self.drawings d p t _ (Nat.le_refl _)
  refine ⟨hmiss, hnever, ?_, htop, ?_⟩
  · intro i hres
    apply hnever i
    have : (self.eraseAt M p t).1 = self.hitTest M p t := by
      simp only [eraseAt, herase, hitTest]
      cases hitTestLoop M self.drawings p t self.drawings.length <;> rfl
    rw [← this]
    exact hres
  · have herase' := eraseAtLoop_eq M (self.drawings ++ [d]) p t (self.drawings ++ [d]).length
      (Nat.le_refl _)
    simp only [eraseAt, herase', herase, htop]
    cases hres : hitTestLoop M self.drawings p t self.drawings.length with
    | none => rfl
    | some r =>
      have hr : r.index < self.drawings.length := (hspec.1 r hres).1
      simp only [Prod.mk.injEq, DrawingManager.mk.injEq, true_and]
      rw [List.take_append_of_le_length (Nat.le_of_lt hr),
        List.drop_append_of_le_length (by omega), List.append_assoc]

/-- C14 on a rectangle with no `end` lying on top of a list of one complete
rectangle: at `(5, 5)` the incomplete one is not hit. -/
theorem incomplete_never_hit_witness :
    isIncomplete ({ type := .rectangle, start := some ⟨0, 0⟩ } : Drawing ℝ) = true ∧
    isPointOnDrawing (JSMath.mk Real.cos Real.sin Real.sqrt) ⟨5, 5⟩
      { type := .rectangle, start := some ⟨0, 0⟩ } 2 = false :=
  ⟨rfl, (incomplete_never_hit (JSMath.mk Real.cos Real.sin Real.sqrt) ⟨5, 5⟩ 2
    { type := .rectangle, start := some ⟨0, 0⟩ } rfl
    { drawings := [{ type := .rectangle, start := some ⟨0, 0⟩, «end» := some ⟨10, 10⟩ }] }).1⟩

end IncompleteProps

/-! ## Extents of a list of points -/

section ExtentProps

/-- A running minimum is below its start and below every element, and is one
of them. -/
theorem foldl_min_spec {K : Type} [LinearOrderedField K] (f : Point K → K) :
    ∀ (pts : List (Point K)) (m0 : K),
      pts.foldl (fun m q => min m (f q)) m0 ≤ m0 ∧
      (∀ q ∈ pts, pts.foldl (fun m q => min m (f q)) m0 ≤ f q) ∧
      (pts.foldl (fun m q => min m (f q)) m0 = m0 ∨
        ∃ q ∈ pts, f q = pts.foldl (fun m q => min m (f q)) m0) := by
  intro pts
  induction pts with
  | nil => intro m0; simp
  | cons a rest ih =>
    intro m0
    obtain ⟨h1, h2, h3⟩ := ih (min m0 (f a))
    simp only [List.foldl_cons, List.mem_cons, forall_eq_or_imp, exists_eq_or_imp]
    refine ⟨le_trans h1 (min_le_left _ _), ⟨le_trans h1 (min_le_right _ _), h2⟩, ?_⟩
    rcases h3 with h3 | h3
    · rcases min_choice m0 (f a) with hm | hm
      · left; rw [h3, hm]
      · right; left; rw [h3, hm]
    · right; right; exact h3

/-- A running maximum is above its start and above every element, and is one
of them. -/
theorem foldl_max_spec {K : Type} [LinearOrderedField K] (f : Point K → K) :
    ∀ (pts : List (Point K)) (m0 : K),
      m0 ≤ pts.foldl (fun m q => max m (f q)) m0 ∧
      (∀ q ∈ pts, f q ≤ pts.foldl (fun m q => max m (f q)) m0) ∧
      (pts.foldl (fun m q => max m (f q)) m0 = m0 ∨
        ∃ q ∈ pts, f q = pts.foldl (fun m q => max m (f q)) m0) := by
  intro pts
  induction pts with
  | nil => intro m0; simp
  | cons a rest ih =>
    intro m0
    obtain ⟨h1, h2, h3⟩ := ih (max m0 (f a))
    simp only [List.foldl_cons, List.mem_cons, forall_eq_or_imp, exists_eq_or_imp]
    refine ⟨le_trans (le_max_left _ _) h1, ⟨le_trans (le_max_right _ _) h1, h2⟩, ?_⟩
    rcases h3 with h3 | h3
    · rcases max_choice m0 (f a) with hm | hm
      · left; rw [h3, hm]
      · right; left; rw [h3, hm]
    · right; right; exact h3

/-- The four running extents are four independent folds. -/
theorem extentFold_eq {K : Type} [LinearOrderedField K] :
    ∀ (pts : List (Point K)) (init : K × K × K × K),
      extentFold init pts =
        (pts.foldl (fun m q => min m q.x) init.1, pts.foldl (fun m q => max m q.x) init.2.1,
         pts.foldl (fun m q => min m q.y) init.2.2.1,
         pts.foldl (fun m q => max m q.y) init.2.2.2) := by
  intro pts
  induction pts with
  | nil => intro init; rfl
  | cons a rest ih =>
    intro init
    have := ih (min init.1 a.x, max init.2.1 a.x, min init.2.2.1 a.y, max init.2.2.2 a.y)
    simpa [extentFold] using this

/-- The extents computed from a non-empty list of points, started at its
first point, are its axis-aligned bounding box. -/
theorem extentFold_isBoundingBox {K : Type} [LinearOrderedField K] (p0 : Point K)
    (rest : List (Point K)) :
    IsBoundingBoxOf (p0 :: rest)
      (extentFold (p0.x, p0.x, p0.y, p0.y) (p0 :: rest)).1
      (extentFold (p0.x, p0.x, p0.y, p0.y) (p0 :: rest)).2.1
      (extentFold (p0.x, p0.x, p0.y, p0.y) (p0 :: rest)).2.2.1
      (extentFold (p0.x, p0.x, p0.y, p0.y) (p0 :: rest)).2.2.2 := by
  rw [extentFold_eq]
  obtain ⟨_, a2, a3⟩ := foldl_min_spec Point.x (p0 :: rest) p0.x
  obtain ⟨_, b2, b3⟩ := foldl_max_spec Point.x (p0 :: rest) p0.x
  obtain ⟨_, c2, c3⟩ := foldl_min_spec Point.y (p0 :: rest) p0.y
  obtain ⟨_, d2, d3⟩ := foldl_max_spec Point.y (p0 :: rest) p0.y
  have hmem : p0 ∈ p0 :: rest := List.mem_cons_self _ _
  refine ⟨?_, ?_, ?_, ?_, fun q hq => ⟨a2 q hq, b2 q hq, c2 q hq, d2 q hq⟩⟩
  · rcases a3 with h | h
    · exact ⟨p0, hmem, h.symm⟩
    · exact h
  · rcases b3 with h | h
    · exact ⟨p0, hmem, h.symm⟩
    · exact h
  · rcases c3 with h | h
    · exact ⟨p0, hmem, h.symm⟩
    · exact h
  · rcases d3 with h | h
    · exact ⟨p0, hmem, h.symm⟩
    · exact h

end ExtentProps

/-! ## The transforms -/

section TransformProps

/-- C15: rotating a rectangle, ellipse, text or icon sets `angle` to the old
angle (`0` when absent) plus `angleDelta` and leaves every other field as it
was. -/
theorem rotateDrawing_accumulates_angle {K : Type} [LinearOrderedField K] (M : JSMath K)
    (d : Drawing K) (angleDelta : K)
    (hty : d.type = DrawingType.rectangle ∨ d.type = DrawingType.ellipse ∨
      d.type = DrawingType.text ∨ d.type = DrawingType.icon) :
    rotateDrawing M d angleDelta = { d with angle := some (d.angle.getD 0 + angleDelta) } := by
  rcases hty with h | h | h | h <;> simp [rotateDrawing, h, orElse_zero]

/-- C15 on a rectangle with angle 1 rotated by 2. -/
theorem rotateDrawing_accumulates_angle_witness :
    rotateDrawing (JSMath.mk Real.cos Real.sin Real.sqrt)
        { type := .rectangle, start := some ⟨0, 0⟩, «end» := some ⟨10, 10⟩, angle := some 1 } 2
      = { type := .rectangle, start := some ⟨0, 0⟩, «end» := some ⟨10, 10⟩, angle := some (1 + 2) } :=
  rotateDrawing_accumulates_angle (JSMath.mk Real.cos Real.sin Real.sqrt)
    { type := .rectangle, start := some ⟨0, 0⟩, «end» := some ⟨10, 10⟩, angle := some 1 } 2
    (Or.inl rfl)

/-- C16: rotating a pencil path maps every point, in order, to its rotation by
`θ` about the centre of the axis-aligned bounding box of the points; rotating a
line, segment, arrow or projection with both endpoints maps `start` and `end`
to their rotations by `θ` about the midpoint of `start` and `end`.  The
`angle` field and every other field are as they were.  A pencil path with no
points array gets an empty one. -/
theorem rotateDrawing_rotates_points {K : Type} [LinearOrderedField K] (M : JSMath K)
    (d : Drawing K) (θ : K) :
    (∀ pts, d.type = DrawingType.pencil → d.points = some pts →
      rotateDrawing M d θ
        = { d with points := some (pts.map fun q => rotatePointAround M q (getDrawingCenter d) θ) } ∧
      ((rotateDrawing M d θ).points.getD []).length = pts.length ∧
      (pts ≠ [] → ∃ minX maxX minY maxY, IsBoundingBoxOf pts minX maxX minY maxY ∧
        getDrawingCenter d = { x := (minX + maxX) / 2, y := (minY + maxY) / 2 })) ∧
    (∀ s e, d.type = DrawingType.line ∨ d.type = DrawingType.segment ∨
        d.type = DrawingType.arrow ∨ d.type = DrawingType.projection →
      d.start = some s → d.«end» = some e →
      rotateDrawing M d θ
        = { d with
            start := some (rotatePointAround M s { x := (s.x + e.x) / 2, y := (s.y + e.y) / 2 } θ)
            «end» := some (rotatePointAround M e { x := (s.x + e.x) / 2, y := (s.y + e.y) / 2 } θ) }) ∧
    (d.type = DrawingType.pencil → d.points = none →
      rotateDrawing M d θ = { d with points := some [] }) := by
  refine ⟨?_, ?_, fun hty hpts => by simp [rotateDrawing, hty, hpts]⟩
  · intro pts hty hpts
    refine ⟨by simp [rotateDrawing, hty, hpts], by simp [rotateDrawing, hty, hpts], ?_⟩
    intro hne
    cases pts with
    | nil => exact absurd rfl hne
    | cons p0 rest =>
      refine ⟨_, _, _, _, extentFold_isBoundingBox p0 rest, ?_⟩
      simp [getDrawingCenter, hty, hpts]
  · intro s e hty hs he
    have hc : getDrawingCenter d = { x := (s.x + e.x) / 2, y := (s.y + e.y) / 2 } := by
      have hx : s.x / 2 + e.x / 2 = (s.x + e.x) / 2 := by ring
      have hy : s.y / 2 + e.y / 2 = (s.y + e.y) / 2 := by ring
      rcases hty with h | h | h | h <;>
        simp [getDrawingCenter, h, hs, he, orElse_zero, hx, hy]
    rcases hty with h | h | h | h <;> simp [rotateDrawing, h, hs, he, hc]

/-- C16 on a pencil path of two points: the centre is the middle of its
bounding box. -/
theorem rotateDrawing_rotates_points_witness :
    ∃ minX maxX minY maxY, IsBoundingBoxOf [(⟨0, 0⟩ : Point ℝ), ⟨10, 4⟩] minX maxX minY maxY ∧
      getDrawingCenter ({ type := .pencil, points := some [⟨0, 0⟩, ⟨10, 4⟩] } : Drawing ℝ)
        = { x := (minX + maxX) / 2, y := (minY + maxY) / 2 } :=
  ((rotateDrawing_rotates_points (JSMath.mk Real.cos Real.sin Real.sqrt)
    ({ type := .pencil, points := some [⟨0, 0⟩, ⟨10, 4⟩] } : Drawing ℝ) 1).1
      [⟨0, 0⟩, ⟨10, 4⟩] rfl rfl).2.2 (by simp)

/-- C17: translating a drawing with complete geometry adds `(dx, dy)` to every
pencil point, to `start` and `end` of a line, segment, arrow, projection,
rectangle or ellipse, and to `(x, y)` of a text or icon; the `angle` and every
other field are as they were, and the number of pencil points is unchanged.
`translateDrawing` is a function of its input and returns a new value. -/
theorem translateDrawing_adds_delta {K : Type} [LinearOrderedField K] (d : Drawing K)
    (dx dy : K) :
    (∀ pts, d.type = DrawingType.pencil → d.points = some pts →
      translateDrawing d dx dy
        = { d with points := some (pts.map fun q => { x := q.x + dx, y := q.y + dy }) } ∧
      ((translateDrawing d dx dy).points.getD []).length = pts.length) ∧
    (∀ s e, d.type = DrawingType.line ∨ d.type = DrawingType.segment ∨
        d.type = DrawingType.arrow ∨ d.type = DrawingType.projection ∨
        d.type = DrawingType.rectangle ∨ d.type = DrawingType.ellipse →
      d.start = some s → d.«end» = some e →
      translateDrawing d dx dy
        = { d with start := some { x := s.x + dx, y := s.y + dy }
                   «end» := some { x := e.x + dx, y := e.y + dy } }) ∧
    (∀ x y, d.type = DrawingType.text ∨ d.type = DrawingType.icon →
      d.x = some x → d.y = some y →
      translateDrawing d dx dy = { d with x := some (x + dx), y := some (y + dy) }) := by
  refine ⟨fun pts hty hpts => ?_, fun s e hty hs he => ?_, fun x y hty hx hy => ?_⟩
  · exact ⟨by simp [translateDrawing, hty, hpts], by simp [translateDrawing, hty, hpts]⟩
  · rcases hty with h | h | h | h | h | h <;> simp [translateDrawing, h, hs, he]
  · rcases hty with h | h <;> simp [translateDrawing, h, hx, hy, orElse_zero]

/-- C17 on a rectangle with an angle and a colour, moved by `(3, 4)`. -/
theorem translateDrawing_adds_delta_witness :
    translateDrawing
        ({ type := .rectangle, start := some ⟨0, 0⟩, «end» := some ⟨10, 10⟩, angle := some 1,
           color := some "red" } : Drawing ℚ) 3 4
      = { type := .rectangle, start := some ⟨0 + 3, 0 + 4⟩, «end» := some ⟨10 + 3, 10 + 4⟩,
          angle := some 1, color := some "red" } :=
  (translateDrawing_adds_delta
    ({ type := .rectangle, start := some ⟨0, 0⟩, «end» := some ⟨10, 10⟩, angle := some 1,
       color := some "red" } : Drawing ℚ) 3 4).2.1 ⟨0, 0⟩ ⟨10, 10⟩
    (Or.inr (Or.inr (Or.inr (Or.inr (Or.inl rfl))))) rfl rfl

end TransformProps

/-! ## Scaling about an anchor -/

section ScaleProps

/-- Scaling the anchor itself about the anchor gives the anchor, whatever the
angle, the factors and the trigonometric functions are. -/
theorem scalePoint_anchor {K : Type} [LinearOrderedField K] (M : JSMath K) (A : Point K)
    (θ sx sy : K) : scalePoint M A A θ sx sy = A := by
  ext <;> simp [scalePoint, rotatePointAround]

/-- C18: `scalePoint` fixes its anchor, `scalePoint(A, A, θ, sx, sy) = A`; in
general `scalePoint(p, A, θ, sx, sy) = A + R(θ) · diag(sx, sy) · R(-θ) · (p - A)`;
so `scaleDrawing` about `A` leaves where it was every control point that
coincides with `A`: a pencil point, the `start` or `end` of a line, segment,
arrow, projection, rectangle or ellipse, the `(x, y)` of a text or icon. -/
theorem scalePoint_fixes_anchor (A p : Point ℝ) (θ sx sy : ℝ) (fmt : ℝ → String)
    (d : Drawing ℝ) :
    scalePoint (JSMath.mk Real.cos Real.sin Real.sqrt) A A θ sx sy = A ∧
    scalePoint (JSMath.mk Real.cos Real.sin Real.sqrt) p A θ sx sy
      = { x := A.x + (Matrix.mulVec
                (!![Real.cos θ, -Real.sin θ; Real.sin θ, Real.cos θ] * !![sx, 0; 0, sy]
                  * !![Real.cos (-θ), -Real.sin (-θ); Real.sin (-θ), Real.cos (-θ)])
                ![p.x - A.x, p.y - A.y]) 0
          y := A.y + (Matrix.mulVec
                (!![Real.cos θ, -Real.sin θ; Real.sin θ, Real.cos θ] * !![sx, 0; 0, sy]
                  * !![Real.cos (-θ), -Real.sin (-θ); Real.sin (-θ), Real.cos (-θ)])
                ![p.x - A.x, p.y - A.y]) 1 } ∧
    (∀ (pts : List (Point ℝ)) (i : Nat), d.type = DrawingType.pencil → d.points = some pts →
        pts[i]? = some A →
      ((scaleDrawing (JSMath.mk Real.cos Real.sin Real.sqrt) fmt d A θ sx sy).points.getD [])[i]?
        = some A) ∧
    (d.type = DrawingType.line ∨ d.type = DrawingType.segment ∨ d.type = DrawingType.arrow ∨
        d.type = DrawingType.projection ∨ d.type = DrawingType.rectangle ∨
        d.type = DrawingType.ellipse →
      (d.start = some A →
        (scaleDrawing (JSMath.mk Real.cos Real.sin Real.sqrt) fmt d A θ sx sy).start = some A) ∧
      (d.«end» = some A →
        (scaleDrawing (JSMath.mk Real.cos Real.sin Real.sqrt) fmt d A θ sx sy).«end» = some A)) ∧
    (d.type = DrawingType.text ∨ d.type = DrawingType.icon →
      d.x = some A.x → d.y = some A.y →
      (scaleDrawing (JSMath.mk Real.cos Real.sin Real.sqrt) fmt d A θ sx sy).x = some A.x ∧
      (scaleDrawing (JSMath.mk Real.cos Real.sin Real.sqrt) fmt d A θ sx sy).y = some A.y) := by
  have hA := scalePoint_anchor (JSMath.mk Real.cos Real.sin Real.sqrt) A θ sx sy
  refine ⟨hA, ?_, ?_, ?_, ?_⟩
  · ext
    · simp [scalePoint, rotatePointAround, Matrix.mulVec, Matrix.dotProduct, Fin.sum_univ_two,
        Matrix.mul_apply]
      ring
    · simp [scalePoint, rotatePointAround, Matrix.mulVec, Matrix.dotProduct, Fin.sum_univ_two,
        Matrix.mul_apply]
      ring
  · intro pts i hty hpts hi
    simp [scaleDrawing, hty, hpts, List.getElem?_map, hi, hA]
  · intro hty
    constructor
    · intro hs
      rcases hty with h | h | h | h | h | h <;> simp [scaleDrawing, h, hs, hA]
    · intro he
      rcases hty with h | h | h | h | h | h <;> simp [scaleDrawing, h, he, hA]
  · intro hty hx hy
    have hpos : ({ x := orElse (some A.x) 0, y := orElse (some A.y) 0 } : Point ℝ) = A := by
      ext <;> simp [orElse_zero]
    rcases hty with h | h <;> simp [scaleDrawing, h, hx, hy, hpos, hA]

/-- C18 on the corner `(10, 10)` of a rectangle used as the anchor: after a
scaling by `(2, 3)` in the frame turned by 1 radian, `end` is still
`(10, 10)`. -/
theorem scalePoint_fixes_anchor_witness :
    (scaleDrawing (JSMath.mk Real.cos Real.sin Real.sqrt) (fun _ => "")
        { type := .rectangle, start := some ⟨0, 0⟩, «end» := some ⟨10, 10⟩ } ⟨10, 10⟩ 1 2 3).«end»
      = some ⟨10, 10⟩ :=
  ((scalePoint_fixes_anchor ⟨10, 10⟩ ⟨0, 0⟩ 1 2 3 (fun _ => "")
    { type := .rectangle, start := some ⟨0, 0⟩, «end» := some ⟨10, 10⟩ }).2.2.2.1
      (Or.inr (Or.inr (Or.inr (Or.inr (Or.inl rfl)))))).2 rfl

end ScaleProps

/-! ## Resizing a rectangle from a corner -/

section ResizeProps

/-- The corners of the bounding box of a rectangle without an angle. -/
theorem rectangle_corners_unrotated (s e : Point ℝ) :
    (getBoundingBox (JSMath.mk Real.cos Real.sin Real.sqrt)
      (some { type := .rectangle, start := some s, «end» := some e })).corners
      = [{ x := s.x / 2 + e.x / 2 - |s.x - e.x| / 2, y := s.y / 2 + e.y / 2 - |s.y - e.y| / 2 },
         { x := s.x / 2 + e.x / 2 + |s.x - e.x| / 2, y := s.y / 2 + e.y / 2 - |s.y - e.y| / 2 },
         { x := s.x / 2 + e.x / 2 + |s.x - e.x| / 2, y := s.y / 2 + e.y / 2 + |s.y - e.y| / 2 },
         { x := s.x / 2 + e.x / 2 - |s.x - e.x| / 2, y := s.y / 2 + e.y / 2 + |s.y - e.y| / 2 }] := by
  simp [getBoundingBox, orElse_zero]

/-- Scaling a rectangle without an angle in the frame of angle 0. -/
theorem scaleDrawing_rectangle_unrotated (fmt : ℝ → String) (s e A : Point ℝ) (sx sy : ℝ) :
    scaleDrawing (JSMath.mk Real.cos Real.sin Real.sqrt) fmt
        { type := .rectangle, start := some s, «end» := some e } A 0 sx sy
      = { type := .rectangle, start := some ⟨A.x + (s.x - A.x) * sx, A.y + (s.y - A.y) * sy⟩,
          «end» := some ⟨A.x + (e.x - A.x) * sx, A.y + (e.y - A.y) * sy⟩ } := by
  simp [scaleDrawing, scalePoint, rotatePointAround]

/-- For a rectangle without an angle the anchor corner does stay a corner
under a resize with positive factors. -/
theorem resize_unrotated_rectangle_keeps_anchor (fmt : ℝ → String) (s e A : Point ℝ)
    (sx sy : ℝ) (hsx : 0 < sx) (hsy : 0 < sy)
    (hA : A ∈ (getBoundingBox (JSMath.mk Real.cos Real.sin Real.sqrt)
      (some { type := .rectangle, start := some s, «end» := some e })).corners) :
    A ∈ (getBoundingBox (JSMath.mk Real.cos Real.sin Real.sqrt)
      (some (scaleDrawing (JSMath.mk Real.cos Real.sin Real.sqrt) fmt
        { type := .rectangle, start := some s, «end» := some e } A 0 sx sy))).corners := by
  have hw : |A.x + (s.x - A.x) * sx - (A.x + (e.x - A.x) * sx)| = |s.x - e.x| * sx := by
    rw [show A.x + (s.x - A.x) * sx - (A.x + (e.x - A.x) * sx) = (s.x - e.x) * sx by ring,
      abs_mul, abs_of_pos hsx]
  have hh : |A.y + (s.y - A.y) * sy - (A.y + (e.y - A.y) * sy)| = |s.y - e.y| * sy := by
    rw [show A.y + (s.y - A.y) * sy - (A.y + (e.y - A.y) * sy) = (s.y - e.y) * sy by ring,
      abs_mul, abs_of_pos hsy]
  rw [rectangle_corners_unrotated] at hA
  rw [scaleDrawing_rectangle_unrotated, rectangle_corners_unrotated]
  simp only [hw, hh, List.mem_cons, List.mem_singleton, List.not_mem_nil, or_false,
    Point.ext_iff] at hA ⊢
  rcases hA with ⟨hx, hy⟩ | ⟨hx, hy⟩ | ⟨hx, hy⟩ | ⟨hx, hy⟩
  · left; constructor <;> nlinarith
  · right; left; constructor <;> nlinarith
  · right; right; left; constructor <;> nlinarith
  · right; right; right; constructor <;> nlinarith

/-- C19, the code at the failing input: the rectangle from `(0, 0)` to
`(4, 2)` turned by a quarter turn has the corners `(3, -1)`, `(3, 3)`, `(1, 3)`,
`(1, -1)`; resized about its corner `(3, -1)` by the factors `(2, 1)` in the
frame of its angle it has the corners `(4, 1)`, `(4, 5)`, `(0, 5)`, `(0, 1)`:
the anchor corner is no longer a corner. -/
theorem resize_rotated_rectangle_moves_anchor (fmt : ℝ → String) :
    (getBoundingBox (JSMath.mk Real.cos Real.sin Real.sqrt)
        (some { type := .rectangle, start := some ⟨0, 0⟩, «end» := some ⟨4, 2⟩,
                angle := some (Real.pi / 2) })).corners
      = [⟨3, -1⟩, ⟨3, 3⟩, ⟨1, 3⟩, ⟨1, -1⟩] ∧
    (getBoundingBox (JSMath.mk Real.cos Real.sin Real.sqrt)
        (some (scaleDrawing (JSMath.mk Real.cos Real.sin Real.sqrt) fmt
          { type := .rectangle, start := some ⟨0, 0⟩, «end» := some ⟨4, 2⟩,
            angle := some (Real.pi / 2) } ⟨3, -1⟩ (Real.pi / 2) 2 1))).corners
      = [⟨4, 1⟩, ⟨4, 5⟩, ⟨0, 5⟩, ⟨0, 1⟩] ∧
    (⟨3, -1⟩ : Point ℝ) ∉ ([⟨4, 1⟩, ⟨4, 5⟩, ⟨0, 5⟩, ⟨0, 1⟩] : List (Point ℝ)) := by
  have hpi : Real.pi / 2 ≠ 0 := by positivity
  have hangle : orElse (some (Real.pi / 2)) 0 = Real.pi / 2 := by simp [orElse, hpi]
  refine ⟨?_, ?_, ?_⟩
  · simp only [getBoundingBox, hangle, hpi, if_false, rotateCorners, rotatePointAround,
      Real.cos_pi_div_two, Real.sin_pi_div_two, orElse_zero, Option.map_some', Option.getD_some,
      List.map_cons, List.map_nil]
    norm_num
  · simp only [scaleDrawing, scalePoint, getBoundingBox, hangle, hpi, if_false, rotateCorners,
      rotatePointAround, Real.cos_pi_div_two, Real.sin_pi_div_two, Real.cos_neg, Real.sin_neg,
      orElse_zero, Option.map_some', Option.getD_some, List.map_cons, List.map_nil]
    norm_num
  · simp [Point.ext_iff]

end ResizeProps

/-! ## The font size of a scaled text -/

section FontProps

/-- A run of digits followed by a non-digit is what `takeWhile` takes and
`dropWhile` leaves. -/
theorem takeWhile_digits_append (ds r : List Char) (hdig : ds.all Char.isDigit = true)
    (hr : ∀ c, r.head? = some c → c.isDigit = false) :
    (ds ++ r).takeWhile Char.isDigit = ds ∧ (ds ++ r).dropWhile Char.isDigit = r := by
  induction ds with
  | nil =>
    cases r with
    | nil => simp
    | cons c cs =>
      have := hr c rfl
      simp [List.takeWhile, List.dropWhile, this]
  | cons a as ih =>
    simp only [List.all_cons, Bool.and_eq_true] at hdig
    obtain ⟨h1, h2⟩ := ih hdig.2
    simp [List.takeWhile, List.dropWhile, hdig.1, h1, h2]

/-- The pattern matches a run of digits directly followed by `px`. -/
theorem matchFontSizeAt_digits (ds after : List Char) (hne : ds ≠ [])
    (hdig : ds.all Char.isDigit = true) :
    matchFontSizeAt (ds ++ 'p' :: 'x' :: after) = some (ds, after) := by
  obtain ⟨h1, h2⟩ := takeWhile_digits_append ds ('p' :: 'x' :: after) hdig
    (by intro c hc; simp at hc; subst hc; rfl)
  have hemp : ds.isEmpty = false := by
    cases ds with
    | nil => exact absurd rfl hne
    | cons _ _ => rfl
  simp [matchFontSizeAt, h1, h2, hemp, matchFontGroup]

/-- In a string whose first digits are a run directly followed by `px`, the
leftmost match of the pattern is that run. -/
theorem findFontSize_of_form (before ds after : List Char)
    (hbefore : ∀ c ∈ before, c.isDigit = false) (hne : ds ≠ [])
    (hdig : ds.all Char.isDigit = true) :
    findFontSize (before ++ (ds ++ 'p' :: 'x' :: after)) = some (before, ds, after) := by
  induction before with
  | nil =>
    have hm := matchFontSizeAt_digits ds after hne hdig
    cases hds : ds ++ 'p' :: 'x' :: after with
    | nil => simp at hds
    | cons c cs =>
      rw [hds] at hm
      simp [findFontSize, hm]
  | cons b bs ih =>
    have hb : b.isDigit = false := hbefore b (List.mem_cons_self _ _)
    have hnone : matchFontSizeAt (b :: (bs ++ (ds ++ 'p' :: 'x' :: after))) = none := by
      simp [matchFontSizeAt, List.takeWhile, hb]
    have ih' := ih (fun c hc => hbefore c (List.mem_cons_of_mem _ hc))
    simp [findFontSize, hnone, ih']

/-- The conversion of a captured run of digits is the number it denotes. -/
theorem captureToNumber_digits {K : Type} [LinearOrderedField K] (ds : List Char)
    (hdig : ds.all Char.isDigit = true) :
    (captureToNumber ds : Option K) = some (digitsValue ds : K) := by
  simp only [captureToNumber, hdig, if_true, digitsValue]

/-- On such a string `parseFontSize` returns the number the digits denote. -/
theorem parseFontSize_of_form {K : Type} [LinearOrderedField K] (f : String)
    (before ds after : List Char) (hf : f.toList = before ++ (ds ++ 'p' :: 'x' :: after))
    (hbefore : ∀ c ∈ before, c.isDigit = false) (hne : ds ≠ [])
    (hdig : ds.all Char.isDigit = true) :
    (parseFontSize (some f) : Option K) = some (digitsValue ds : K) := by
  have hf' : f.data = before ++ (ds ++ 'p' :: 'x' :: after) := hf
  have hall : ∀ x ∈ ds, x.isDigit = true := by simpa using hdig
  simp [parseFontSize, hf', findFontSize_of_form before ds after hbefore hne hdig,
    captureToNumber, digitsValue]
  exact hall

/-- On such a string `scaleFont` leaves a size of 0 alone and otherwise
replaces the digits by the printed new size. -/
theorem scaleFont_of_form {K : Type} [LinearOrderedField K] (fmt : K → String) (f : String)
    (before ds after : List Char) (avg : K)
    (hf : f.toList = before ++ (ds ++ 'p' :: 'x' :: after))
    (hbefore : ∀ c ∈ before, c.isDigit = false) (hne : ds ≠ [])
    (hdig : ds.all Char.isDigit = true) :
    (digitsValue ds = 0 → scaleFont fmt (some f) avg = some f) ∧
    (digitsValue ds ≠ 0 →
      scaleFont fmt (some f) avg
        = some (String.mk before ++ (fmt (max 4 ((digitsValue ds : K) * avg)) ++ "px")
            ++ String.mk after)) := by
  have hparse := parseFontSize_of_form (K := K) f before ds after hf hbefore hne hdig
  have hfind := findFontSize_of_form before ds after hbefore hne hdig
  constructor
  · intro h0
    simp [scaleFont, hparse, h0]
  · intro h0
    have hK : (digitsValue ds : K) ≠ 0 := Nat.cast_ne_zero.mpr h0
    have hmax : max 4 ((digitsValue ds : K) * avg) ≠ 0 := by
      have : (4 : K) ≤ max 4 ((digitsValue ds : K) * avg) := le_max_left _ _
      intro hz
      rw [hz] at this
      linarith
    have hf' : f.data = before ++ (ds ++ 'p' :: 'x' :: after) := hf
    simp [scaleFont, hparse, hK, hmax, hf', hfind]

/-- The font written by `scaleFont` parses back to the printed number when
that is printed as a run of decimal digits. -/
theorem parseFontSize_replaced {K : Type} [LinearOrderedField K] (printed : String)
    (before after : List Char) (hbefore : ∀ c ∈ before, c.isDigit = false)
    (hne : printed.toList ≠ []) (hdig : printed.toList.all Char.isDigit = true) :
    (parseFontSize (some (String.mk before ++ (printed ++ "px") ++ String.mk after)) : Option K)
      = some (digitsValue printed.toList : K) := by
  apply parseFontSize_of_form _ before printed.toList after _ hbefore hne hdig
  simp [String.toList, String.data_append]

/-- The pattern does not read a decimal point: in `12.5px sans-serif` it
finds the size `5`, and a scaling by 2 writes `12.10px sans-serif`. -/
theorem decimal_font_size_slip :
    (parseFontSize (some "12.5px sans-serif") : Option ℝ) = some 5 ∧
    ∀ fmt : ℝ → String, fmt 10 = "10" →
      scaleFont fmt (some "12.5px sans-serif") 2 = some "12.10px sans-serif" := by
  have hfind : findFontSize "12.5px sans-serif".data
      = some ("12.".toList, "5".toList, " sans-serif".toList) := by rfl
  have hparse : (parseFontSize (some "12.5px sans-serif") : Option ℝ) = some 5 := by
    have h5 : digitsValue ['5'] = 5 := by decide
    simp only [parseFontSize, String.toList, hfind]
    rw [captureToNumber_digits _ (by decide), h5]
    norm_num
  refine ⟨hparse, fun fmt hfmt => ?_⟩
  have hmax : max (4 : ℝ) (5 * 2) = 10 := by norm_num
  simp only [scaleFont, hparse, String.toList, hfind, hmax, hfmt]
  norm_num
  rfl

/-- C20 as stated fails when both scale factors are `0`: the average scale is
then taken as `1`, so the font `12px sans-serif` keeps its size 12, while the
claim gives the size `max(4, 12 × 0) = 4`.  This holds for every printing of
numbers that prints 12 as `12`. -/
theorem text_font_scale_counterexample :
    ¬ ∃ fmt : ℝ → String, fmt 12 = "12" ∧
        (parseFontSize (scaleDrawing (JSMath.mk Real.cos Real.sin Real.sqrt) fmt
            { type := .text, x := some 0, y := some 0, font := some "12px sans-serif" }
            ⟨0, 0⟩ 0 0 0).font : Option ℝ)
          = some (max 4 (12 * ((|0| + |0|) / 2))) := by
  rintro ⟨fmt, hfmt, hclaim⟩
  have hform : "12px sans-serif".toList
      = [] ++ (['1', '2'] ++ 'p' :: 'x' :: " sans-serif".toList) := by rfl
  have hval : digitsValue ['1', '2'] = 12 := by decide
  have hscaled := (scaleFont_of_form fmt "12px sans-serif" [] ['1', '2'] " sans-serif".toList
    (1 : ℝ) hform (by simp) (by simp) (by decide)).2 (by rw [hval]; decide)
  have hmax : max (4 : ℝ) (((digitsValue ['1', '2'] : ℕ) : ℝ) * 1) = 12 := by
    rw [hval]
    norm_num
  rw [hmax, hfmt] at hscaled
  have hfont : (scaleDrawing (JSMath.mk Real.cos Real.sin Real.sqrt) fmt
      { type := .text, x := some 0, y := some 0, font := some "12px sans-serif" }
      ⟨0, 0⟩ 0 0 0).font
      = some (String.mk [] ++ ("12" ++ "px") ++ String.mk " sans-serif".toList) := by
    simp only [scaleDrawing]
    have havg : orElse (some ((|(0 : ℝ)| + |(0 : ℝ)|) / 2)) 1 = 1 := by simp [orElse]
    rw [havg]
    exact hscaled
  rw [hfont, parseFontSize_replaced "12" [] " sans-serif".toList (by simp) (by decide)
    (by decide)] at hclaim
  have h12 : digitsValue "12".toList = 12 := by decide
  rw [h12] at hclaim
  norm_num at hclaim

/-- C20, amended: let the font string of a text be `before ++ digits ++ "px"
++ after`, where `before` holds no digit and `digits` is a non-empty run of
decimal digits denoting the whole number `s`.  Then `parseFontSize` returns
`s`; for `s = 0` scaling leaves the font as it is; for `s ≥ 1` the font after
`scaleDrawing` is `before ++ print(m) ++ "px" ++ after` with
`m = max(4, s × a)`, where `a` is `(|sx| + |sy|) / 2`, or `1` when that is
`0`; and when `m` is printed as a run of decimal digits denoting `m`,
`parseFontSize` of the new font returns `m`. -/
theorem text_font_scaled {K : Type} [LinearOrderedField K] (M : JSMath K) (fmt : K → String)
    (d : Drawing K) (anchor : Point K) (angle sx sy : K) (f : String)
    (before ds after : List Char)
    (hty : d.type = DrawingType.text) (hfont : d.font = some f)
    (hf : f.toList = before ++ (ds ++ 'p' :: 'x' :: after))
    (hbefore : ∀ c ∈ before, c.isDigit = false) (hne : ds ≠ [])
    (hdig : ds.all Char.isDigit = true) :
    (parseFontSize d.font : Option K) = some (digitsValue ds : K) ∧
    (digitsValue ds = 0 → (scaleDrawing M fmt d anchor angle sx sy).font = d.font) ∧
    (digitsValue ds ≠ 0 →
      (scaleDrawing M fmt d anchor angle sx sy).font
        = some (String.mk before
            ++ (fmt (max 4 ((digitsValue ds : K) * averageScale sx sy)) ++ "px")
            ++ String.mk after) ∧
      ((fmt (max 4 ((digitsValue ds : K) * averageScale sx sy))).toList ≠ [] →
        (fmt (max 4 ((digitsValue ds : K) * averageScale sx sy))).toList.all Char.isDigit = true →
        ((digitsValue (fmt (max 4 ((digitsValue ds : K) * averageScale sx sy))).toList : ℕ) : K)
          = max 4 ((digitsValue ds : K) * averageScale sx sy) →
        (parseFontSize (scaleDrawing M fmt d anchor angle sx sy).font : Option K)
          = some (max 4 ((digitsValue ds : K) * averageScale sx sy)))) := by
  have hsf : (scaleDrawing M fmt d anchor angle sx sy).font
      = scaleFont fmt (some f) (averageScale sx sy) := by
    simp [scaleDrawing, hty, hfont, averageScale, orElse]
  obtain ⟨h0, h1⟩ := scaleFont_of_form fmt f before ds after (averageScale sx sy) hf hbefore hne
    hdig
  refine ⟨?_, ?_, ?_⟩
  · rw [hfont]
    exact parseFontSize_of_form f before ds after hf hbefore hne hdig
  · intro hz
    rw [hsf, h0 hz, hfont]
  · intro hnz
    refine ⟨by rw [hsf, h1 hnz], fun hp1 hp2 hp3 => ?_⟩
    rw [hsf, h1 hnz, parseFontSize_replaced _ before after hbefore hp1 hp2, hp3]

/-- C20 amended, at the font `12px sans-serif` scaled by `(2, 2)`, with 24
printed as `24`: the new font is `24px sans-serif`. -/
theorem text_font_scaled_witness :
    (scaleDrawing (JSMath.mk Real.cos Real.sin Real.sqrt)
        (fun v : ℝ => if v = 24 then "24" else "")
        { type := .text, x := some 0, y := some 0, font := some "12px sans-serif" }
        ⟨0, 0⟩ 0 2 2).font = some "24px sans-serif" := by
  have hval : digitsValue ['1', '2'] = 12 := by decide
  have h := ((text_font_scaled (JSMath.mk Real.cos Real.sin Real.sqrt)
    (fun v : ℝ => if v = 24 then "24" else "")
    { type := .text, x := some 0, y := some 0, font := some "12px sans-serif" }
    ⟨0, 0⟩ 0 2 2 "12px sans-serif" [] ['1', '2'] " sans-serif".toList rfl rfl rfl
    (by simp) (by simp) (by decide)).2.2 (by rw [hval]; decide)).1
  have hmax : max (4 : ℝ) (((digitsValue ['1', '2'] : ℕ) : ℝ) * averageScale 2 2) = 24 := by
    rw [hval]
    norm_num [averageScale]
  rw [hmax] at h
  rw [h]
  simp

end FontProps

/-! ## The size of a scaled icon -/

section IconScaleProps

/-- C21 as stated fails when both scale factors are `0`: the average scale is
then taken as `1`, so an icon of size 20 keeps the size 20, while the claim
gives `max(4, 20 × 0) = 4`. -/
theorem icon_scale_counterexample :
    (scaleDrawing (JSMath.mk Real.cos Real.sin Real.sqrt) (fun _ => "")
        { type := .icon, x := some 0, y := some 0, size := some 20 } ⟨0, 0⟩ 0 0 0).size
      ≠ some (max 4 (20 * ((|(0 : ℝ)| + |(0 : ℝ)|) / 2))) := by
  norm_num [scaleDrawing, orElse]

/-- C21, amended: scaling an icon anchored at `(x, y)` gives the icon with
`size = max(4, s × a)` and `(x, y) = scalePoint((x, y), anchor, angle, sx, sy)`,
every other field (glyph, colour, angle) as it was; `s` is the `size` field,
or 16 when `size` is absent or `0`, and `a` is `(|sx| + |sy|) / 2`, or `1`
when that average is `0`, that is when `sx = sy = 0`. -/
theorem icon_scaled {K : Type} [LinearOrderedField K] (M : JSMath K) (fmt : K → String)
    (d : Drawing K) (anchor : Point K) (angle sx sy x y s : K)
    (hty : d.type = DrawingType.icon) (hx : d.x = some x) (hy : d.y = some y)
    (hs : (d.size = some s ∧ s ≠ 0) ∨ ((d.size = none ∨ d.size = some 0) ∧ s = 16)) :
    scaleDrawing M fmt d anchor angle sx sy
      = { d with x := some (scalePoint M { x := x, y := y } anchor angle sx sy).x
                 y := some (scalePoint M { x := x, y := y } anchor angle sx sy).y
                 size := some (max 4 (s * averageScale sx sy)) } ∧
    (sx ≠ 0 ∨ sy ≠ 0 → averageScale sx sy = (|sx| + |sy|) / 2) ∧
    (sx = 0 → sy = 0 → averageScale sx sy = 1) := by
  have hsize : orElse d.size 16 = s := by
    rcases hs with ⟨h1, h2⟩ | ⟨h1 | h1, h2⟩
    · simp [orElse, h1, h2]
    · simp [orElse, h1, h2]
    · simp [orElse, h1, h2]
  refine ⟨?_, ?_, ?_⟩
  · have hxz : orElse (some x) 0 = x := by simp [orElse_zero]
    have hyz : orElse (some y) 0 = y := by simp [orElse_zero]
    have havg : orElse (some ((|sx| + |sy|) / 2)) 1 = averageScale sx sy := rfl
    simp only [scaleDrawing, hty, hx, hy, hsize, hxz, hyz, havg]
  · intro h
    have hpos : 0 < |sx| + |sy| := by
      rcases h with h | h
      · have := abs_pos.mpr h
        have := abs_nonneg sy
        linarith
      · have := abs_pos.mpr h
        have := abs_nonneg sx
        linarith
    have hne : (|sx| + |sy|) / 2 ≠ 0 := by positivity
    simp [averageScale, hne]
  · intro h1 h2
    simp [averageScale, h1, h2]

/-- C21 amended, at an icon of size 20 scaled by `(2, 1)` about its own
anchor: the size becomes 30. -/
theorem icon_scaled_witness :
    (scaleDrawing (JSMath.mk Real.cos Real.sin Real.sqrt) (fun _ => "")
        { type := .icon, x := some 0, y := some 0, size := some 20 } ⟨0, 0⟩ 0 2 1).size
      = some 30 := by
  have h := (icon_scaled (JSMath.mk Real.cos Real.sin Real.sqrt) (fun _ => "")
    { type := .icon, x := some 0, y := some 0, size := some 20 } ⟨0, 0⟩ 0 2 1 0 0 20 rfl rfl rfl
    (Or.inl ⟨rfl, by norm_num⟩)).1
  rw [h]
  norm_num [averageScale]

end IconScaleProps

/-! ## Bounding boxes from points -/

section BoundingProps

/-- C22: for a non-empty list of points `boundingFromPoints` returns the
least and greatest `x` and `y` over the points (each bound is attained and
every point lies within the bounds), `width = maxX - minX ≥ 0`,
`height = maxY - minY ≥ 0`, the centre `((minX + maxX)/2, (minY + maxY)/2)`,
the corners `(minX, minY)`, `(maxX, minY)`, `(maxX, maxY)`, `(minX, maxY)` in
that order, and the angle it was given; for an empty or a missing list it
returns zero extents, the centre `(0, 0)` and no corners. -/
theorem boundingFromPoints_spec {K : Type} [LinearOrderedField K] (pts : List (Point K))
    (angle : K) :
    (pts ≠ [] →
      IsBoundingBoxOf pts (boundingFromPoints (some pts) angle).minX
        (boundingFromPoints (some pts) angle).maxX (boundingFromPoints (some pts) angle).minY
        (boundingFromPoints (some pts) angle).maxY ∧
      (boundingFromPoints (some pts) angle).width
        = (boundingFromPoints (some pts) angle).maxX - (boundingFromPoints (some pts) angle).minX ∧
      0 ≤ (boundingFromPoints (some pts) angle).width ∧
      (boundingFromPoints (some pts) angle).height
        = (boundingFromPoints (some pts) angle).maxY - (boundingFromPoints (some pts) angle).minY ∧
      0 ≤ (boundingFromPoints (some pts) angle).height ∧
      (boundingFromPoints (some pts) angle).center
        = { x := ((boundingFromPoints (some pts) angle).minX
                    + (boundingFromPoints (some pts) angle).maxX) / 2
            y := ((boundingFromPoints (some pts) angle).minY
                    + (boundingFromPoints (some pts) angle).maxY) / 2 } ∧
      (boundingFromPoints (some pts) angle).corners
        = [{ x := (boundingFromPoints (some pts) angle).minX
             y := (boundingFromPoints (some pts) angle).minY },
           { x := (boundingFromPoints (some pts) angle).maxX
             y := (boundingFromPoints (some pts) angle).minY },
           { x := (boundingFromPoints (some pts) angle).maxX
             y := (boundingFromPoints (some pts) angle).maxY },
           { x := (boundingFromPoints (some pts) angle).minX
             y := (boundingFromPoints (some pts) angle).maxY }] ∧
      (boundingFromPoints (some pts) angle).angle = angle) ∧
    boundingFromPoints (some []) angle
      = { minX := 0, maxX := 0, minY := 0, maxY := 0, width := 0, height := 0
          center := { x := 0, y := 0 }, angle := angle, corners := [] } ∧
    boundingFromPoints none angle
      = { minX := 0, maxX := 0, minY := 0, maxY := 0, width := 0, height := 0
          center := { x := 0, y := 0 }, angle := angle, corners := [] } := by
  refine ⟨?_, rfl, rfl⟩
  intro hne
  cases pts with
  | nil => exact absurd rfl hne
  | cons p0 rest =>
    have hbox := extentFold_isBoundingBox p0 rest
    have hw : (extentFold (p0.x, p0.x, p0.y, p0.y) (p0 :: rest)).1
        ≤ (extentFold (p0.x, p0.x, p0.y, p0.y) (p0 :: rest)).2.1 :=
      le_trans (hbox.2.2.2.2 p0 (List.mem_cons_self _ _)).1
        (hbox.2.2.2.2 p0 (List.mem_cons_self _ _)).2.1
    have hh : (extentFold (p0.x, p0.x, p0.y, p0.y) (p0 :: rest)).2.2.1
        ≤ (extentFold (p0.x, p0.x, p0.y, p0.y) (p0 :: rest)).2.2.2 :=
      le_trans (hbox.2.2.2.2 p0 (List.mem_cons_self _ _)).2.2.1
        (hbox.2.2.2.2 p0 (List.mem_cons_self _ _)).2.2.2
    exact ⟨hbox, rfl, sub_nonneg.mpr hw, rfl, sub_nonneg.mpr hh, rfl, rfl, rfl⟩

/-- C22 on the points `(3, 1)`, `(0, 5)`, `(2, 2)`: the box from `(0, 1)` to
`(3, 5)`. -/
theorem boundingFromPoints_spec_witness :
    IsBoundingBoxOf [(⟨3, 1⟩ : Point ℚ), ⟨0, 5⟩, ⟨2, 2⟩]
      (boundingFromPoints (some [(⟨3, 1⟩ : Point ℚ), ⟨0, 5⟩, ⟨2, 2⟩]) 0).minX
      (boundingFromPoints (some [(⟨3, 1⟩ : Point ℚ), ⟨0, 5⟩, ⟨2, 2⟩]) 0).maxX
      (boundingFromPoints (some [(⟨3, 1⟩ : Point ℚ), ⟨0, 5⟩, ⟨2, 2⟩]) 0).minY
      (boundingFromPoints (some [(⟨3, 1⟩ : Point ℚ), ⟨0, 5⟩, ⟨2, 2⟩]) 0).maxY :=
  ((boundingFromPoints_spec [(⟨3, 1⟩ : Point ℚ), ⟨0, 5⟩, ⟨2, 2⟩] 0).1 (by simp)).1

end BoundingProps

/-! ## The list operations at a valid index -/

section ValidIndexProps

/-- C26: at a valid index `i`, `translate`, `rotate` and `resizeTo` return the
transformed shape (`resizeTo` transforms `baseDrawing` when it is given, else
`L[i]`) and store it at position `i`: the length is unchanged and every entry
at another position is unchanged. -/
theorem transform_at_valid_index {K : Type} [LinearOrderedField K] (M : JSMath K)
    (fmt : K → String) (self : DrawingManager K) (i : Nat) (d : Drawing K)
    (hi : self.drawings[i]? = some d) (dx dy a sx sy angle : K) (anchor : Point K)
    (base : Option (Drawing K)) :
    self.translate (i : Int) dx dy
      = (some (translateDrawing d dx dy),
         { drawings := self.drawings.set i (translateDrawing d dx dy) }) ∧
    self.rotate M (i : Int) a
      = (some (rotateDrawing M d a), { drawings := self.drawings.set i (rotateDrawing M d a) }) ∧
    self.resizeTo M fmt (i : Int) base anchor angle sx sy
      = (some (scaleDrawing M fmt (base.getD d) anchor angle sx sy),
         some { drawings :=
           self.drawings.set i (scaleDrawing M fmt (base.getD d) anchor angle sx sy) }) ∧
    (∀ v : Drawing K, (self.drawings.set i v).length = self.drawings.length ∧
      (self.drawings.set i v)[i]? = some v ∧
      ∀ j, j ≠ i → (self.drawings.set i v)[j]? = self.drawings[j]?) := by
  have hlt : i < self.drawings.length := (List.getElem?_eq_some_iff.mp hi).1
  have hget : arrayGet self.drawings (i : Int) = some d := by
    simp [arrayGet, hi]
  refine ⟨?_, ?_, ?_, fun v => ⟨List.length_set _ _ _, ?_, fun j hj => ?_⟩⟩
  · simp [DrawingManager.translate, hget]
  · simp [DrawingManager.rotate, hget]
  · cases base with
    | none => simp [DrawingManager.resizeTo, hget, arraySet, hlt]
    | some b => simp [DrawingManager.resizeTo, arraySet, hlt]
  · simp [List.getElem?_set, hlt]
  · rw [List.getElem?_set_ne (Ne.symm hj)]

/-- C26 on a list of two rectangles, moving the second by `(3, 4)`. -/
theorem transform_at_valid_index_witness :
    DrawingManager.translate
        ({ drawings := [{ type := .rectangle, start := some ⟨0, 0⟩, «end» := some ⟨1, 1⟩ },
                        { type := .rectangle, start := some ⟨2, 2⟩, «end» := some ⟨3, 3⟩ }] } :
          DrawingManager ℝ) 1 3 4
      = (some (translateDrawing
            ({ type := .rectangle, start := some ⟨2, 2⟩, «end» := some ⟨3, 3⟩ } : Drawing ℝ) 3 4),
         { drawings := [{ type := .rectangle, start := some ⟨0, 0⟩, «end» := some ⟨1, 1⟩ },
                        translateDrawing
                          ({ type := .rectangle, start := some ⟨2, 2⟩, «end» := some ⟨3, 3⟩ } :
                            Drawing ℝ) 3 4] }) :=
  (transform_at_valid_index (JSMath.mk Real.cos Real.sin Real.sqrt) (fun _ => "")
    ({ drawings := [{ type := .rectangle, start := some ⟨0, 0⟩, «end» := some ⟨1, 1⟩ },
                    { type := .rectangle, start := some ⟨2, 2⟩, «end» := some ⟨3, 3⟩ }] } :
      DrawingManager ℝ) 1
    { type := .rectangle, start := some ⟨2, 2⟩, «end» := some ⟨3, 3⟩ } rfl 3 4 0 1 1 0 ⟨0, 0⟩
    none).1

/-- C27: `add(s)` leaves a list of length `n + 1` whose first `n` entries are
those of the old list, in order, and whose last entry equals `s` field by
field: the stored shape is `s`, with no field added. -/
theorem add_appends {K : Type} (self : DrawingManager K) (s : Drawing K) :
    (self.add s).drawings = self.drawings ++ [s] ∧
    (self.add s).drawings.length = self.drawings.length + 1 ∧
    (∀ j, j < self.drawings.length → (self.add s).drawings[j]? = self.drawings[j]?) ∧
    (self.add s).drawings[self.drawings.length]? = some s := by
  have h : (self.add s).drawings = self.drawings ++ [s] := rfl
  refine ⟨h, by simp [h], fun j hj => ?_, by simp [h]⟩
  rw [h, List.getElem?_append_left hj]

/-- C27 on a list of one line, adding an icon. -/
theorem add_appends_witness :
    (DrawingManager.add ({ drawings := [{ type := .line }] } : DrawingManager ℚ)
        { type := .icon, x := some 1, y := some 2 }).drawings
      = [{ type := .line }, { type := .icon, x := some 1, y := some 2 }] :=
  (add_appends ({ drawings := [{ type := .line }] } : DrawingManager ℚ)
    { type := .icon, x := some 1, y := some 2 }).1

end ValidIndexProps

/-! ## Bounding boxes of the framed shapes, over the reals -/

section FrameBoxProps

/-- Over the reals a rotation by the angle `0` moves nothing. -/
theorem rotatePointAround_zero (p c : Point ℝ) :
    rotatePointAround (JSMath.mk Real.cos Real.sin Real.sqrt) p c 0 = p := by
  ext <;> simp [rotatePointAround]

/-- The corners are rotated only for a non-zero angle; over the reals that is
the rotation by the angle in every case. -/
theorem corners_eq_rotate (corners : List (Point ℝ)) (c : Point ℝ) (θ : ℝ) :
    (if θ = 0 then corners
      else rotateCorners (JSMath.mk Real.cos Real.sin Real.sqrt) corners c θ)
      = corners.map fun q => rotatePointAround (JSMath.mk Real.cos Real.sin Real.sqrt) q c θ := by
  by_cases h : θ = 0
  · subst h
    simp [rotatePointAround_zero]
  · simp [h, rotateCorners]

/-- The bounding box of a rectangle or ellipse with both corners, unfolded. -/
theorem getBoundingBox_frame (d : Drawing ℝ) (s e : Point ℝ)
    (hty : d.type = DrawingType.rectangle ∨ d.type = DrawingType.ellipse)
    (hs : d.start = some s) (he : d.«end» = some e) :
    getBoundingBox (JSMath.mk Real.cos Real.sin Real.sqrt) (some d)
      = { boundingFromPoints (some
            ([{ x := s.x / 2 + e.x / 2 - |s.x - e.x| / 2, y := s.y / 2 + e.y / 2 - |s.y - e.y| / 2 },
              { x := s.x / 2 + e.x / 2 + |s.x - e.x| / 2, y := s.y / 2 + e.y / 2 - |s.y - e.y| / 2 },
              { x := s.x / 2 + e.x / 2 + |s.x - e.x| / 2, y := s.y / 2 + e.y / 2 + |s.y - e.y| / 2 },
              { x := s.x / 2 + e.x / 2 - |s.x - e.x| / 2, y := s.y / 2 + e.y / 2 + |s.y - e.y| / 2 }].map
              fun q => rotatePointAround (JSMath.mk Real.cos Real.sin Real.sqrt) q
                { x := s.x / 2 + e.x / 2, y := s.y / 2 + e.y / 2 } (d.angle.getD 0)))
            (d.angle.getD 0) with
          width := |s.x - e.x|, height := |s.y - e.y|
          center := { x := s.x / 2 + e.x / 2, y := s.y / 2 + e.y / 2 }
          angle := d.angle.getD 0
          corners :=
            [{ x := s.x / 2 + e.x / 2 - |s.x - e.x| / 2, y := s.y / 2 + e.y / 2 - |s.y - e.y| / 2 },
              { x := s.x / 2 + e.x / 2 + |s.x - e.x| / 2, y := s.y / 2 + e.y / 2 - |s.y - e.y| / 2 },
              { x := s.x / 2 + e.x / 2 + |s.x - e.x| / 2, y := s.y / 2 + e.y / 2 + |s.y - e.y| / 2 },
              { x := s.x / 2 + e.x / 2 - |s.x - e.x| / 2, y := s.y / 2 + e.y / 2 + |s.y - e.y| / 2 }].map
              fun q => rotatePointAround (JSMath.mk Real.cos Real.sin Real.sqrt) q
                { x := s.x / 2 + e.x / 2, y := s.y / 2 + e.y / 2 } (d.angle.getD 0) } := by
  rcases hty with h | h <;>
    simp only [getBoundingBox, h, hs, he, Option.map_some', orElse_zero, Option.getD_some,
      corners_eq_rotate]

/-- C23: the bounding box of a rectangle or ellipse with `start`, `end` and
angle `θ` has the centre `c = midpoint(start, end)`, which is
`getDrawingCenter`, the un-rotated `width = |start.x - end.x|` and
`height = |start.y - end.y|`, `angle = θ`, and as corners the points
`c + (-w/2, -h/2)`, `c + (w/2, -h/2)`, `c + (w/2, h/2)`, `c + (-w/2, h/2)`, each
rotated about `c` by `θ`, in that order; `minX`, `maxX`, `minY`, `maxY` are the
extents of those rotated corners.  `θ` is the `angle` field, `0` when
absent. -/
theorem frame_boundingBox (d : Drawing ℝ) (s e : Point ℝ)
    (hty : d.type = DrawingType.rectangle ∨ d.type = DrawingType.ellipse)
    (hs : d.start = some s) (he : d.«end» = some e) :
    (getBoundingBox (JSMath.mk Real.cos Real.sin Real.sqrt) (some d)).center
      = { x := (s.x + e.x) / 2, y := (s.y + e.y) / 2 } ∧
    getDrawingCenter d = { x := (s.x + e.x) / 2, y := (s.y + e.y) / 2 } ∧
    (getBoundingBox (JSMath.mk Real.cos Real.sin Real.sqrt) (some d)).width = |s.x - e.x| ∧
    (getBoundingBox (JSMath.mk Real.cos Real.sin Real.sqrt) (some d)).height = |s.y - e.y| ∧
    (getBoundingBox (JSMath.mk Real.cos Real.sin Real.sqrt) (some d)).angle = d.angle.getD 0 ∧
    (getBoundingBox (JSMath.mk Real.cos Real.sin Real.sqrt) (some d)).corners
      = [{ x := (s.x + e.x) / 2 - |s.x - e.x| / 2, y := (s.y + e.y) / 2 - |s.y - e.y| / 2 },
         { x := (s.x + e.x) / 2 + |s.x - e.x| / 2, y := (s.y + e.y) / 2 - |s.y - e.y| / 2 },
         { x := (s.x + e.x) / 2 + |s.x - e.x| / 2, y := (s.y + e.y) / 2 + |s.y - e.y| / 2 },
         { x := (s.x + e.x) / 2 - |s.x - e.x| / 2, y := (s.y + e.y) / 2 + |s.y - e.y| / 2 }].map
          (fun q => rotatePointAround (JSMath.mk Real.cos Real.sin Real.sqrt) q
            { x := (s.x + e.x) / 2, y := (s.y + e.y) / 2 } (d.angle.getD 0)) ∧
    IsBoundingBoxOf (getBoundingBox (JSMath.mk Real.cos Real.sin Real.sqrt) (some d)).corners
      (getBoundingBox (JSMath.mk Real.cos Real.sin Real.sqrt) (some d)).minX
      (getBoundingBox (JSMath.mk Real.cos Real.sin Real.sqrt) (some d)).maxX
      (getBoundingBox (JSMath.mk Real.cos Real.sin Real.sqrt) (some d)).minY
      (getBoundingBox (JSMath.mk Real.cos Real.sin Real.sqrt) (some d)).maxY := by
  have hx : s.x / 2 + e.x / 2 = (s.x + e.x) / 2 := by ring
  have hy : s.y / 2 + e.y / 2 = (s.y + e.y) / 2 := by ring
  have hc : getDrawingCenter d = { x := (s.x + e.x) / 2, y := (s.y + e.y) / 2 } := by
    rcases hty with h | h <;> simp [getDrawingCenter, h, hs, he, orElse_zero, hx, hy]
  rw [getBoundingBox_frame d s e hty hs he]
  refine ⟨by simp only [hx, hy], hc, rfl, rfl, rfl, by simp only [hx, hy], ?_⟩
  exact extentFold_isBoundingBox _ _

/-- C23 on the rectangle from `(0, 0)` to `(4, 2)` without an angle: width 4,
height 2. -/
theorem frame_boundingBox_witness :
    (getBoundingBox (JSMath.mk Real.cos Real.sin Real.sqrt)
        (some { type := .rectangle, start := some ⟨0, 0⟩, «end» := some ⟨4, 2⟩ })).width
      = |(0 : ℝ) - 4| :=
  (frame_boundingBox { type := .rectangle, start := some ⟨0, 0⟩, «end» := some ⟨4, 2⟩ }
    ⟨0, 0⟩ ⟨4, 2⟩ (Or.inl rfl) rfl rfl).2.2.1

/-- The corners of the bounding box of a text with an anchor, unfolded: the
glyph box is `8 × (length || 1)` wide and is rotated about its own centre. -/
theorem getBoundingBox_text_corners (d : Drawing ℝ) (x y : ℝ)
    (hty : d.type = DrawingType.text) (hx : d.x = some x) (hy : d.y = some y) :
    (getBoundingBox (JSMath.mk Real.cos Real.sin Real.sqrt) (some d)).corners
      = (glyphBoxCorners x y (textLengthOr1 d.text)).map
          fun q => rotatePointAround (JSMath.mk Real.cos Real.sin Real.sqrt) q
            { x := x + 8 * (textLengthOr1 d.text : ℝ) / 2, y := y + 8 } (d.angle.getD 0) := by
  have h8 : (16 : ℝ) / 2 = 8 := by norm_num
  simp only [getBoundingBox, hty, hx, hy, orElse_zero, Option.getD_some, corners_eq_rotate,
    glyphBoxCorners, mul_comm ((textLengthOr1 d.text : ℕ) : ℝ) 8, h8]

/-- C24 as stated fails for the empty string: the bounding box of the text
`""` anchored at `(0, 0)`, without an angle, has the corners of a box 8 wide,
not of a box `8 × 0` wide. -/
theorem text_box_empty_counterexample :
    (getBoundingBox (JSMath.mk Real.cos Real.sin Real.sqrt)
        (some { type := .text, x := some 0, y := some 0, text := some "" })).corners
      ≠ (glyphBoxCorners (0 : ℝ) 0 (jsLength "")).map
          fun q => rotatePointAround (JSMath.mk Real.cos Real.sin Real.sqrt) q
            (getDrawingCenter { type := .text, x := some 0, y := some 0, text := some "" }) 0 := by
  rw [getBoundingBox_text_corners _ 0 0 rfl rfl rfl]
  have hn : textLengthOr1 (some "") = 1 := by decide
  have hj : jsLength "" = 0 := by decide
  simp only [hn, hj, Option.getD_none, List.map_map]
  simp [glyphBoxCorners, rotatePointAround, Point.ext_iff]

/-- The bounding box of a turned text is turned about the centre of the glyph
box, not about the anchor: for the text `"ab"` anchored at `(0, 0)` with a
quarter turn the first corner is `(16, 0)` and the anchor is the last
corner. -/
theorem text_box_rotation_slip :
    (getBoundingBox (JSMath.mk Real.cos Real.sin Real.sqrt)
        (some { type := .text, x := some 0, y := some 0, text := some "ab",
                angle := some (Real.pi / 2) })).corners
      = [⟨16, 0⟩, ⟨16, 16⟩, ⟨0, 16⟩, ⟨0, 0⟩] := by
  rw [getBoundingBox_text_corners _ 0 0 rfl rfl rfl]
  have hn : textLengthOr1 (some "ab") = 2 := by decide
  simp only [hn, Option.getD_some, glyphBoxCorners, List.map_cons, List.map_nil,
    rotatePointAround, Real.cos_pi_div_two, Real.sin_pi_div_two]
  norm_num

/-- C24, amended: for a text anchored at `(x, y)` that is not turned (its
angle is absent or `0`), the corners of the bounding box are the glyph-box
corners `(x, y)`, `(x + 8 n, y)`, `(x + 8 n, y + 16)`, `(x, y + 16)`, where `n`
is the length of the text string when that is at least 1, and `n = 1` when
the string is empty or absent; they are those corners rotated by the angle
`0` about `getDrawingCenter`, which is the anchor, and the anchor is
`corners[0]`. -/
theorem text_boundingBox_unrotated (d : Drawing ℝ) (x y : ℝ) (n : Nat)
    (hty : d.type = DrawingType.text) (hx : d.x = some x) (hy : d.y = some y)
    (hangle : d.angle.getD 0 = 0)
    (hn : (d.text = some "" ∨ d.text = none) ∧ n = 1 ∨
      ∃ s, d.text = some s ∧ 1 ≤ jsLength s ∧ n = jsLength s) :
    (getBoundingBox (JSMath.mk Real.cos Real.sin Real.sqrt) (some d)).corners
      = glyphBoxCorners x y n ∧
    getDrawingCenter d = { x := x, y := y } ∧
    (getBoundingBox (JSMath.mk Real.cos Real.sin Real.sqrt) (some d)).corners
      = (glyphBoxCorners x y n).map
          (fun q => rotatePointAround (JSMath.mk Real.cos Real.sin Real.sqrt) q
            (getDrawingCenter d) (d.angle.getD 0)) ∧
    (getBoundingBox (JSMath.mk Real.cos Real.sin Real.sqrt) (some d)).corners[0]?
      = some { x := x, y := y } := by
  have hlen : textLengthOr1 d.text = n := by
    rcases hn with ⟨h | h, h1⟩ | ⟨s, h, h1, h2⟩
    · rw [h, h1]; decide
    · rw [h, h1]; rfl
    · have h0 : jsLength s ≠ 0 := by omega
      simp [textLengthOr1, h, h0, h2]
  have hcorners : (getBoundingBox (JSMath.mk Real.cos Real.sin Real.sqrt) (some d)).corners
      = glyphBoxCorners x y n := by
    rw [getBoundingBox_text_corners d x y hty hx hy, hlen, hangle]
    simp [rotatePointAround_zero]
  refine ⟨hcorners, by simp [getDrawingCenter, hty, hx, hy, orElse_zero], ?_, ?_⟩
  · rw [hcorners, hangle]
    simp [rotatePointAround_zero]
  · rw [hcorners]
    rfl

/-- C24 amended, at the text `"ab"` anchored at `(3, 4)` without an angle. -/
theorem text_boundingBox_unrotated_witness :
    (getBoundingBox (JSMath.mk Real.cos Real.sin Real.sqrt)
        (some { type := .text, x := some 3, y := some 4, text := some "ab" })).corners
      = glyphBoxCorners 3 4 2 :=
  (text_boundingBox_unrotated { type := .text, x := some 3, y := some 4, text := some "ab" }
    3 4 2 rfl rfl rfl rfl (Or.inr ⟨"ab", rfl, by decide, by decide⟩)).1

end FrameBoxProps

/-! ## Hit testing and rotation, over the reals -/

section RotationProps

/-- Two rotations about the same centre compose to the rotation by the sum of
the angles. -/
theorem rotatePointAround_add (p c : Point ℝ) (θ φ : ℝ) :
    rotatePointAround (JSMath.mk Real.cos Real.sin Real.sqrt)
        (rotatePointAround (JSMath.mk Real.cos Real.sin Real.sqrt) p c θ) c φ
      = rotatePointAround (JSMath.mk Real.cos Real.sin Real.sqrt) p c (θ + φ) := by
  ext
  · simp only [rotatePointAround, Real.cos_add, Real.sin_add]
    ring
  · simp only [rotatePointAround, Real.cos_add, Real.sin_add]
    ring

/-- The difference of two rotated points is the rotated difference. -/
theorem rotatePointAround_sub (p q c : Point ℝ) (θ : ℝ) :
    (rotatePointAround (JSMath.mk Real.cos Real.sin Real.sqrt) p c θ).x
        - (rotatePointAround (JSMath.mk Real.cos Real.sin Real.sqrt) q c θ).x
      = (p.x - q.x) * Real.cos θ - (p.y - q.y) * Real.sin θ ∧
    (rotatePointAround (JSMath.mk Real.cos Real.sin Real.sqrt) p c θ).y
        - (rotatePointAround (JSMath.mk Real.cos Real.sin Real.sqrt) q c θ).y
      = (p.x - q.x) * Real.sin θ + (p.y - q.y) * Real.cos θ := by
  constructor <;> simp only [rotatePointAround] <;> ring

/-- The distance to a segment depends only on the differences `p - a` and
`b - a`, and is unchanged when both are turned by the same rotation. -/
theorem distanceToSegment_of_rotated_differences (p a b p' a' b' : Point ℝ) (cs sn : ℝ)
    (h1 : cs ^ 2 + sn ^ 2 = 1)
    (hux : p'.x - a'.x = (p.x - a.x) * cs - (p.y - a.y) * sn)
    (huy : p'.y - a'.y = (p.x - a.x) * sn + (p.y - a.y) * cs)
    (hdx : b'.x - a'.x = (b.x - a.x) * cs - (b.y - a.y) * sn)
    (hdy : b'.y - a'.y = (b.x - a.x) * sn + (b.y - a.y) * cs) :
    distanceToSegment (JSMath.mk Real.cos Real.sin Real.sqrt) p' a' b'
      = distanceToSegment (JSMath.mk Real.cos Real.sin Real.sqrt) p a b := by
  have hden : (b'.x - a'.x) * (b'.x - a'.x) + (b'.y - a'.y) * (b'.y - a'.y)
      = (b.x - a.x) * (b.x - a.x) + (b.y - a.y) * (b.y - a.y) := by
    rw [hdx, hdy]
    linear_combination ((b.x - a.x) ^ 2 + (b.y - a.y) ^ 2) * h1
  have hnum : (p'.x - a'.x) * (b'.x - a'.x) + (p'.y - a'.y) * (b'.y - a'.y)
      = (p.x - a.x) * (b.x - a.x) + (p.y - a.y) * (b.y - a.y) := by
    rw [hux, huy, hdx, hdy]
    linear_combination ((p.x - a.x) * (b.x - a.x) + (p.y - a.y) * (b.y - a.y)) * h1
  have hzero : (b'.x - a'.x = 0 ∧ b'.y - a'.y = 0) ↔ (b.x - a.x = 0 ∧ b.y - a.y = 0) := by
    rw [← mul_self_add_mul_self_eq_zero, ← mul_self_add_mul_self_eq_zero, hden]
  simp only [distanceToSegment, JSMath.hypot]
  by_cases hz : b.x - a.x = 0 ∧ b.y - a.y = 0
  · rw [if_pos (hzero.mpr hz), if_pos hz]
    congr 1
    rw [hux, huy]
    linear_combination ((p.x - a.x) ^ 2 + (p.y - a.y) ^ 2) * h1
  · rw [if_neg (fun h => hz (hzero.mp h)), if_neg hz, hnum, hden]
    congr 1
    have e1 : ∀ T : ℝ, p'.x - (a'.x + T * (b'.x - a'.x))
        = (p.x - (a.x + T * (b.x - a.x))) * cs - (p.y - (a.y + T * (b.y - a.y))) * sn := by
      intro T
      linear_combination hux - T * hdx
    have e2 : ∀ T : ℝ, p'.y - (a'.y + T * (b'.y - a'.y))
        = (p.x - (a.x + T * (b.x - a.x))) * sn + (p.y - (a.y + T * (b.y - a.y))) * cs := by
      intro T
      linear_combination huy - T * hdy
    rw [e1, e2]
    linear_combination
      ((p.x - (a.x + max 0 (min 1 (((p.x - a.x) * (b.x - a.x) + (p.y - a.y) * (b.y - a.y))
          / ((b.x - a.x) * (b.x - a.x) + (b.y - a.y) * (b.y - a.y)))) * (b.x - a.x))) ^ 2
        + (p.y - (a.y + max 0 (min 1 (((p.x - a.x) * (b.x - a.x) + (p.y - a.y) * (b.y - a.y))
          / ((b.x - a.x) * (b.x - a.x) + (b.y - a.y) * (b.y - a.y)))) * (b.y - a.y))) ^ 2) * h1

/-- The distance to a segment is unchanged when the point and the segment are
turned about the same centre by the same angle. -/
theorem distanceToSegment_rotate (p a b c : Point ℝ) (θ : ℝ) :
    distanceToSegment (JSMath.mk Real.cos Real.sin Real.sqrt)
        (rotatePointAround (JSMath.mk Real.cos Real.sin Real.sqrt) p c θ)
        (rotatePointAround (JSMath.mk Real.cos Real.sin Real.sqrt) a c θ)
        (rotatePointAround (JSMath.mk Real.cos Real.sin Real.sqrt) b c θ)
      = distanceToSegment (JSMath.mk Real.cos Real.sin Real.sqrt) p a b :=
  distanceToSegment_of_rotated_differences p a b _ _ _ (Real.cos θ) (Real.sin θ)
    (Real.cos_sq_add_sin_sq θ) (rotatePointAround_sub p a c θ).1 (rotatePointAround_sub p a c θ).2
    (rotatePointAround_sub b a c θ).1 (rotatePointAround_sub b a c θ).2

/-- The polyline loop gives the same answer on a turned path at the turned
point. -/
theorem polylineLoop_rotate (p c : Point ℝ) (θ t : ℝ) :
    ∀ pts : List (Point ℝ),
      polylineLoop (JSMath.mk Real.cos Real.sin Real.sqrt)
          (rotatePointAround (JSMath.mk Real.cos Real.sin Real.sqrt) p c θ) t
          (pts.map fun q => rotatePointAround (JSMath.mk Real.cos Real.sin Real.sqrt) q c θ)
        = polylineLoop (JSMath.mk Real.cos Real.sin Real.sqrt) p t pts
  | [] => rfl
  | [_] => rfl
  | a :: b :: rest => by
    have ih := polylineLoop_rotate p c θ t (b :: rest)
    simp only [List.map_cons] at ih ⊢
    simp only [polylineLoop, pointNearLine, distanceToSegment_rotate, ih]

/-- The un-rotated test point of a shape turned by `θ`, at a point turned by
`θ` about the same centre, is the un-rotated test point of the shape before
the turn. -/
theorem testPoint_rotated (p c : Point ℝ) (α θ : ℝ) :
    (if α + θ = 0 then rotatePointAround (JSMath.mk Real.cos Real.sin Real.sqrt) p c θ
      else rotatePointAround (JSMath.mk Real.cos Real.sin Real.sqrt)
        (rotatePointAround (JSMath.mk Real.cos Real.sin Real.sqrt) p c θ) c (-(α + θ)))
      = if α = 0 then p else rotatePointAround (JSMath.mk Real.cos Real.sin Real.sqrt) p c (-α) := by
  rw [testPoint_eq_rotate, testPoint_eq_rotate, rotatePointAround_add]
  congr 1
  ring

/-- C30: hit testing is consistent with rotation: for every drawing `d`, point
`p`, angle `θ` and tolerance `t`, the shape `rotateDrawing(d, θ)` is hit at `p`
turned by `θ` about `getDrawingCenter(d)` exactly when `d` is hit at `p`.
This holds for the shapes that turn their points (pencil, line, segment,
arrow, projection) and for those that accumulate an angle (rectangle,
ellipse, text, icon); an incomplete shape is hit on neither side. -/
theorem hit_rotation_consistent (d : Drawing ℝ) (p : Point ℝ) (θ t : ℝ) :
    isPointOnDrawing (JSMath.mk Real.cos Real.sin Real.sqrt)
        (rotatePointAround (JSMath.mk Real.cos Real.sin Real.sqrt) p (getDrawingCenter d) θ)
        (rotateDrawing (JSMath.mk Real.cos Real.sin Real.sqrt) d θ) t
      = isPointOnDrawing (JSMath.mk Real.cos Real.sin Real.sqrt) p d t := by
  have hline : ∀ (s e : Option (Point ℝ)) (c : Point ℝ),
      pointNearLine (JSMath.mk Real.cos Real.sin Real.sqrt)
          (rotatePointAround (JSMath.mk Real.cos Real.sin Real.sqrt) p c θ)
          (s.map fun q => rotatePointAround (JSMath.mk Real.cos Real.sin Real.sqrt) q c θ)
          (e.map fun q => rotatePointAround (JSMath.mk Real.cos Real.sin Real.sqrt) q c θ) t
        = pointNearLine (JSMath.mk Real.cos Real.sin Real.sqrt) p s e t := by
    intro s e c
    cases s <;> cases e <;> simp [pointNearLine, distanceToSegment_rotate]
  have hmid : ∀ s e : Point ℝ, ({ x := s.x / 2 + e.x / 2, y := s.y / 2 + e.y / 2 } : Point ℝ)
      = { x := (s.x + e.x) / 2, y := (s.y + e.y) / 2 } := by
    intro s e
    ext <;> simp <;> ring
  cases hty : d.type
  case pencil =>
    cases hp : d.points with
    | none => simp [isPointOnDrawing, rotateDrawing, hty, hp, pointNearPolyline]
    | some pts =>
      simp [isPointOnDrawing, rotateDrawing, hty, hp, pointNearPolyline, polylineLoop_rotate]
  case line => simp only [isPointOnDrawing, rotateDrawing, hty, hline]
  case segment => simp only [isPointOnDrawing, rotateDrawing, hty, hline]
  case arrow => simp only [isPointOnDrawing, rotateDrawing, hty, hline]
  case projection => simp only [isPointOnDrawing, rotateDrawing, hty, hline]
  case rectangle =>
    cases hs : d.start <;> cases he : d.«end» <;>
      simp only [isPointOnDrawing, rotateDrawing, hty, hs, he, pointInRect]
    rename_i s e
    have hc : getDrawingCenter d = { x := (s.x + e.x) / 2, y := (s.y + e.y) / 2 } := by
      simp [getDrawingCenter, hty, hs, he, orElse_zero, hmid]
    simp only [hc, orElse_zero, Option.getD_some, testPoint_rotated]
  case ellipse =>
    cases hs : d.start <;> cases he : d.«end» <;>
      simp only [isPointOnDrawing, rotateDrawing, hty, hs, he, pointInEllipse]
    rename_i s e
    have hc : getDrawingCenter d = { x := (s.x + e.x) / 2, y := (s.y + e.y) / 2 } := by
      simp [getDrawingCenter, hty, hs, he, orElse_zero, hmid]
    simp only [hc, orElse_zero, Option.getD_some, testPoint_rotated]
  case text =>
    cases hx : d.x <;> cases hy : d.y <;>
      simp only [isPointOnDrawing, rotateDrawing, hty, hx, hy, pointNearText]
    rename_i x y
    have hc : getDrawingCenter d = { x := x, y := y } := by
      simp [getDrawingCenter, hty, hx, hy, orElse_zero]
    simp only [hc, orElse_zero, Option.getD_some, testPoint_rotated]
  case icon =>
    cases hx : d.x <;> cases hy : d.y <;>
      simp only [isPointOnDrawing, rotateDrawing, hty, hx, hy, pointNearIcon]
    rename_i x y
    have hc : getDrawingCenter d = { x := x, y := y } := by
      simp [getDrawingCenter, hty, hx, hy, orElse_zero]
    simp only [hc, orElse_zero, Option.getD_some, testPoint_rotated]
  case unknown => simp [isPointOnDrawing, rotateDrawing, hty]

/-- C30 on the rectangle from `(0, 0)` to `(10, 2)` turned by a quarter turn:
the point `(9, 1)`, which the rectangle covers, turned about the centre
`(5, 1)`, is covered by the turned rectangle. -/
theorem hit_rotation_consistent_witness :
    isPointOnDrawing (JSMath.mk Real.cos Real.sin Real.sqrt)
        (rotatePointAround (JSMath.mk Real.cos Real.sin Real.sqrt) ⟨9, 1⟩
          (getDrawingCenter { type := .rectangle, start := some ⟨0, 0⟩, «end» := some ⟨10, 2⟩ })
          (Real.pi / 2))
        (rotateDrawing (JSMath.mk Real.cos Real.sin Real.sqrt)
          { type := .rectangle, start := some ⟨0, 0⟩, «end» := some ⟨10, 2⟩ } (Real.pi / 2)) 0
      = true := by
  rw [hit_rotation_consistent]
  norm_num [isPointOnDrawing, pointInRect, orElse]

end RotationProps

/-! ## The bounding box encloses the shape, over the reals -/

section EncloseProps

/-- A point at distance at most `0` from a segment lies, in each coordinate,
between the endpoints. -/
theorem between_of_distanceToSegment_le_zero (p a b : Point ℝ)
    (h : distanceToSegment (JSMath.mk Real.cos Real.sin Real.sqrt) p a b ≤ 0) :
    min a.x b.x ≤ p.x ∧ p.x ≤ max a.x b.x ∧ min a.y b.y ≤ p.y ∧ p.y ≤ max a.y b.y := by
  have hpoint : ∃ T : ℝ, 0 ≤ T ∧ T ≤ 1 ∧ p = segmentPoint a b T := by
    by_cases hab : a = b
    · subst hab
      refine ⟨0, le_refl 0, zero_le_one, ?_⟩
      simp only [distanceToSegment, sub_self, and_self, if_true, JSMath.hypot] at h
      have hz := Real.sqrt_eq_zero'.mp (le_antisymm h (Real.sqrt_nonneg _))
      have hx : p.x - a.x = 0 := by nlinarith [mul_self_nonneg (p.x - a.x), mul_self_nonneg (p.y - a.y)]
      have hy : p.y - a.y = 0 := by nlinarith [mul_self_nonneg (p.x - a.x), mul_self_nonneg (p.y - a.y)]
      ext
      · simp [segmentPoint]; linarith
      · simp [segmentPoint]; linarith
    · refine ⟨max 0 (min 1 (projectionParameter p a b)), le_max_left _ _,
        max_le zero_le_one (min_le_left _ _), ?_⟩
      rw [distanceToSegment_eq_clamped p a b hab] at h
      simp only [euclideanDistance] at h
      have hz := Real.sqrt_eq_zero'.mp (le_antisymm h (Real.sqrt_nonneg _))
      have hx : p.x - (segmentPoint a b (max 0 (min 1 (projectionParameter p a b)))).x = 0 := by
        nlinarith [sq_nonneg (p.x - (segmentPoint a b (max 0 (min 1 (projectionParameter p a b)))).x),
          sq_nonneg (p.y - (segmentPoint a b (max 0 (min 1 (projectionParameter p a b)))).y)]
      have hy : p.y - (segmentPoint a b (max 0 (min 1 (projectionParameter p a b)))).y = 0 := by
        nlinarith [sq_nonneg (p.x - (segmentPoint a b (max 0 (min 1 (projectionParameter p a b)))).x),
          sq_nonneg (p.y - (segmentPoint a b (max 0 (min 1 (projectionParameter p a b)))).y)]
      ext
      · linarith
      · linarith
  obtain ⟨T, h0, h1, hp⟩ := hpoint
  have hcomb : ∀ u v : ℝ, min u v ≤ u + T * (v - u) ∧ u + T * (v - u) ≤ max u v := by
    intro u v
    rcases le_total u v with huv | huv
    · rw [min_eq_left huv, max_eq_right huv]
      constructor <;> nlinarith [mul_nonneg h0 (sub_nonneg.mpr huv),
        mul_nonneg (sub_nonneg.mpr h1) (sub_nonneg.mpr huv)]
    · rw [min_eq_right huv, max_eq_left huv]
      constructor <;> nlinarith [mul_nonneg h0 (sub_nonneg.mpr huv),
        mul_nonneg (sub_nonneg.mpr h1) (sub_nonneg.mpr huv)]
  rw [hp]
  exact ⟨(hcomb a.x b.x).1, (hcomb a.x b.x).2, (hcomb a.y b.y).1, (hcomb a.y b.y).2⟩

/-- A point between two points of a list lies within the bounding box of the
list. -/
theorem within_box_of_between (pts : List (Point ℝ)) (minX maxX minY maxY : ℝ)
    (hbox : IsBoundingBoxOf pts minX maxX minY maxY) (a b p : Point ℝ) (ha : a ∈ pts)
    (hb : b ∈ pts)
    (hp : min a.x b.x ≤ p.x ∧ p.x ≤ max a.x b.x ∧ min a.y b.y ≤ p.y ∧ p.y ≤ max a.y b.y) :
    minX ≤ p.x ∧ p.x ≤ maxX ∧ minY ≤ p.y ∧ p.y ≤ maxY := by
  obtain ⟨a1, a2, a3, a4⟩ := hbox.2.2.2.2 a ha
  obtain ⟨b1, b2, b3, b4⟩ := hbox.2.2.2.2 b hb
  exact ⟨le_trans (le_min a1 b1) hp.1, le_trans hp.2.1 (max_le a2 b2),
    le_trans (le_min a3 b3) hp.2.2.1, le_trans hp.2.2.2 (max_le a4 b4)⟩

/-- Among the four sign choices `(±a, ±b)` one is extreme for any linear
form, on the box `|u| ≤ a`, `|v| ≤ b`. -/
theorem extreme_corner (a b u v α β : ℝ) (hu : |u| ≤ a) (hv : |v| ≤ b) :
    ∃ k ∈ [((-a, -b) : ℝ × ℝ), (a, -b), (a, b), (-a, b)], α * u + β * v ≤ α * k.1 + β * k.2 := by
  obtain ⟨hu1, hu2⟩ := abs_le.mp hu
  obtain ⟨hv1, hv2⟩ := abs_le.mp hv
  rcases le_total 0 α with hα | hα <;> rcases le_total 0 β with hβ | hβ
  · exact ⟨(a, b), by simp, by
      have := mul_le_mul_of_nonneg_left hu2 hα
      have := mul_le_mul_of_nonneg_left hv2 hβ
      simp only; linarith⟩
  · exact ⟨(a, -b), by simp, by
      have := mul_le_mul_of_nonneg_left hu2 hα
      have := mul_le_mul_of_nonpos_left hv1 hβ
      simp only; linarith⟩
  · exact ⟨(-a, b), by simp, by
      have := mul_le_mul_of_nonpos_left hu1 hα
      have := mul_le_mul_of_nonneg_left hv2 hβ
      simp only; linarith⟩
  · exact ⟨(-a, -b), by simp, by
      have := mul_le_mul_of_nonpos_left hu1 hα
      have := mul_le_mul_of_nonpos_left hv1 hβ
      simp only; linarith⟩

/-- A point of the box `|x - c.x| ≤ a`, `|y - c.y| ≤ b`, turned about `c`, lies
within the extents of the four turned corners of the box. -/
theorem rotated_box_encloses (c q : Point ℝ) (a b θ minX maxX minY maxY : ℝ)
    (hu : |q.x - c.x| ≤ a) (hv : |q.y - c.y| ≤ b)
    (hbox : IsBoundingBoxOf
      ([({ x := c.x - a, y := c.y - b } : Point ℝ), { x := c.x + a, y := c.y - b },
        { x := c.x + a, y := c.y + b }, { x := c.x - a, y := c.y + b }].map
        fun K => rotatePointAround (JSMath.mk Real.cos Real.sin Real.sqrt) K c θ)
      minX maxX minY maxY) :
    minX ≤ (rotatePointAround (JSMath.mk Real.cos Real.sin Real.sqrt) q c θ).x ∧
    (rotatePointAround (JSMath.mk Real.cos Real.sin Real.sqrt) q c θ).x ≤ maxX ∧
    minY ≤ (rotatePointAround (JSMath.mk Real.cos Real.sin Real.sqrt) q c θ).y ∧
    (rotatePointAround (JSMath.mk Real.cos Real.sin Real.sqrt) q c θ).y ≤ maxY := by
  have hbound := hbox.2.2.2.2
  have key : ∀ α β : ℝ, ∃ K : Point ℝ,
      K ∈ [({ x := c.x - a, y := c.y - b } : Point ℝ), { x := c.x + a, y := c.y - b },
        { x := c.x + a, y := c.y + b }, { x := c.x - a, y := c.y + b }] ∧
      α * (q.x - c.x) + β * (q.y - c.y) ≤ α * (K.x - c.x) + β * (K.y - c.y) := by
    intro α β
    obtain ⟨k, hk, hle⟩ := extreme_corner a b (q.x - c.x) (q.y - c.y) α β hu hv
    simp only [List.mem_cons, List.mem_singleton, List.not_mem_nil, or_false] at hk
    rcases hk with rfl | rfl | rfl | rfl
    · exact ⟨{ x := c.x - a, y := c.y - b }, by simp, by simp only at hle ⊢; linarith⟩
    · exact ⟨{ x := c.x + a, y := c.y - b }, by simp, by simp only at hle ⊢; linarith⟩
    · exact ⟨{ x := c.x + a, y := c.y + b }, by simp, by simp only at hle ⊢; linarith⟩
    · exact ⟨{ x := c.x - a, y := c.y + b }, by simp, by simp only at hle ⊢; linarith⟩
  have hmem : ∀ K : Point ℝ,
      K ∈ [({ x := c.x - a, y := c.y - b } : Point ℝ), { x := c.x + a, y := c.y - b },
        { x := c.x + a, y := c.y + b }, { x := c.x - a, y := c.y + b }] →
      minX ≤ c.x + (K.x - c.x) * Real.cos θ - (K.y - c.y) * Real.sin θ ∧
      c.x + (K.x - c.x) * Real.cos θ - (K.y - c.y) * Real.sin θ ≤ maxX ∧
      minY ≤ c.y + (K.x - c.x) * Real.sin θ + (K.y - c.y) * Real.cos θ ∧
      c.y + (K.x - c.x) * Real.sin θ + (K.y - c.y) * Real.cos θ ≤ maxY := by
    intro K hK
    exact hbound _ (List.mem_map_of_mem _ hK)
  simp only [rotatePointAround]
  refine ⟨?_, ?_, ?_, ?_⟩
  · obtain ⟨K, hK, hle⟩ := key (-Real.cos θ) (Real.sin θ)
    have := (hmem K hK).1
    linarith
  · obtain ⟨K, hK, hle⟩ := key (Real.cos θ) (-Real.sin θ)
    have := (hmem K hK).2.1
    linarith
  · obtain ⟨K, hK, hle⟩ := key (-Real.sin θ) (-Real.cos θ)
    have := (hmem K hK).2.2.1
    linarith
  · obtain ⟨K, hK, hle⟩ := key (Real.sin θ) (Real.cos θ)
    have := (hmem K hK).2.2.2
    linarith

/-- The extents of the bounding box of a rectangle or ellipse are the extents
of its turned corners. -/
theorem frame_extents_isBoundingBox (d : Drawing ℝ) (s e : Point ℝ)
    (hty : d.type = DrawingType.rectangle ∨ d.type = DrawingType.ellipse)
    (hs : d.start = some s) (he : d.«end» = some e) :
    IsBoundingBoxOf
      ([({ x := s.x / 2 + e.x / 2 - |s.x - e.x| / 2, y := s.y / 2 + e.y / 2 - |s.y - e.y| / 2 } :
          Point ℝ),
        { x := s.x / 2 + e.x / 2 + |s.x - e.x| / 2, y := s.y / 2 + e.y / 2 - |s.y - e.y| / 2 },
        { x := s.x / 2 + e.x / 2 + |s.x - e.x| / 2, y := s.y / 2 + e.y / 2 + |s.y - e.y| / 2 },
        { x := s.x / 2 + e.x / 2 - |s.x - e.x| / 2, y := s.y / 2 + e.y / 2 + |s.y - e.y| / 2 }].map
        fun K => rotatePointAround (JSMath.mk Real.cos Real.sin Real.sqrt) K
          { x := s.x / 2 + e.x / 2, y := s.y / 2 + e.y / 2 } (d.angle.getD 0))
      (getBoundingBox (JSMath.mk Real.cos Real.sin Real.sqrt) (some d)).minX
      (getBoundingBox (JSMath.mk Real.cos Real.sin Real.sqrt) (some d)).maxX
      (getBoundingBox (JSMath.mk Real.cos Real.sin Real.sqrt) (some d)).minY
      (getBoundingBox (JSMath.mk Real.cos Real.sin Real.sqrt) (some d)).maxY := by
  rw [getBoundingBox_frame d s e hty hs he]
  exact extentFold_isBoundingBox _ _

/-- A rectangle that is hit at `p` with tolerance 0 has `p` within the extents
of its bounding box, at every angle. -/
theorem rectangle_within_box (d : Drawing ℝ) (s e p : Point ℝ)
    (hty : d.type = DrawingType.rectangle) (hs : d.start = some s) (he : d.«end» = some e)
    (hhit : isPointOnDrawing (JSMath.mk Real.cos Real.sin Real.sqrt) p d 0 = true) :
    (getBoundingBox (JSMath.mk Real.cos Real.sin Real.sqrt) (some d)).minX ≤ p.x ∧
    p.x ≤ (getBoundingBox (JSMath.mk Real.cos Real.sin Real.sqrt) (some d)).maxX ∧
    (getBoundingBox (JSMath.mk Real.cos Real.sin Real.sqrt) (some d)).minY ≤ p.y ∧
    p.y ≤ (getBoundingBox (JSMath.mk Real.cos Real.sin Real.sqrt) (some d)).maxY := by
  have hmid : ({ x := (s.x + e.x) / 2, y := (s.y + e.y) / 2 } : Point ℝ)
      = { x := s.x / 2 + e.x / 2, y := s.y / 2 + e.y / 2 } := by
    ext <;> simp <;> ring
  simp only [isPointOnDrawing, hty, pointInRect, hs, he, orElse_zero, testPoint_eq_rotate,
    Bool.and_eq_true, decide_eq_true_eq, ge_iff_le, sub_zero, add_zero, hmid] at hhit
  obtain ⟨⟨⟨hq1, hq2⟩, hq3⟩, hq4⟩ := hhit
  have hback := rotatePointAround_add p { x := s.x / 2 + e.x / 2, y := s.y / 2 + e.y / 2 }
    (-(d.angle.getD 0)) (d.angle.getD 0)
  rw [neg_add_cancel, rotatePointAround_zero] at hback
  have hbox := frame_extents_isBoundingBox d s e (Or.inl hty) hs he
  generalize rotatePointAround (JSMath.mk Real.cos Real.sin Real.sqrt) p
    { x := s.x / 2 + e.x / 2, y := s.y / 2 + e.y / 2 } (-(d.angle.getD 0)) = q
    at hback hq1 hq2 hq3 hq4
  have hu : |q.x - (s.x / 2 + e.x / 2)| ≤ |s.x - e.x| / 2 := by
    rw [abs_le]
    rcases le_total s.x e.x with h | h
    · rw [min_eq_left h] at hq1
      rw [max_eq_right h] at hq2
      rw [abs_of_nonpos (sub_nonpos.mpr h)]
      constructor <;> linarith
    · rw [min_eq_right h] at hq1
      rw [max_eq_left h] at hq2
      rw [abs_of_nonneg (sub_nonneg.mpr h)]
      constructor <;> linarith
  have hv : |q.y - (s.y / 2 + e.y / 2)| ≤ |s.y - e.y| / 2 := by
    rw [abs_le]
    rcases le_total s.y e.y with h | h
    · rw [min_eq_left h] at hq3
      rw [max_eq_right h] at hq4
      rw [abs_of_nonpos (sub_nonpos.mpr h)]
      constructor <;> linarith
    · rw [min_eq_right h] at hq3
      rw [max_eq_left h] at hq4
      rw [abs_of_nonneg (sub_nonneg.mpr h)]
      constructor <;> linarith
  rw [← hback]
  exact rotated_box_encloses { x := s.x / 2 + e.x / 2, y := s.y / 2 + e.y / 2 } q
    (|s.x - e.x| / 2) (|s.y - e.y| / 2) (d.angle.getD 0) _ _ _ _ hu hv hbox

/-- A point within distance 0 of a segment between two points of a non-empty
list lies within the extents `boundingFromPoints` computes for the list. -/
theorem boundingFromPoints_encloses (pts : List (Point ℝ)) (a b p : Point ℝ) (ha : a ∈ pts)
    (hb : b ∈ pts)
    (h : distanceToSegment (JSMath.mk Real.cos Real.sin Real.sqrt) p a b ≤ 0) :
    (boundingFromPoints (some pts) 0).minX ≤ p.x ∧ p.x ≤ (boundingFromPoints (some pts) 0).maxX ∧
    (boundingFromPoints (some pts) 0).minY ≤ p.y ∧ p.y ≤ (boundingFromPoints (some pts) 0).maxY := by
  cases pts with
  | nil => simp at ha
  | cons p0 rest =>
    exact within_box_of_between (p0 :: rest) _ _ _ _ (extentFold_isBoundingBox p0 rest) a b p ha hb
      (between_of_distanceToSegment_le_zero p a b h)

/-- C25, over the reals: the bounding box encloses the shape: for a rectangle
at any angle, and for a pencil path, line, segment, arrow or projection,
every point `p` that is hit with tolerance 0 satisfies `minX ≤ p.x ≤ maxX`
and `minY ≤ p.y ≤ maxY` for the extents of `getBoundingBox`. -/
theorem boundingBox_encloses (d : Drawing ℝ) (p : Point ℝ)
    (hty : d.type = DrawingType.rectangle ∨ d.type = DrawingType.pencil ∨
      d.type = DrawingType.line ∨ d.type = DrawingType.segment ∨
      d.type = DrawingType.arrow ∨ d.type = DrawingType.projection)
    (hhit : isPointOnDrawing (JSMath.mk Real.cos Real.sin Real.sqrt) p d 0 = true) :
    (getBoundingBox (JSMath.mk Real.cos Real.sin Real.sqrt) (some d)).minX ≤ p.x ∧
    p.x ≤ (getBoundingBox (JSMath.mk Real.cos Real.sin Real.sqrt) (some d)).maxX ∧
    (getBoundingBox (JSMath.mk Real.cos Real.sin Real.sqrt) (some d)).minY ≤ p.y ∧
    p.y ≤ (getBoundingBox (JSMath.mk Real.cos Real.sin Real.sqrt) (some d)).maxY := by
  have hline : d.type = DrawingType.line ∨ d.type = DrawingType.segment ∨
      d.type = DrawingType.arrow ∨ d.type = DrawingType.projection →
      pointNearLine (JSMath.mk Real.cos Real.sin Real.sqrt) p d.start d.«end» 0 = true →
      (getBoundingBox (JSMath.mk Real.cos Real.sin Real.sqrt) (some d)).minX ≤ p.x ∧
      p.x ≤ (getBoundingBox (JSMath.mk Real.cos Real.sin Real.sqrt) (some d)).maxX ∧
      (getBoundingBox (JSMath.mk Real.cos Real.sin Real.sqrt) (some d)).minY ≤ p.y ∧
      p.y ≤ (getBoundingBox (JSMath.mk Real.cos Real.sin Real.sqrt) (some d)).maxY := by
    intro h hnear
    cases hs : d.start with
    | none => simp [pointNearLine, hs] at hnear
    | some s =>
      cases he : d.«end» with
      | none => simp [pointNearLine, hs, he] at hnear
      | some e =>
        simp only [pointNearLine, hs, he, decide_eq_true_eq] at hnear
        have hbb : getBoundingBox (JSMath.mk Real.cos Real.sin Real.sqrt) (some d)
            = boundingFromPoints (some [s, e]) 0 := by
          rcases h with h | h | h | h <;> simp [getBoundingBox, h, hs, he]
        rw [hbb]
        exact boundingFromPoints_encloses [s, e] s e p (by simp) (by simp) hnear
  rcases hty with h | h | h | h | h | h
  · -- rectangle
    cases hs : d.start with
    | none => simp [isPointOnDrawing, h, pointInRect, hs] at hhit
    | some s =>
      cases he : d.«end» with
      | none => simp [isPointOnDrawing, h, pointInRect, hs, he] at hhit
      | some e => exact rectangle_within_box d s e p h hs he hhit
  · -- pencil
    cases hp : d.points with
    | none => simp [isPointOnDrawing, h, pointNearPolyline, hp] at hhit
    | some pts =>
      have hloop : polylineLoop (JSMath.mk Real.cos Real.sin Real.sqrt) p 0 pts = true := by
        simp only [isPointOnDrawing, h, pointNearPolyline, hp] at hhit
        by_cases hlen : pts.length < 2
        · simp [hlen] at hhit
        · simpa [hlen] using hhit
      obtain ⟨i, a, b, h1, h2, h3⟩ := (polylineLoop_iff _ p 0 pts).mp hloop
      have hbb : getBoundingBox (JSMath.mk Real.cos Real.sin Real.sqrt) (some d)
          = boundingFromPoints (some pts) 0 := by
        simp [getBoundingBox, h, hp]
      rw [hbb]
      exact boundingFromPoints_encloses pts a b p (List.getElem?_mem h1) (List.getElem?_mem h2) h3
  · exact hline (Or.inl h) (by simpa [isPointOnDrawing, h] using hhit)
  · exact hline (Or.inr (Or.inl h)) (by simpa [isPointOnDrawing, h] using hhit)
  · exact hline (Or.inr (Or.inr (Or.inl h))) (by simpa [isPointOnDrawing, h] using hhit)
  · exact hline (Or.inr (Or.inr (Or.inr h))) (by simpa [isPointOnDrawing, h] using hhit)

/-- C25 on the rectangle from `(0, 0)` to `(10, 2)`: its interior point
`(9, 1)` lies within the extents of the bounding box. -/
theorem boundingBox_encloses_witness :
    (getBoundingBox (JSMath.mk Real.cos Real.sin Real.sqrt)
        (some { type := .rectangle, start := some ⟨0, 0⟩, «end» := some ⟨10, 2⟩ })).minX
      ≤ (9 : ℝ) :=
  (boundingBox_encloses { type := .rectangle, start := some ⟨0, 0⟩, «end» := some ⟨10, 2⟩ }
    ⟨9, 1⟩ (Or.inl rfl) (by norm_num [isPointOnDrawing, pointInRect, orElse])).1

end EncloseProps

section RenderProps

/-- One call is a list of one call. -/
theorem Ctx.call_eq_emit {K : Type} (c : Ctx K) (op : CanvasOp K) : c.call op = c.emit [op] :=
  rfl

/-- Making two lists of calls in turn is making their concatenation. -/
theorem Ctx.emit_emit {K : Type} (c : Ctx K) (a b : List (CanvasOp K)) :
    (c.emit a).emit b = c.emit (a ++ b) := by
  simp [Ctx.emit]

/-- Making no call leaves the context as it is. -/
theorem Ctx.emit_nil {K : Type} (c : Ctx K) : c.emit [] = c := by
  simp [Ctx.emit]

/-- The loop of `drawPencil` appends one `lineTo` per point, in order. -/
theorem lineTo_loop {K : Type} (pts : List (Point K)) (c : Ctx K) :
    pts.foldl (fun c p => c.call (.lineTo p.x p.y)) c
      = c.emit (pts.map (fun p => CanvasOp.lineTo p.x p.y)) := by
  induction pts generalizing c with
  | nil => simp [Ctx.emit_nil]
  | cons p rest ih =>
    simp only [List.foldl_cons, List.map_cons]
    rw [ih]
    simp only [Ctx.call_eq_emit, Ctx.emit_emit]
    rfl

/-- The routine `strokeAndFill` only appends to the log, and what it appends
does not depend on the context. -/
theorem strokeAndFill_appends {K : Type} [LinearOrderedField K] (d : Drawing K)
    (theme : Theme) :
    ∃ ops : List (CanvasOp K), ∀ c : Ctx K, strokeAndFill c d theme = c.emit ops := by
  unfold strokeAndFill
  cases d.dash <;> cases hf : d.fill <;> simp only [Ctx.call_eq_emit, Ctx.emit_emit] <;>
    (try split) <;> exact ⟨_, fun c => rfl⟩

/-- The routine `drawPencil` only appends to the log, and what it appends
does not depend on the context. -/
theorem drawPencil_appends {K : Type} [LinearOrderedField K] (d : Drawing K)
    (theme : Theme) :
    ∃ ops : List (CanvasOp K), ∀ c : Ctx K, drawPencil c d theme = c.emit ops := by
  obtain ⟨ops, hops⟩ := strokeAndFill_appends d theme
  simp only [drawPencil]
  cases d.points.getD [] with
  | nil => exact ⟨[], fun c => by simp [Ctx.emit_nil]⟩
  | cons p0 rest =>
    by_cases hlen : (p0 :: rest).length < 2
    · simp only [if_pos hlen]
      exact ⟨[], fun c => (Ctx.emit_nil c).symm⟩
    · simp only [if_neg hlen, lineTo_loop]
      simp only [hops, Ctx.call_eq_emit, Ctx.emit_emit]
      exact ⟨_, fun c => rfl⟩

/-- The routine `drawLine` only appends to the log, and what it appends does not
depend on the context. -/
theorem drawLine_appends {K : Type} [LinearOrderedField K] (d : Drawing K)
    (theme : Theme) :
    ∃ ops : List (CanvasOp K), ∀ c : Ctx K, drawLine c d theme = c.emit ops := by
  obtain ⟨ops, hops⟩ := strokeAndFill_appends d theme
  simp only [drawLine]
  cases d.start <;> cases d.«end» <;> simp only [hops, Ctx.call_eq_emit, Ctx.emit_emit]
  all_goals first
    | exact ⟨[], fun c => (Ctx.emit_nil c).symm⟩
    | exact ⟨_, fun c => rfl⟩

/-- The routine `drawArrow` only appends to the log, and what it appends does not
depend on the context. -/
theorem drawArrow_appends {K : Type} [LinearOrderedField K] (M : JSMath K) (atan2 : K → K → K) (pi : K)
    (d : Drawing K)
    (theme : Theme) :
    ∃ ops : List (CanvasOp K), ∀ c : Ctx K, drawArrow M atan2 pi c d theme = c.emit ops := by
  obtain ⟨ops, hops⟩ := strokeAndFill_appends d theme
  simp only [drawArrow]
  cases d.start <;> cases d.«end» <;> cases d.fill <;> simp only [hops, Ctx.call_eq_emit, Ctx.emit_emit] <;>
    (try split) <;> (try simp only [hops, Ctx.call_eq_emit, Ctx.emit_emit])
  all_goals first
    | exact ⟨[], fun c => (Ctx.emit_nil c).symm⟩
    | exact ⟨_, fun c => rfl⟩

/-- The routine `drawRectangle` only appends to the log, and what it appends does not
depend on the context. -/
theorem drawRectangle_appends {K : Type} [LinearOrderedField K] (d : Drawing K)
    (theme : Theme) :
    ∃ ops : List (CanvasOp K), ∀ c : Ctx K, drawRectangle c d theme = c.emit ops := by
  obtain ⟨ops, hops⟩ := strokeAndFill_appends d theme
  simp only [drawRectangle]
  cases d.start <;> cases d.«end» <;> cases d.fill <;> cases d.angle <;>
    simp only [hops, Ctx.call_eq_emit, Ctx.emit_emit] <;> (try split) <;> (try split) <;> (try simp only [hops, Ctx.call_eq_emit, Ctx.emit_emit])
  all_goals first
    | exact ⟨[], fun c => (Ctx.emit_nil c).symm⟩
    | exact ⟨_, fun c => rfl⟩

/-- The routine `drawEllipse` only appends to the log, and what it appends does not
depend on the context. -/
theorem drawEllipse_appends {K : Type} [LinearOrderedField K] (pi : K) (d : Drawing K)
    (theme : Theme) :
    ∃ ops : List (CanvasOp K), ∀ c : Ctx K, drawEllipse pi c d theme = c.emit ops := by
  obtain ⟨ops, hops⟩ := strokeAndFill_appends d theme
  simp only [drawEllipse]
  cases d.start <;> cases d.«end» <;> cases d.fill <;> cases d.angle <;>
    simp only [hops, Ctx.call_eq_emit, Ctx.emit_emit] <;> (try split) <;> (try split) <;> (try simp only [hops, Ctx.call_eq_emit, Ctx.emit_emit])
  all_goals first
    | exact ⟨[], fun c => (Ctx.emit_nil c).symm⟩
    | exact ⟨_, fun c => rfl⟩

/-- The routine `drawText` only appends to the log, and what it appends does not
depend on the context. -/
theorem drawText_appends {K : Type} [LinearOrderedField K] (d : Drawing K)
    (theme : Theme) :
    ∃ ops : List (CanvasOp K), ∀ c : Ctx K, drawText c d theme = c.emit ops := by
  obtain ⟨ops, hops⟩ := strokeAndFill_appends d theme
  simp only [drawText]
  cases d.x <;> cases d.y <;> cases d.angle <;> simp only [hops, Ctx.call_eq_emit, Ctx.emit_emit] <;> (try split) <;> (try simp only [hops, Ctx.call_eq_emit, Ctx.emit_emit])
  all_goals first
    | exact ⟨[], fun c => (Ctx.emit_nil c).symm⟩
    | exact ⟨_, fun c => rfl⟩

/-- The routine `drawIcon` only appends to the log, and what it appends does not
depend on the context. -/
theorem drawIcon_appends {K : Type} [LinearOrderedField K] (fmt : K → String) (d : Drawing K)
    (theme : Theme) :
    ∃ ops : List (CanvasOp K), ∀ c : Ctx K, drawIcon fmt c d theme = c.emit ops := by
  obtain ⟨ops, hops⟩ := strokeAndFill_appends d theme
  simp only [drawIcon]
  cases d.x <;> cases d.y <;> cases d.angle <;> simp only [hops, Ctx.call_eq_emit, Ctx.emit_emit] <;> (try split) <;> (try simp only [hops, Ctx.call_eq_emit, Ctx.emit_emit])
  all_goals first
    | exact ⟨[], fun c => (Ctx.emit_nil c).symm⟩
    | exact ⟨_, fun c => rfl⟩

/-- The routine `drawProjection` only appends to the log, and what it appends does not
depend on the context. -/
theorem drawProjection_appends {K : Type} [LinearOrderedField K] (d : Drawing K)
    (theme : Theme) :
    ∃ ops : List (CanvasOp K), ∀ c : Ctx K, drawProjection c d theme = c.emit ops := by
  obtain ⟨ops, hops⟩ := strokeAndFill_appends d theme
  simp only [drawProjection]
  cases d.start <;> cases d.«end» <;> cases d.label <;> simp only [hops, Ctx.call_eq_emit, Ctx.emit_emit] <;> (try split) <;> (try simp only [hops, Ctx.call_eq_emit, Ctx.emit_emit])
  all_goals first
    | exact ⟨[], fun c => (Ctx.emit_nil c).symm⟩
    | exact ⟨_, fun c => rfl⟩

/-- The callback of `render` only appends to the log, and what it appends
does not depend on the context. -/
theorem renderItem_appends {K : Type} [LinearOrderedField K] (M : JSMath K)
    (atan2 : K → K → K) (pi : K) (fmt : K → String) (theme : Theme) (d : Drawing K) :
    ∃ ops : List (CanvasOp K), ∀ c : Ctx K,
      DrawingManager.renderItem M atan2 pi fmt theme c d = c.emit ops := by
  unfold DrawingManager.renderItem
  cases d.type
  case pencil => exact drawPencil_appends d theme
  case line => exact drawLine_appends d theme
  case segment => exact drawLine_appends d theme
  case arrow => exact drawArrow_appends M atan2 pi d theme
  case rectangle => exact drawRectangle_appends d theme
  case ellipse => exact drawEllipse_appends pi d theme
  case text => exact drawText_appends d theme
  case icon => exact drawIcon_appends fmt d theme
  case projection => exact drawProjection_appends d theme
  case unknown => exact ⟨[], fun c => (Ctx.emit_nil c).symm⟩

/-- What the callback of `render` appends is its log when started on an empty
log. -/
theorem renderItem_eq_emit_fresh {K : Type} [LinearOrderedField K] (M : JSMath K)
    (atan2 : K → K → K) (pi : K) (fmt : K → String) (theme : Theme) (c c0 : Ctx K)
    (d : Drawing K) :
    DrawingManager.renderItem M atan2 pi fmt theme c d
      = c.emit (DrawingManager.renderItem M atan2 pi fmt theme c0.fresh d).calls := by
  obtain ⟨ops, h⟩ := renderItem_appends M atan2 pi fmt theme d
  rw [h c, h c0.fresh]
  simp [Ctx.emit, Ctx.fresh]

/-- The `forEach` loop of `render` appends the calls of each item in list
order. -/
theorem render_loop {K : Type} [LinearOrderedField K] (M : JSMath K)
    (atan2 : K → K → K) (pi : K) (fmt : K → String) (theme : Theme) (c0 : Ctx K)
    (items : List (Drawing K)) (c : Ctx K) :
    items.foldl (DrawingManager.renderItem M atan2 pi fmt theme) c
      = c.emit (items.flatMap
          (fun d => (DrawingManager.renderItem M atan2 pi fmt theme c0.fresh d).calls)) := by
  induction items generalizing c with
  | nil => simp [Ctx.emit_nil]
  | cons d rest ih =>
    rw [List.foldl_cons, ih, renderItem_eq_emit_fresh M atan2 pi fmt theme c c0 d,
      Ctx.emit_emit]
    simp

/-- An incomplete shape makes the callback of `render` return the context as
it is. -/
theorem renderItem_incomplete {K : Type} [LinearOrderedField K] (M : JSMath K)
    (atan2 : K → K → K) (pi : K) (fmt : K → String) (theme : Theme) (c : Ctx K)
    (d : Drawing K) (h : isIncomplete d = true) :
    DrawingManager.renderItem M atan2 pi fmt theme c d = c := by
  unfold isIncomplete at h
  unfold DrawingManager.renderItem
  cases hty : d.type <;> simp only [hty] at h ⊢
  case pencil =>
    unfold drawPencil
    cases hp : d.points with
    | none => simp
    | some pts =>
      simp only [hp, decide_eq_true_eq] at h
      simp [h]
  case text =>
    unfold drawText
    cases hx : d.x <;> cases hy : d.y <;> simp_all
  case icon =>
    unfold drawIcon
    cases hx : d.x <;> cases hy : d.y <;> simp_all
  all_goals
    first
    | rfl
    | (simp only [drawLine, drawArrow, drawRectangle, drawEllipse, drawProjection]
       cases hs : d.start <;> cases he : d.«end» <;> simp_all)

/-- The routine `strokeAndFill` makes exactly the calls of `styleCalls`. -/
theorem strokeAndFill_calls {K : Type} [LinearOrderedField K] (c : Ctx K) (d : Drawing K)
    (theme : Theme) : strokeAndFill c d theme = c.emit (styleCalls d theme) := by
  unfold strokeAndFill styleCalls
  cases d.dash <;> cases d.fill <;> simp only [Ctx.call_eq_emit, Ctx.emit_emit] <;>
    (try split) <;> simp [Ctx.emit_emit]

/-- The calls of `drawPencil` on a path of at least two points. -/
theorem drawPencil_calls {K : Type} [LinearOrderedField K] (c : Ctx K) (d : Drawing K)
    (theme : Theme) (p0 p1 : Point K) (rest : List (Point K))
    (hp : d.points = some (p0 :: p1 :: rest)) :
    drawPencil c d theme
      = c.emit ([.save] ++ styleCalls d theme ++ [.beginPath, .moveTo p0.x p0.y]
          ++ (p1 :: rest).map (fun p => CanvasOp.lineTo p.x p.y) ++ [.stroke, .restore]) := by
  have hlen : ¬ (p0 :: p1 :: rest).length < 2 := by simp
  simp only [drawPencil, hp, Option.getD_some, if_neg hlen, lineTo_loop, strokeAndFill_calls]
  simp only [Ctx.call_eq_emit, Ctx.emit_emit, List.append_assoc]
  rfl

/-- The calls of `drawLine` on a line with both endpoints. -/
theorem drawLine_calls {K : Type} [LinearOrderedField K] (c : Ctx K) (d : Drawing K)
    (theme : Theme) (s e : Point K) (hs : d.start = some s) (he : d.«end» = some e) :
    drawLine c d theme
      = c.emit ([.save] ++ styleCalls d theme
          ++ [.beginPath, .moveTo s.x s.y, .lineTo e.x e.y, .stroke, .restore]) := by
  simp only [drawLine, hs, he, strokeAndFill_calls, Ctx.call_eq_emit, Ctx.emit_emit,
    List.append_assoc, List.cons_append, List.nil_append]

/-- The calls of `drawArrow` on an arrow with both endpoints. -/
theorem drawArrow_calls {K : Type} [LinearOrderedField K] (M : JSMath K) (atan2 : K → K → K)
    (pi : K) (c : Ctx K) (d : Drawing K) (theme : Theme) (s e : Point K)
    (hs : d.start = some s) (he : d.«end» = some e) :
    drawArrow M atan2 pi c d theme
      = c.emit ([.save] ++ styleCalls d theme
          ++ [.beginPath, .moveTo s.x s.y, .lineTo e.x e.y, .stroke, .beginPath,
              .moveTo e.x e.y,
              .lineTo (e.x - orElse d.headLength 10 * M.cos (atan2 (e.y - s.y) (e.x - s.x) - pi / 8))
                (e.y - orElse d.headLength 10 * M.sin (atan2 (e.y - s.y) (e.x - s.x) - pi / 8)),
              .lineTo (e.x - orElse d.headWidth 4 * M.cos (atan2 (e.y - s.y) (e.x - s.x)))
                (e.y - orElse d.headWidth 4 * M.sin (atan2 (e.y - s.y) (e.x - s.x))),
              .lineTo (e.x - orElse d.headLength 10 * M.cos (atan2 (e.y - s.y) (e.x - s.x) + pi / 8))
                (e.y - orElse d.headLength 10 * M.sin (atan2 (e.y - s.y) (e.x - s.x) + pi / 8)),
              .closePath]
          ++ fillCalls d [.fill] ++ [.stroke, .restore]) := by
  simp only [drawArrow, hs, he, strokeAndFill_calls, fillCalls]
  cases d.fill <;> simp only [Ctx.call_eq_emit, Ctx.emit_emit] <;> (try split) <;>
    simp [Ctx.emit_emit]

/-- The calls of `drawRectangle` on a rectangle with both corners. -/
theorem drawRectangle_calls {K : Type} [LinearOrderedField K] (c : Ctx K) (d : Drawing K)
    (theme : Theme) (s e : Point K) (hs : d.start = some s) (he : d.«end» = some e) :
    drawRectangle c d theme
      = c.emit ([.save] ++ styleCalls d theme
          ++ [.translate ((s.x + e.x) / 2) ((s.y + e.y) / 2)] ++ rotateCalls d
          ++ fillCalls d [.fillRect (-|s.x - e.x| / 2) (-|s.y - e.y| / 2) |s.x - e.x| |s.y - e.y|]
          ++ [.strokeRect (-|s.x - e.x| / 2) (-|s.y - e.y| / 2) |s.x - e.x| |s.y - e.y|,
              .restore]) := by
  simp only [drawRectangle, hs, he, strokeAndFill_calls, fillCalls, rotateCalls]
  cases d.fill <;> cases d.angle <;> simp only [Ctx.call_eq_emit, Ctx.emit_emit] <;>
    (try split) <;> (try split) <;> simp [Ctx.emit_emit]

/-- The calls of `drawEllipse` on an ellipse with both corners. -/
theorem drawEllipse_calls {K : Type} [LinearOrderedField K] (pi : K) (c : Ctx K) (d : Drawing K)
    (theme : Theme) (s e : Point K) (hs : d.start = some s) (he : d.«end» = some e) :
    drawEllipse pi c d theme
      = c.emit ([.save] ++ styleCalls d theme
          ++ [.translate ((s.x + e.x) / 2) ((s.y + e.y) / 2)] ++ rotateCalls d
          ++ [.beginPath, .ellipse 0 0 (|s.x - e.x| / 2) (|s.y - e.y| / 2) 0 0 (pi * 2)]
          ++ fillCalls d [.fill] ++ [.stroke, .restore]) := by
  simp only [drawEllipse, hs, he, strokeAndFill_calls, fillCalls, rotateCalls]
  cases d.fill <;> cases d.angle <;> simp only [Ctx.call_eq_emit, Ctx.emit_emit] <;>
    (try split) <;> (try split) <;> simp [Ctx.emit_emit]

/-- The calls of `drawText` on a text with an anchor. -/
theorem drawText_calls {K : Type} [LinearOrderedField K] (c : Ctx K) (d : Drawing K)
    (theme : Theme) (x y : K) (hx : d.x = some x) (hy : d.y = some y) :
    drawText c d theme
      = c.emit ([.save, .translate x y] ++ rotateCalls d
          ++ [.fillStyle (strOr d.color theme.tools.text),
              .font (strOr d.font "12px/1 sans-serif"),
              .textBaseline (strOr d.textBaseline "top"),
              .fillText (strOr d.text "Note") 0 0, .restore]) := by
  simp only [drawText, hx, hy, rotateCalls]
  cases d.angle <;> simp only [Ctx.call_eq_emit, Ctx.emit_emit] <;> (try split) <;>
    simp [Ctx.emit_emit]

/-- The calls of `drawIcon` on an icon with an anchor. -/
theorem drawIcon_calls {K : Type} [LinearOrderedField K] (fmt : K → String) (c : Ctx K)
    (d : Drawing K) (theme : Theme) (x y : K) (hx : d.x = some x) (hy : d.y = some y) :
    drawIcon fmt c d theme
      = c.emit ([.save, .translate x y] ++ rotateCalls d
          ++ [.fillStyle (strOr d.color theme.tools.text),
              .font (fmt (orElse d.size 16) ++ "px/1 sans-serif"),
              .textBaseline "middle", .textAlign "center",
              .fillText (strOr d.icon "😀") 0 0, .restore]) := by
  simp only [drawIcon, hx, hy, rotateCalls]
  cases d.angle <;> simp only [Ctx.call_eq_emit, Ctx.emit_emit] <;> (try split) <;>
    simp [Ctx.emit_emit]

/-- The calls of `drawProjection` on a projection with both endpoints. -/
theorem drawProjection_calls {K : Type} [LinearOrderedField K] (c : Ctx K) (d : Drawing K)
    (theme : Theme) (s e : Point K) (hs : d.start = some s) (he : d.«end» = some e) :
    drawProjection c d theme
      = c.emit ([.save, .globalAlpha (d.opacity.getD 1),
              .strokeStyle (strOr (strOrOpt d.color theme.projection) theme.tools.stroke),
              .lineWidth (orElse d.width 2), .setLineDash (d.dash.getD [8, 6]), .beginPath,
              .moveTo s.x s.y, .lineTo e.x e.y, .stroke, .setLineDash []]
          ++ labelCalls d theme e ++ [.restore]) := by
  simp only [drawProjection, hs, he, labelCalls]
  cases d.label <;> simp only [Ctx.call_eq_emit, Ctx.emit_emit] <;> (try split) <;>
    simp [Ctx.emit_emit]

/-- C28: for every drawing list and optional draft, `render(draft)` first
clears the surface (`save`, identity transform, `clearRect` of the whole
canvas, `restore`) and then makes the calls of the shapes in the order
`L[0], L[1], ..., L[n-1]`, followed by those of the draft when one is given.
The calls of one shape are those of the draw routine of its variant, listed
here in full for a shape with complete geometry: each starts with `save`
and ends with `restore`.  An incomplete shape or an unknown type tag makes
no call, and the manager, hence its drawing list, is as before. -/
theorem render_paints_in_list_order {K : Type} [LinearOrderedField K] (M : JSMath K)
    (atan2 : K → K → K) (pi : K) (fmt : K → String) (self : DrawingManager K) (ctx : Ctx K)
    (theme : Theme) (draft : Option (Drawing K)) :
    (DrawingManager.render M atan2 pi fmt self ctx theme draft).1.calls
      = ctx.calls
        ++ [.save, .setTransform 1 0 0 1 0 0,
            .clearRect 0 0 ctx.canvasWidth ctx.canvasHeight, .restore]
        ++ (self.drawings ++ draft.toList).flatMap
            (fun d => (DrawingManager.renderItem M atan2 pi fmt theme ctx.fresh d).calls) ∧
    (∀ (d : Drawing K) (c : Ctx K),
      (∀ p0 p1 rest, d.type = DrawingType.pencil → d.points = some (p0 :: p1 :: rest) →
        DrawingManager.renderItem M atan2 pi fmt theme c d
          = c.emit ([.save] ++ styleCalls d theme ++ [.beginPath, .moveTo p0.x p0.y]
              ++ (p1 :: rest).map (fun p => CanvasOp.lineTo p.x p.y) ++ [.stroke, .restore])) ∧
      (∀ s e, d.start = some s → d.«end» = some e →
        (d.type = DrawingType.line ∨ d.type = DrawingType.segment →
          DrawingManager.renderItem M atan2 pi fmt theme c d
            = c.emit ([.save] ++ styleCalls d theme
                ++ [.beginPath, .moveTo s.x s.y, .lineTo e.x e.y, .stroke, .restore])) ∧
        (d.type = DrawingType.arrow →
          DrawingManager.renderItem M atan2 pi fmt theme c d
            = c.emit ([.save] ++ styleCalls d theme
                ++ [.beginPath, .moveTo s.x s.y, .lineTo e.x e.y, .stroke, .beginPath,
                    .moveTo e.x e.y,
                    .lineTo
                      (e.x - orElse d.headLength 10
                        * M.cos (atan2 (e.y - s.y) (e.x - s.x) - pi / 8))
                      (e.y - orElse d.headLength 10
                        * M.sin (atan2 (e.y - s.y) (e.x - s.x) - pi / 8)),
                    .lineTo (e.x - orElse d.headWidth 4 * M.cos (atan2 (e.y - s.y) (e.x - s.x)))
                      (e.y - orElse d.headWidth 4 * M.sin (atan2 (e.y - s.y) (e.x - s.x))),
                    .lineTo
                      (e.x - orElse d.headLength 10
                        * M.cos (atan2 (e.y - s.y) (e.x - s.x) + pi / 8))
                      (e.y - orElse d.headLength 10
                        * M.sin (atan2 (e.y - s.y) (e.x - s.x) + pi / 8)),
                    .closePath]
                ++ fillCalls d [.fill] ++ [.stroke, .restore])) ∧
        (d.type = DrawingType.rectangle →
          DrawingManager.renderItem M atan2 pi fmt theme c d
            = c.emit ([.save] ++ styleCalls d theme
                ++ [.translate ((s.x + e.x) / 2) ((s.y + e.y) / 2)] ++ rotateCalls d
                ++ fillCalls d
                    [.fillRect (-|s.x - e.x| / 2) (-|s.y - e.y| / 2) |s.x - e.x| |s.y - e.y|]
                ++ [.strokeRect (-|s.x - e.x| / 2) (-|s.y - e.y| / 2) |s.x - e.x| |s.y - e.y|,
                    .restore])) ∧
        (d.type = DrawingType.ellipse →
          DrawingManager.renderItem M atan2 pi fmt theme c d
            = c.emit ([.save] ++ styleCalls d theme
                ++ [.translate ((s.x + e.x) / 2) ((s.y + e.y) / 2)] ++ rotateCalls d
                ++ [.beginPath,
                    .ellipse 0 0 (|s.x - e.x| / 2) (|s.y - e.y| / 2) 0 0 (pi * 2)]
                ++ fillCalls d [.fill] ++ [.stroke, .restore])) ∧
        (d.type = DrawingType.projection →
          DrawingManager.renderItem M atan2 pi fmt theme c d
            = c.emit ([.save, .globalAlpha (d.opacity.getD 1),
                    .strokeStyle (strOr (strOrOpt d.color theme.projection) theme.tools.stroke),
                    .lineWidth (orElse d.width 2), .setLineDash (d.dash.getD [8, 6]),
                    .beginPath, .moveTo s.x s.y, .lineTo e.x e.y, .stroke, .setLineDash []]
                ++ labelCalls d theme e ++ [.restore]))) ∧
      (∀ x y, d.x = some x → d.y = some y →
        (d.type = DrawingType.text →
          DrawingManager.renderItem M atan2 pi fmt theme c d
            = c.emit ([.save, .translate x y] ++ rotateCalls d
                ++ [.fillStyle (strOr d.color theme.tools.text),
                    .font (strOr d.font "12px/1 sans-serif"),
                    .textBaseline (strOr d.textBaseline "top"),
                    .fillText (strOr d.text "Note") 0 0, .restore])) ∧
        (d.type = DrawingType.icon →
          DrawingManager.renderItem M atan2 pi fmt theme c d
            = c.emit ([.save, .translate x y] ++ rotateCalls d
                ++ [.fillStyle (strOr d.color theme.tools.text),
                    .font (fmt (orElse d.size 16) ++ "px/1 sans-serif"),
                    .textBaseline "middle", .textAlign "center",
                    .fillText (strOr d.icon "😀") 0 0, .restore]))) ∧
      (isIncomplete d = true → DrawingManager.renderItem M atan2 pi fmt theme c d = c)) ∧
    (DrawingManager.render M atan2 pi fmt self ctx theme draft).2 = self ∧
    (DrawingManager.render M atan2 pi fmt self ctx theme draft).2.drawings = self.drawings := by
  refine ⟨?_, fun d c => ⟨?_, ?_, ?_, ?_⟩, rfl, rfl⟩
  · have hitems : (match draft with
        | some d => self.drawings ++ [d]
        | none => self.drawings) = self.drawings ++ draft.toList := by
      cases draft <;> simp
    simp only [DrawingManager.render, hitems, render_loop M atan2 pi fmt theme ctx]
    simp [safeClear, Ctx.call, Ctx.emit]
  · intro p0 p1 rest hty hp
    simp only [DrawingManager.renderItem, hty]
    exact drawPencil_calls c d theme p0 p1 rest hp
  · intro s e hs he
    refine ⟨?_, ?_, ?_, ?_, ?_⟩
    · rintro (hty | hty) <;> simp only [DrawingManager.renderItem, hty] <;>
        exact drawLine_calls c d theme s e hs he
    · intro hty
      simp only [DrawingManager.renderItem, hty]
      exact drawArrow_calls M atan2 pi c d theme s e hs he
    · intro hty
      simp only [DrawingManager.renderItem, hty]
      exact drawRectangle_calls c d theme s e hs he
    · intro hty
      simp only [DrawingManager.renderItem, hty]
      exact drawEllipse_calls pi c d theme s e hs he
    · intro hty
      simp only [DrawingManager.renderItem, hty]
      exact drawProjection_calls c d theme s e hs he
  · intro x y hx hy
    refine ⟨?_, ?_⟩
    · intro hty
      simp only [DrawingManager.renderItem, hty]
      exact drawText_calls c d theme x y hx hy
    · intro hty
      simp only [DrawingManager.renderItem, hty]
      exact drawIcon_calls fmt c d theme x y hx hy
  · exact renderItem_incomplete M atan2 pi fmt theme c d

/-- An instance of `render` over the rationals: a list of a line and a
rectangle without `end`, and a text draft.  The log holds the clear, then
the line, nothing for the rectangle, and the draft last. -/
theorem render_example :
    (DrawingManager.render (JSMath.mk (fun _ => 0) (fun _ => 0) (fun _ => 0)) (fun _ _ => 0) 3
        (fun _ => "")
        ({ drawings := [{ type := .line, start := some ⟨0, 0⟩, «end» := some ⟨1, 1⟩ },
            { type := .rectangle, start := some ⟨5, 5⟩ }] } : DrawingManager ℚ)
        { canvasWidth := 300, canvasHeight := 150, calls := [] }
        { tools := { stroke := "black", text := "grey" } }
        (some { type := .text, x := some 2, y := some 3 })).1.calls
      = [.save, .setTransform 1 0 0 1 0 0, .clearRect 0 0 300 150, .restore,
         .save, .globalAlpha 1, .strokeStyle "black", .lineWidth 2, .beginPath, .moveTo 0 0,
         .lineTo 1 1, .stroke, .restore,
         .save, .translate 2 3, .fillStyle "grey", .font "12px/1 sans-serif",
         .textBaseline "top", .fillText "Note" 0 0, .restore] := by
  simp [DrawingManager.render, DrawingManager.renderItem, safeClear, drawLine, drawRectangle,
    drawText, strokeAndFill, Ctx.call, strOr, orElse]

end RenderProps

section ResizeCallerProps

/-- The function `rotatePoint` of the chart is `rotatePointAround`. -/
theorem rotatePoint_eq {K : Type} [LinearOrderedField K] (M : JSMath K) (p c : Point K) (θ : K) :
    rotatePoint M p c θ = rotatePointAround M p c θ := rfl

/-- Scaling a point in the frame of angle `0` over the reals. -/
theorem scalePoint_zero (p A : Point ℝ) (sx sy : ℝ) :
    scalePoint (JSMath.mk Real.cos Real.sin Real.sqrt) p A 0 sx sy
      = { x := A.x + (p.x - A.x) * sx, y := A.y + (p.y - A.y) * sy } := by
  simp [scalePoint, rotatePointAround]

/-- A handle found by `_hitHandle` sits on one corner of the box, has the
opposite corner as anchor, and is within the tolerance of the pointer. -/
theorem hitHandle_cases {K : Type} [LinearOrderedField K] (M : JSMath K) (box : BoundingBox K)
    (c0 c1 c2 c3 : Point K) (pos : Point K) (tol : K) (h : Handle K)
    (hc : box.corners = [c0, c1, c2, c3]) (hh : _hitHandle M (some box) pos tol = some h) :
    ((h.point = c0 ∧ h.anchor = c2) ∨ (h.point = c1 ∧ h.anchor = c3) ∨
      (h.point = c2 ∧ h.anchor = c0) ∨ (h.point = c3 ∧ h.anchor = c1)) ∧
    M.hypot (pos.x - h.point.x) (pos.y - h.point.y) ≤ tol := by
  simp only [_hitHandle, hc] at hh
  have hmem := List.mem_of_find?_eq_some hh
  have hp := List.find?_some hh
  simp only [decide_eq_true_eq] at hp
  refine ⟨?_, hp⟩
  simp only [List.mem_cons, List.mem_singleton, List.not_mem_nil, or_false] at hmem
  rcases hmem with rfl | rfl | rfl | rfl <;> simp

/-- What `tryResize` stores for a rectangle or ellipse without rotation: the
angle `0`, the width and height of the shape, each raised to at least `1`,
and the drawing itself. -/
theorem tryResize_unrotated (d : Drawing ℝ) (s e pos0 : Point ℝ) (tol : ℝ) (i : Int)
    (st : PointerState ℝ)
    (hty : d.type = DrawingType.rectangle ∨ d.type = DrawingType.ellipse)
    (hs : d.start = some s) (he : d.«end» = some e) (hangle : d.angle.getD 0 = 0)
    (hgrab : tryResize (JSMath.mk Real.cos Real.sin Real.sqrt) pos0 tol (some i) (some d)
      = some st) :
    st.targetIndex = i ∧ st.angle = 0 ∧ st.startWidth = max 1 |s.x - e.x| ∧
    st.startHeight = max 1 |s.y - e.y| ∧ st.baseDrawing = d := by
  have hc : (getBoundingBox (JSMath.mk Real.cos Real.sin Real.sqrt) (some d)).corners
      = [{ x := s.x / 2 + e.x / 2 - |s.x - e.x| / 2, y := s.y / 2 + e.y / 2 - |s.y - e.y| / 2 },
         { x := s.x / 2 + e.x / 2 + |s.x - e.x| / 2, y := s.y / 2 + e.y / 2 - |s.y - e.y| / 2 },
         { x := s.x / 2 + e.x / 2 + |s.x - e.x| / 2, y := s.y / 2 + e.y / 2 + |s.y - e.y| / 2 },
         { x := s.x / 2 + e.x / 2 - |s.x - e.x| / 2, y := s.y / 2 + e.y / 2 + |s.y - e.y| / 2 }] := by
    rw [getBoundingBox_frame d s e hty hs he, hangle]
    simp [rotatePointAround_zero]
  have ha : (getBoundingBox (JSMath.mk Real.cos Real.sin Real.sqrt) (some d)).angle = 0 := by
    rw [getBoundingBox_frame d s e hty hs he, hangle]
  have hz : orElse (some (0 : ℝ)) 0 = 0 := by simp [orElse]
  have hw1 : ∀ c w : ℝ, |c - |w| / 2 - (c + |w| / 2)| = |w| := fun c w => by
    rw [show c - |w| / 2 - (c + |w| / 2) = -|w| by ring, abs_neg, abs_abs]
  have hw2 : ∀ c w : ℝ, |c + |w| / 2 - (c - |w| / 2)| = |w| := fun c w => by
    rw [show c + |w| / 2 - (c - |w| / 2) = |w| by ring, abs_abs]
  simp only [tryResize] at hgrab
  cases hh : _hitHandle (JSMath.mk Real.cos Real.sin Real.sqrt)
      (some (getBoundingBox (JSMath.mk Real.cos Real.sin Real.sqrt) (some d))) pos0 tol with
  | none => simp [hh] at hgrab
  | some h =>
    have hcases := (hitHandle_cases _ _ _ _ _ _ pos0 tol h hc hh).1
    simp only [hh, ha, hz, neg_zero, rotatePoint_eq, rotatePointAround_zero,
      Option.some.injEq] at hgrab
    subst hgrab
    rcases hcases with ⟨hp, hq⟩ | ⟨hp, hq⟩ | ⟨hp, hq⟩ | ⟨hp, hq⟩ <;>
      simp only [hp, hq, hw1, hw2, and_self]

/-- The width and height of a rectangle or ellipse after `scaleDrawing` in
the frame of angle `0` with factors that are not negative. -/
theorem scaled_frame_size (fmt : ℝ → String) (d : Drawing ℝ) (s e A : Point ℝ) (sx sy : ℝ)
    (hty : d.type = DrawingType.rectangle ∨ d.type = DrawingType.ellipse)
    (hs : d.start = some s) (he : d.«end» = some e) (hsx : 0 ≤ sx) (hsy : 0 ≤ sy) :
    (getBoundingBox (JSMath.mk Real.cos Real.sin Real.sqrt)
      (some (scaleDrawing (JSMath.mk Real.cos Real.sin Real.sqrt) fmt d A 0 sx sy))).width
      = sx * |s.x - e.x| ∧
    (getBoundingBox (JSMath.mk Real.cos Real.sin Real.sqrt)
      (some (scaleDrawing (JSMath.mk Real.cos Real.sin Real.sqrt) fmt d A 0 sx sy))).height
      = sy * |s.y - e.y| := by
  have hnext : scaleDrawing (JSMath.mk Real.cos Real.sin Real.sqrt) fmt d A 0 sx sy
      = { d with
          start := some { x := A.x + (s.x - A.x) * sx, y := A.y + (s.y - A.y) * sy }
          «end» := some { x := A.x + (e.x - A.x) * sx, y := A.y + (e.y - A.y) * sy } } := by
    rcases hty with h | h <;> simp [scaleDrawing, h, hs, he, scalePoint_zero]
  have key : ∀ n : Drawing ℝ, n.type = d.type →
      n.start = some { x := A.x + (s.x - A.x) * sx, y := A.y + (s.y - A.y) * sy } →
      n.«end» = some { x := A.x + (e.x - A.x) * sx, y := A.y + (e.y - A.y) * sy } →
      (getBoundingBox (JSMath.mk Real.cos Real.sin Real.sqrt) (some n)).width = sx * |s.x - e.x| ∧
      (getBoundingBox (JSMath.mk Real.cos Real.sin Real.sqrt) (some n)).height
        = sy * |s.y - e.y| := by
    intro n hnt hns hne
    rw [getBoundingBox_frame n _ _ (hnt ▸ hty) hns hne]
    constructor
    · show |A.x + (s.x - A.x) * sx - (A.x + (e.x - A.x) * sx)| = sx * |s.x - e.x|
      rw [show A.x + (s.x - A.x) * sx - (A.x + (e.x - A.x) * sx) = sx * (s.x - e.x) by ring,
        abs_mul, abs_of_nonneg hsx]
    · show |A.y + (s.y - A.y) * sy - (A.y + (e.y - A.y) * sy)| = sy * |s.y - e.y|
      rw [show A.y + (s.y - A.y) * sy - (A.y + (e.y - A.y) * sy) = sy * (s.y - e.y) by ring,
        abs_mul, abs_of_nonneg hsy]
  rw [hnext]
  exact key _ rfl rfl rfl

/-- One pointer-move step of a resize in the frame of angle `0`: the drawing
at the target index becomes the snapshot scaled about the anchor by
`max(8, |v.x|) / startWidth` and `max(8, |v.y|) / startHeight`, with `v` the
pointer relative to the anchor. -/
theorem handlePointerMoveResize_unrotated (fmt : ℝ → String) (self : DrawingManager ℝ) (i : Nat)
    (d : Drawing ℝ) (st : PointerState ℝ) (pos : Point ℝ)
    (hi : self.drawings[i]? = some d) (hidx : st.targetIndex = i) (hangle : st.angle = 0)
    (hw : 1 ≤ st.startWidth) (hh : 1 ≤ st.startHeight) :
    handlePointerMoveResize (JSMath.mk Real.cos Real.sin Real.sqrt) fmt self st pos
      = some { drawings := (self.drawings.set i
          (scaleDrawing (JSMath.mk Real.cos Real.sin Real.sqrt) fmt st.baseDrawing st.anchor 0
            (max 8 |pos.x - st.anchor.x| / st.startWidth)
            (max 8 |pos.y - st.anchor.y| / st.startHeight))) } := by
  have hlt : i < self.drawings.length := by
    by_contra hn
    rw [List.getElem?_eq_none (not_lt.mp hn)] at hi
    exact absurd hi (by simp)
  have hz : orElse (some (0 : ℝ)) 0 = 0 := by simp [orElse]
  have hsw : orElse (some st.startWidth) 1 = st.startWidth := by
    have : st.startWidth ≠ 0 := by linarith
    simp [orElse, this]
  have hsh : orElse (some st.startHeight) 1 = st.startHeight := by
    have : st.startHeight ≠ 0 := by linarith
    simp [orElse, this]
  simp only [handlePointerMoveResize, hidx, hangle, hz, hsw, hsh, neg_zero, rotatePoint_eq,
    rotatePointAround_zero, DrawingManager.resizeTo, arrayGet, arraySet]
  simp [hi, hlt]

/-- A pointer within the tolerance of the first corner of a rectangle or
ellipse without rotation grabs the handle `tl`, whose anchor is the opposite
corner. -/
theorem tryResize_tl (d : Drawing ℝ) (s e pos0 : Point ℝ) (tol : ℝ) (i : Int)
    (hty : d.type = DrawingType.rectangle ∨ d.type = DrawingType.ellipse)
    (hs : d.start = some s) (he : d.«end» = some e) (hangle : d.angle.getD 0 = 0)
    (hnear : JSMath.hypot (JSMath.mk Real.cos Real.sin Real.sqrt)
      (pos0.x - (s.x / 2 + e.x / 2 - |s.x - e.x| / 2))
      (pos0.y - (s.y / 2 + e.y / 2 - |s.y - e.y| / 2)) ≤ tol) :
    tryResize (JSMath.mk Real.cos Real.sin Real.sqrt) pos0 tol (some i) (some d)
      = some { targetIndex := i, handle := "tl"
               anchor := { x := s.x / 2 + e.x / 2 + |s.x - e.x| / 2,
                           y := s.y / 2 + e.y / 2 + |s.y - e.y| / 2 }
               angle := 0, startWidth := max 1 |s.x - e.x|, startHeight := max 1 |s.y - e.y|
               baseDrawing := d } := by
  have hc : (getBoundingBox (JSMath.mk Real.cos Real.sin Real.sqrt) (some d)).corners
      = [{ x := s.x / 2 + e.x / 2 - |s.x - e.x| / 2, y := s.y / 2 + e.y / 2 - |s.y - e.y| / 2 },
         { x := s.x / 2 + e.x / 2 + |s.x - e.x| / 2, y := s.y / 2 + e.y / 2 - |s.y - e.y| / 2 },
         { x := s.x / 2 + e.x / 2 + |s.x - e.x| / 2, y := s.y / 2 + e.y / 2 + |s.y - e.y| / 2 },
         { x := s.x / 2 + e.x / 2 - |s.x - e.x| / 2, y := s.y / 2 + e.y / 2 + |s.y - e.y| / 2 }] := by
    rw [getBoundingBox_frame d s e hty hs he, hangle]
    simp [rotatePointAround_zero]
  have ha : (getBoundingBox (JSMath.mk Real.cos Real.sin Real.sqrt) (some d)).angle = 0 := by
    rw [getBoundingBox_frame d s e hty hs he, hangle]
  have hz : orElse (some (0 : ℝ)) 0 = 0 := by simp [orElse]
  have hw1 : ∀ c w : ℝ, |c - |w| / 2 - (c + |w| / 2)| = |w| := fun c w => by
    rw [show c - |w| / 2 - (c + |w| / 2) = -|w| by ring, abs_neg, abs_abs]
  have hh : _hitHandle (JSMath.mk Real.cos Real.sin Real.sqrt)
      (some (getBoundingBox (JSMath.mk Real.cos Real.sin Real.sqrt) (some d))) pos0 tol
      = some { name := "tl"
               point := { x := s.x / 2 + e.x / 2 - |s.x - e.x| / 2,
                          y := s.y / 2 + e.y / 2 - |s.y - e.y| / 2 }
               anchor := { x := s.x / 2 + e.x / 2 + |s.x - e.x| / 2,
                           y := s.y / 2 + e.y / 2 + |s.y - e.y| / 2 } } := by
    simp only [_hitHandle, hc, List.find?_cons, hnear, decide_True]
  simp only [tryResize, hh, ha, hz, neg_zero, rotatePoint_eq, rotatePointAround_zero, hw1]

/-- One resize step on a rectangle or ellipse without rotation, from the
grab to the resized drawing: the drawing at the target index becomes the
drawing scaled about the anchor, and its width and height are the base width
and height times `max(8, |v.x|) / max(1, width)` and
`max(8, |v.y|) / max(1, height)`. -/
theorem resize_step_size (fmt : ℝ → String) (self : DrawingManager ℝ) (i : Nat)
    (d : Drawing ℝ) (s e pos0 pos : Point ℝ) (tol : ℝ) (st : PointerState ℝ)
    (hi : self.drawings[i]? = some d)
    (hty : d.type = DrawingType.rectangle ∨ d.type = DrawingType.ellipse)
    (hs : d.start = some s) (he : d.«end» = some e) (hangle : d.angle.getD 0 = 0)
    (hgrab : tryResize (JSMath.mk Real.cos Real.sin Real.sqrt) pos0 tol (some (i : Int)) (some d)
      = some st) :
    handlePointerMoveResize (JSMath.mk Real.cos Real.sin Real.sqrt) fmt self st pos
      = some { drawings := (self.drawings.set i
          (scaleDrawing (JSMath.mk Real.cos Real.sin Real.sqrt) fmt d st.anchor 0
            (max 8 |pos.x - st.anchor.x| / max 1 |s.x - e.x|)
            (max 8 |pos.y - st.anchor.y| / max 1 |s.y - e.y|))) } ∧
    (getBoundingBox (JSMath.mk Real.cos Real.sin Real.sqrt) (some
        (scaleDrawing (JSMath.mk Real.cos Real.sin Real.sqrt) fmt d st.anchor 0
          (max 8 |pos.x - st.anchor.x| / max 1 |s.x - e.x|)
          (max 8 |pos.y - st.anchor.y| / max 1 |s.y - e.y|)))).width
      = max 8 |pos.x - st.anchor.x| / max 1 |s.x - e.x| * |s.x - e.x| ∧
    (getBoundingBox (JSMath.mk Real.cos Real.sin Real.sqrt) (some
        (scaleDrawing (JSMath.mk Real.cos Real.sin Real.sqrt) fmt d st.anchor 0
          (max 8 |pos.x - st.anchor.x| / max 1 |s.x - e.x|)
          (max 8 |pos.y - st.anchor.y| / max 1 |s.y - e.y|)))).height
      = max 8 |pos.y - st.anchor.y| / max 1 |s.y - e.y| * |s.y - e.y| := by
  obtain ⟨h1, h2, h3, h4, h5⟩ := tryResize_unrotated d s e pos0 tol i st hty hs he hangle hgrab
  have hstep := handlePointerMoveResize_unrotated fmt self i d st pos hi h1 h2
    (h3 ▸ le_max_left _ _) (h4 ▸ le_max_left _ _)
  rw [h3, h4, h5] at hstep
  have hsz := scaled_frame_size fmt d s e st.anchor
    (max 8 |pos.x - st.anchor.x| / max 1 |s.x - e.x|)
    (max 8 |pos.y - st.anchor.y| / max 1 |s.y - e.y|) hty hs he (by positivity) (by positivity)
  exact ⟨hstep, hsz.1, hsz.2⟩

/-- C29 fails for a base narrower than 1: the rectangle from `(0, 0)` to
`(1/2, 10)` at angle 0, grabbed by the handle at `(0, 0)` with the pointer
left there, is resized to a rectangle of width 4. -/
theorem resize_step_counterexample :
    ∃ (st : PointerState ℝ) (next : Drawing ℝ),
      tryResize (JSMath.mk Real.cos Real.sin Real.sqrt) ⟨0, 0⟩ 10 (some 0)
        (some { type := .rectangle, start := some ⟨0, 0⟩, «end» := some ⟨1 / 2, 10⟩ }) = some st ∧
      handlePointerMoveResize (JSMath.mk Real.cos Real.sin Real.sqrt) (fun _ => "")
        { drawings := [{ type := .rectangle, start := some ⟨0, 0⟩, «end» := some ⟨1 / 2, 10⟩ }] }
        st ⟨0, 0⟩ = some { drawings := [next] } ∧
      (getBoundingBox (JSMath.mk Real.cos Real.sin Real.sqrt) (some next)).width = 4 ∧
      ¬ (8 ≤ (getBoundingBox (JSMath.mk Real.cos Real.sin Real.sqrt) (some next)).width) := by
  have h12 : |(0 : ℝ) - 1 / 2| = 1 / 2 := by
    rw [show (0 : ℝ) - 1 / 2 = -(1 / 2) by ring, abs_neg, abs_of_pos (by norm_num)]
  have h10 : |(0 : ℝ) - 10| = 10 := by
    rw [show (0 : ℝ) - 10 = -10 by ring, abs_neg, abs_of_pos (by norm_num)]
  have hgrab := tryResize_tl
    ({ type := .rectangle, start := some ⟨0, 0⟩, «end» := some ⟨1 / 2, 10⟩ } : Drawing ℝ)
    ⟨0, 0⟩ ⟨1 / 2, 10⟩ ⟨0, 0⟩ 10 0 (Or.inl rfl) rfl rfl rfl
    (by simp only [h12, h10]; norm_num [JSMath.hypot])
  obtain ⟨hstep, hw, -⟩ := resize_step_size (fun _ => "")
    { drawings := [{ type := .rectangle, start := some ⟨0, 0⟩, «end» := some ⟨1 / 2, 10⟩ }] } 0
    { type := .rectangle, start := some ⟨0, 0⟩, «end» := some ⟨1 / 2, 10⟩ }
    ⟨0, 0⟩ ⟨1 / 2, 10⟩ ⟨0, 0⟩ ⟨0, 0⟩ 10 _ rfl (Or.inl rfl) rfl rfl rfl hgrab
  have hval : max 8 |(0 : ℝ) - ((0 : ℝ) / 2 + 1 / 2 / 2 + |(0 : ℝ) - 1 / 2| / 2)|
      / max 1 |(0 : ℝ) - 1 / 2| * |(0 : ℝ) - 1 / 2| = 4 := by
    rw [h12, show (0 : ℝ) - ((0 : ℝ) / 2 + 1 / 2 / 2 + 1 / 2 / 2) = -(1 / 2) by norm_num, abs_neg,
      abs_of_pos (by norm_num : (0 : ℝ) < 1 / 2), max_eq_left (by norm_num : (1 / 2 : ℝ) ≤ 8),
      max_eq_left (by norm_num : (1 / 2 : ℝ) ≤ 1)]
    norm_num
  refine ⟨_, _, hgrab, hstep, ?_⟩
  rw [hw]
  exact ⟨hval, by rw [hval]; norm_num⟩

/-- C29, over the reals and for shapes without rotation: when a rectangle or
ellipse whose angle is absent or 0 is grabbed by a corner handle of its
bounding box, one pointer-move step of the resize replaces the drawing at the target index by
the snapshot scaled about the anchor, whose bounding-box width is
`max(8, |v.x|) / max(1, w) * w` and height `max(8, |v.y|) / max(1, h) * h`,
with `w`, `h` the base width and height and `v` the pointer relative to the
anchor; for `w ≥ 1` the width is `max(8, |v.x|)`, at least 8, and for
`h ≥ 1` the height is `max(8, |v.y|)`, at least 8. -/
theorem resize_step_min_size (fmt : ℝ → String) (self : DrawingManager ℝ) (i : Nat)
    (d : Drawing ℝ) (s e pos0 pos : Point ℝ) (tol : ℝ) (st : PointerState ℝ)
    (hi : self.drawings[i]? = some d)
    (hty : d.type = DrawingType.rectangle ∨ d.type = DrawingType.ellipse)
    (hs : d.start = some s) (he : d.«end» = some e) (hangle : d.angle.getD 0 = 0)
    (hgrab : tryResize (JSMath.mk Real.cos Real.sin Real.sqrt) pos0 tol (some (i : Int)) (some d)
      = some st) :
    ∃ next : Drawing ℝ,
      handlePointerMoveResize (JSMath.mk Real.cos Real.sin Real.sqrt) fmt self st pos
        = some { drawings := self.drawings.set i next } ∧
      (getBoundingBox (JSMath.mk Real.cos Real.sin Real.sqrt) (some next)).width
        = max 8 |pos.x - st.anchor.x| / max 1 |s.x - e.x| * |s.x - e.x| ∧
      (getBoundingBox (JSMath.mk Real.cos Real.sin Real.sqrt) (some next)).height
        = max 8 |pos.y - st.anchor.y| / max 1 |s.y - e.y| * |s.y - e.y| ∧
      (1 ≤ |s.x - e.x| →
        (getBoundingBox (JSMath.mk Real.cos Real.sin Real.sqrt) (some next)).width
          = max 8 |pos.x - st.anchor.x| ∧
        8 ≤ (getBoundingBox (JSMath.mk Real.cos Real.sin Real.sqrt) (some next)).width) ∧
      (1 ≤ |s.y - e.y| →
        (getBoundingBox (JSMath.mk Real.cos Real.sin Real.sqrt) (some next)).height
          = max 8 |pos.y - st.anchor.y| ∧
        8 ≤ (getBoundingBox (JSMath.mk Real.cos Real.sin Real.sqrt) (some next)).height) := by
  obtain ⟨hstep, hw, hh⟩ := resize_step_size fmt self i d s e pos0 pos tol st hi hty hs he
    hangle hgrab
  have hcancel : ∀ m w : ℝ, 1 ≤ w → m / max 1 w * w = m := by
    intro m w hw1
    rw [max_eq_right hw1]
    field_simp
  refine ⟨_, hstep, hw, hh, fun h1 => ?_, fun h1 => ?_⟩
  · rw [hw, hcancel _ _ h1]
    exact ⟨rfl, le_max_left _ _⟩
  · rw [hh, hcancel _ _ h1]
    exact ⟨rfl, le_max_left _ _⟩

/-- C29 on the rectangle from `(0, 0)` to `(10, 20)`, grabbed at `(0, 0)` and
dragged to `(-5, 3)`: the resized rectangle is at least 8 wide and 8 high. -/
theorem resize_step_min_size_witness :
    ∃ next : Drawing ℝ,
      handlePointerMoveResize (JSMath.mk Real.cos Real.sin Real.sqrt) (fun _ => "")
        { drawings := [{ type := .rectangle, start := some ⟨0, 0⟩, «end» := some ⟨10, 20⟩ }] }
        { targetIndex := 0, handle := "tl"
          anchor := { x := (0 : ℝ) / 2 + 10 / 2 + |(0 : ℝ) - 10| / 2,
                      y := (0 : ℝ) / 2 + 20 / 2 + |(0 : ℝ) - 20| / 2 }
          angle := 0, startWidth := max 1 |(0 : ℝ) - 10|, startHeight := max 1 |(0 : ℝ) - 20|
          baseDrawing := { type := .rectangle, start := some ⟨0, 0⟩, «end» := some ⟨10, 20⟩ } }
        ⟨-5, 3⟩ = some { drawings := [next] } ∧
      8 ≤ (getBoundingBox (JSMath.mk Real.cos Real.sin Real.sqrt) (some next)).width ∧
      8 ≤ (getBoundingBox (JSMath.mk Real.cos Real.sin Real.sqrt) (some next)).height := by
  have h10 : |(0 : ℝ) - 10| = 10 := by
    rw [show (0 : ℝ) - 10 = -10 by ring, abs_neg, abs_of_pos (by norm_num)]
  have h20 : |(0 : ℝ) - 20| = 20 := by
    rw [show (0 : ℝ) - 20 = -20 by ring, abs_neg, abs_of_pos (by norm_num)]
  obtain ⟨next, hstep, -, -, hw, hh⟩ := resize_step_min_size (fun _ => "")
    { drawings := [{ type := .rectangle, start := some ⟨0, 0⟩, «end» := some ⟨10, 20⟩ }] } 0
    { type := .rectangle, start := some ⟨0, 0⟩, «end» := some ⟨10, 20⟩ }
    ⟨0, 0⟩ ⟨10, 20⟩ ⟨0, 0⟩ ⟨-5, 3⟩ 10 _ rfl (Or.inl rfl) rfl rfl rfl
    (tryResize_tl
      ({ type := .rectangle, start := some ⟨0, 0⟩, «end» := some ⟨10, 20⟩ } : Drawing ℝ)
      ⟨0, 0⟩ ⟨10, 20⟩ ⟨0, 0⟩ 10 0 (Or.inl rfl) rfl rfl rfl
      (by simp only [h10, h20]; norm_num [JSMath.hypot]))
  exact ⟨next, hstep, (hw (by simp only [h10]; norm_num)).2, (hh (by simp only [h20]; norm_num)).2⟩

/-- The resize step on a rotated rectangle: the rectangle from `(0, 0)` to
`(10, 100)` turned by a quarter turn, grabbed by its handle at `(55, 45)`
(anchor `(-45, 55)`) and dragged to `(-37, 45)`, where the pointer is
`(-10, -8)` in the frame of the anchor, becomes a rectangle of width `4/5`. -/
theorem resize_step_rotated_slip :
    ∃ (st : PointerState ℝ) (next : Drawing ℝ),
      tryResize (JSMath.mk Real.cos Real.sin Real.sqrt) ⟨55, 45⟩ 10 (some 0)
        (some { type := .rectangle, start := some ⟨0, 0⟩, «end» := some ⟨10, 100⟩,
                angle := some (Real.pi / 2) }) = some st ∧
      handlePointerMoveResize (JSMath.mk Real.cos Real.sin Real.sqrt) (fun _ => "")
        { drawings := [{ type := .rectangle, start := some ⟨0, 0⟩, «end» := some ⟨10, 100⟩,
                         angle := some (Real.pi / 2) }] }
        st ⟨-37, 45⟩ = some { drawings := [next] } ∧
      (getBoundingBox (JSMath.mk Real.cos Real.sin Real.sqrt) (some next)).width = 4 / 5 := by
  have hpi : Real.pi / 2 ≠ 0 := by positivity
  have hangle : orElse (some (Real.pi / 2)) 0 = Real.pi / 2 := by simp [orElse, hpi]
  have h10 : |(0 : ℝ) - 10| = 10 := by
    rw [show (0 : ℝ) - 10 = -10 by ring, abs_neg, abs_of_pos (by norm_num)]
  have h100 : |(0 : ℝ) - 100| = 100 := by
    rw [show (0 : ℝ) - 100 = -100 by ring, abs_neg, abs_of_pos (by norm_num)]
  have hgrab : tryResize (JSMath.mk Real.cos Real.sin Real.sqrt) ⟨55, 45⟩ 10 (some 0)
      (some { type := .rectangle, start := some ⟨0, 0⟩, «end» := some ⟨10, 100⟩,
              angle := some (Real.pi / 2) })
      = some { targetIndex := 0, handle := "tl", anchor := ⟨-45, 55⟩, angle := Real.pi / 2
               startWidth := 10, startHeight := 100
               baseDrawing := { type := .rectangle, start := some ⟨0, 0⟩,
                                «end» := some ⟨10, 100⟩, angle := some (Real.pi / 2) } } := by
    simp only [tryResize, _hitHandle, getBoundingBox, hangle, hpi, if_false, rotateCorners,
      rotatePointAround, rotatePoint, Real.cos_pi_div_two, Real.sin_pi_div_two, Real.cos_neg,
      Real.sin_neg, orElse_zero, Option.map_some', Option.getD_some, List.map_cons, List.map_nil,
      h10, h100, JSMath.hypot, List.find?_cons]
    norm_num
  have hmove : handlePointerMoveResize (JSMath.mk Real.cos Real.sin Real.sqrt) (fun _ => "")
      { drawings := [{ type := .rectangle, start := some ⟨0, 0⟩, «end» := some ⟨10, 100⟩,
                       angle := some (Real.pi / 2) }] }
      { targetIndex := 0, handle := "tl", anchor := ⟨-45, 55⟩, angle := Real.pi / 2
        startWidth := 10, startHeight := 100
        baseDrawing := { type := .rectangle, start := some ⟨0, 0⟩,
                         «end» := some ⟨10, 100⟩, angle := some (Real.pi / 2) } }
      ⟨-37, 45⟩
      = some { drawings := [{ type := .rectangle, start := some ⟨-207 / 5, 0⟩,
                              «end» := some ⟨-203 / 5, 100⟩, angle := some (Real.pi / 2) }] } := by
    have h10 : orElse (some (10 : ℝ)) 1 = 10 := by simp [orElse]
    have h100 : orElse (some (100 : ℝ)) 1 = 100 := by simp [orElse]
    simp only [handlePointerMoveResize, arrayGet, arraySet, DrawingManager.resizeTo, scaleDrawing,
      scalePoint, rotatePoint, rotatePointAround, hangle, h10, h100, Real.cos_pi_div_two,
      Real.sin_pi_div_two, Real.cos_neg, Real.sin_neg]
    norm_num
  refine ⟨_, _, hgrab, hmove, ?_⟩
  simp only [getBoundingBox, orElse_zero, Option.map_some', Option.getD_some]
  norm_num

end ResizeCallerProps

/-! ## Monotonicity of the hit tests in the tolerance -/

section ToleranceProps

/-- A square of a quotient shrinks when the positive denominator grows. -/
theorem sq_div_antitone {K : Type} [LinearOrderedField K] (a r r' : K) (hr : 0 < r)
    (hrr : r ≤ r') : a / r' * (a / r') ≤ a / r * (a / r) := by
  have hr' : 0 < r' := lt_of_lt_of_le hr hrr
  have h1 : a / r' * (a / r') = a * a / (r' * r') := by field_simp
  have h2 : a / r * (a / r) = a * a / (r * r) := by field_simp
  rw [h1, h2]
  exact div_le_div_of_nonneg_left (mul_self_nonneg a) (mul_pos hr hr)
    (mul_le_mul hrr hrr hr.le hr'.le)

/-- The polyline loop is monotone in the tolerance. -/
theorem polylineLoop_mono {K : Type} [LinearOrderedField K] (M : JSMath K) (p : Point K)
    (t t' : K) (htt : t ≤ t') (pts : List (Point K))
    (h : polylineLoop M p t pts = true) : polylineLoop M p t' pts = true := by
  rw [polylineLoop_iff] at h ⊢
  obtain ⟨i, a, b, h1, h2, h3⟩ := h
  exact ⟨i, a, b, h1, h2, le_trans h3 htt⟩

/-- Every hit test is monotone in the tolerance from `0` on. -/
theorem isPointOnDrawing_mono {K : Type} [LinearOrderedField K] (M : JSMath K) (d : Drawing K)
    (p : Point K) (t t' : K) (h0 : 0 ≤ t) (htt : t ≤ t')
    (h : isPointOnDrawing M p d t = true) : isPointOnDrawing M p d t' = true := by
  have hline : pointNearLine M p d.start d.«end» t = true →
      pointNearLine M p d.start d.«end» t' = true := by
    intro hl
    cases hs : d.start with
    | none => simp [pointNearLine, hs] at hl
    | some s =>
      cases he : d.«end» with
      | none => simp [pointNearLine, hs, he] at hl
      | some e =>
        simp only [pointNearLine, hs, he, decide_eq_true_eq] at hl ⊢
        exact le_trans hl htt
  unfold isPointOnDrawing at h ⊢
  cases hty : d.type <;> simp only [hty] at h ⊢
  case unknown => exact h
  case pencil =>
    cases hp : d.points with
    | none => simp [pointNearPolyline, hp] at h
    | some pts =>
      simp only [pointNearPolyline, hp] at h ⊢
      by_cases hlen : pts.length < 2
      · simp [hlen] at h
      · simp only [hlen, if_false] at h ⊢
        exact polylineLoop_mono M p t t' htt pts h
  case line => exact hline h
  case segment => exact hline h
  case arrow => exact hline h
  case projection => exact hline h
  case rectangle =>
    cases hs : d.start with
    | none => simp [pointInRect, hs] at h
    | some s =>
      cases he : d.«end» with
      | none => simp [pointInRect, hs, he] at h
      | some e =>
        simp only [pointInRect, hs, he, Bool.and_eq_true, decide_eq_true_eq, ge_iff_le] at h ⊢
        obtain ⟨⟨⟨h1, h2⟩, h3⟩, h4⟩ := h
        exact ⟨⟨⟨by linarith, by linarith⟩, by linarith⟩, by linarith⟩
  case text =>
    cases hx : d.x with
    | none => simp [pointNearText, hx] at h
    | some x =>
      cases hy : d.y with
      | none => simp [pointNearText, hx, hy] at h
      | some y =>
        simp only [pointNearText, hx, hy, Bool.and_eq_true, decide_eq_true_eq, ge_iff_le] at h ⊢
        obtain ⟨⟨⟨h1, h2⟩, h3⟩, h4⟩ := h
        exact ⟨⟨⟨by linarith, by linarith⟩, by linarith⟩, by linarith⟩
  case icon =>
    cases hx : d.x with
    | none => simp [pointNearIcon, hx] at h
    | some x =>
      cases hy : d.y with
      | none => simp [pointNearIcon, hx, hy] at h
      | some y =>
        simp only [pointNearIcon, hx, hy, Bool.and_eq_true, decide_eq_true_eq] at h ⊢
        obtain ⟨h1, h2⟩ := h
        exact ⟨by linarith, by linarith⟩
  case ellipse =>
    cases hs : d.start with
    | none => simp [pointInEllipse, hs] at h
    | some s =>
      cases he : d.«end» with
      | none => simp [pointInEllipse, hs, he] at h
      | some e =>
        have hrx : 0 < max 1 (|s.x - e.x| / 2) + t :=
          lt_of_lt_of_le zero_lt_one (le_trans (le_max_left _ _) (le_add_of_nonneg_right h0))
        have hry : 0 < max 1 (|s.y - e.y| / 2) + t :=
          lt_of_lt_of_le zero_lt_one (le_trans (le_max_left _ _) (le_add_of_nonneg_right h0))
        have hrx' : 0 < max 1 (|s.x - e.x| / 2) + t' := by linarith
        have hry' : 0 < max 1 (|s.y - e.y| / 2) + t' := by linarith
        simp only [pointInEllipse, hs, he, hrx.ne', hry.ne', hrx'.ne', hry'.ne', or_self,
          if_false, decide_eq_true_eq] at h ⊢
        have hx := sq_div_antitone
          ((if orElse d.angle 0 = 0 then p
            else rotatePointAround M p { x := (s.x + e.x) / 2, y := (s.y + e.y) / 2 }
              (-orElse d.angle 0)).x - (s.x + e.x) / 2)
          _ _ hrx (add_le_add_left htt (max 1 (|s.x - e.x| / 2)))
        have hy := sq_div_antitone
          ((if orElse d.angle 0 = 0 then p
            else rotatePointAround M p { x := (s.x + e.x) / 2, y := (s.y + e.y) / 2 }
              (-orElse d.angle 0)).y - (s.y + e.y) / 2)
          _ _ hry (add_le_add_left htt (max 1 (|s.y - e.y| / 2)))
        linarith

/-- C32: hit testing is monotone in the tolerance: for tolerances
`0 ≤ t ≤ t'`, a drawing hit at `p` with tolerance `t` is hit at `p` with
tolerance `t'`; hence when `hitTest(p, t)` returns the index `i`,
`hitTest(p, t')` returns an index `j ≥ i` and never `null`. -/
theorem hit_monotone_in_tolerance {K : Type} [LinearOrderedField K] (M : JSMath K)
    (self : DrawingManager K) (p : Point K) (t t' : K) (h0 : 0 ≤ t) (htt : t ≤ t') :
    (∀ d : Drawing K, isPointOnDrawing M p d t = true → isPointOnDrawing M p d t' = true) ∧
    (∀ h : Hit K, self.hitTest M p t = some h →
      ∃ h' : Hit K, self.hitTest M p t' = some h' ∧ h.index ≤ h'.index) := by
  refine ⟨fun d hd => isPointOnDrawing_mono M d p t t' h0 htt hd, fun h hh => ?_⟩
  obtain ⟨hs, -⟩ := hitTestLoop_spec M self.drawings p t self.drawings.length (Nat.le_refl _)
  obtain ⟨hs', hn'⟩ := hitTestLoop_spec M self.drawings p t' self.drawings.length (Nat.le_refl _)
  obtain ⟨h1, h2, h3, -⟩ := hs h hh
  have hit' := isPointOnDrawing_mono M h.drawing p t t' h0 htt h3
  cases hres : self.hitTest M p t' with
  | none =>
    have := hn' hres h.index h.drawing h1 h2
    rw [hit'] at this
    cases this
  | some r =>
    refine ⟨r, rfl, ?_⟩
    obtain ⟨-, -, -, r4⟩ := hs' r hres
    by_contra hlt
    have := r4 h.index h.drawing (not_le.mp hlt) h1 h2
    rw [hit'] at this
    cases this

/-- C32 on a list of one line from `(0, 0)` to `(10, 0)`, at the point
`(5, 2)` with the tolerances 2 and 5. -/
theorem hit_monotone_in_tolerance_witness :
    (0 : ℝ) ≤ 2 ∧ (2 : ℝ) ≤ 5 ∧
    ∀ h : Hit ℝ,
      DrawingManager.hitTest (JSMath.mk Real.cos Real.sin Real.sqrt)
        { drawings := [{ type := .line, start := some ⟨0, 0⟩, «end» := some ⟨10, 0⟩ }] }
        ⟨5, 2⟩ 2 = some h →
      ∃ h' : Hit ℝ,
        DrawingManager.hitTest (JSMath.mk Real.cos Real.sin Real.sqrt)
          { drawings := [{ type := .line, start := some ⟨0, 0⟩, «end» := some ⟨10, 0⟩ }] }
          ⟨5, 2⟩ 5 = some h' ∧ h.index ≤ h'.index :=
  ⟨by norm_num, by norm_num,
    (hit_monotone_in_tolerance (JSMath.mk Real.cos Real.sin Real.sqrt)
      { drawings := [{ type := .line, start := some ⟨0, 0⟩, «end» := some ⟨10, 0⟩ }] }
      ⟨5, 2⟩ 2 5 (by norm_num) (by norm_num)).2⟩

end ToleranceProps

/-! ## Hit testing and translation -/

section TranslationProps

/-- Rotating a shifted point about a shifted centre gives the shifted
rotation. -/
theorem rotatePointAround_translate {K : Type} [LinearOrderedField K] (M : JSMath K)
    (p c : Point K) (dx dy θ : K) :
    rotatePointAround M { x := p.x + dx, y := p.y + dy } { x := c.x + dx, y := c.y + dy } θ
      = { x := (rotatePointAround M p c θ).x + dx, y := (rotatePointAround M p c θ).y + dy } := by
  ext <;> simp only [rotatePointAround] <;> ring

/-- The un-rotated test point of a shifted shape at a shifted point is the
shifted test point. -/
theorem testPoint_translate {K : Type} [LinearOrderedField K] (M : JSMath K)
    (p c : Point K) (dx dy θ : K) :
    (if θ = 0 then ({ x := p.x + dx, y := p.y + dy } : Point K)
      else rotatePointAround M { x := p.x + dx, y := p.y + dy }
        { x := c.x + dx, y := c.y + dy } (-θ))
      = { x := (if θ = 0 then p else rotatePointAround M p c (-θ)).x + dx
          y := (if θ = 0 then p else rotatePointAround M p c (-θ)).y + dy } := by
  by_cases h : θ = 0
  · simp [h]
  · simp only [h, if_false, rotatePointAround_translate]

/-- The distance to a segment is unchanged when the point and the segment are
shifted by the same vector. -/
theorem distanceToSegment_translate (p a b : Point ℝ) (dx dy : ℝ) :
    distanceToSegment (JSMath.mk Real.cos Real.sin Real.sqrt)
        { x := p.x + dx, y := p.y + dy } { x := a.x + dx, y := a.y + dy }
        { x := b.x + dx, y := b.y + dy }
      = distanceToSegment (JSMath.mk Real.cos Real.sin Real.sqrt) p a b :=
  distanceToSegment_of_rotated_differences p a b _ _ _ 1 0 (by norm_num)
    (by simp) (by simp) (by simp) (by simp)

/-- The polyline loop gives the same answer on a shifted path at the shifted
point. -/
theorem polylineLoop_translate (p : Point ℝ) (dx dy t : ℝ) :
    ∀ pts : List (Point ℝ),
      polylineLoop (JSMath.mk Real.cos Real.sin Real.sqrt) { x := p.x + dx, y := p.y + dy } t
          (pts.map fun q => { x := q.x + dx, y := q.y + dy })
        = polylineLoop (JSMath.mk Real.cos Real.sin Real.sqrt) p t pts
  | [] => rfl
  | [_] => rfl
  | a :: b :: rest => by
    have ih := polylineLoop_translate p dx dy t (b :: rest)
    simp only [List.map_cons] at ih ⊢
    simp only [polylineLoop, pointNearLine, distanceToSegment_translate, ih]

/-- The running minimum over shifted values is the shifted minimum. -/
theorem foldl_min_translate {K : Type} [LinearOrderedField K] (f : Point K → K) (g : Point K → Point K)
    (δ : K) (hg : ∀ q, f (g q) = f q + δ) :
    ∀ (pts : List (Point K)) (m : K),
      (pts.map g).foldl (fun m q => min m (f q)) (m + δ)
        = pts.foldl (fun m q => min m (f q)) m + δ
  | [], _ => rfl
  | a :: rest, m => by
    simp only [List.map_cons, List.foldl_cons, hg, min_add_add_right]
    exact foldl_min_translate f g δ hg rest (min m (f a))

/-- The running maximum over shifted values is the shifted maximum. -/
theorem foldl_max_translate {K : Type} [LinearOrderedField K] (f : Point K → K) (g : Point K → Point K)
    (δ : K) (hg : ∀ q, f (g q) = f q + δ) :
    ∀ (pts : List (Point K)) (m : K),
      (pts.map g).foldl (fun m q => max m (f q)) (m + δ)
        = pts.foldl (fun m q => max m (f q)) m + δ
  | [], _ => rfl
  | a :: rest, m => by
    simp only [List.map_cons, List.foldl_cons, hg, max_add_add_right]
    exact foldl_max_translate f g δ hg rest (max m (f a))

/-- The extents of a shifted list, started at a shifted value, are the
shifted extents. -/
theorem extentFold_translate {K : Type} [LinearOrderedField K] (pts : List (Point K))
    (dx dy : K) (init : K × K × K × K) :
    extentFold (init.1 + dx, init.2.1 + dx, init.2.2.1 + dy, init.2.2.2 + dy)
        (pts.map fun q => { x := q.x + dx, y := q.y + dy })
      = ((extentFold init pts).1 + dx, (extentFold init pts).2.1 + dx,
         (extentFold init pts).2.2.1 + dy, (extentFold init pts).2.2.2 + dy) := by
  rw [extentFold_eq, extentFold_eq]
  have h1 := foldl_min_translate (fun q : Point K => q.x)
    (fun q => { x := q.x + dx, y := q.y + dy }) dx (fun _ => rfl) pts init.1
  have h2 := foldl_max_translate (fun q : Point K => q.x)
    (fun q => { x := q.x + dx, y := q.y + dy }) dx (fun _ => rfl) pts init.2.1
  have h3 := foldl_min_translate (fun q : Point K => q.y)
    (fun q => { x := q.x + dx, y := q.y + dy }) dy (fun _ => rfl) pts init.2.2.1
  have h4 := foldl_max_translate (fun q : Point K => q.y)
    (fun q => { x := q.x + dx, y := q.y + dy }) dy (fun _ => rfl) pts init.2.2.2
  simp only at h1 h2 h3 h4
  simp only [h1, h2, h3, h4]

/-- The hit test of a rectangle is unchanged when the point and the
rectangle are shifted by the same vector. -/
theorem pointInRect_translate {K : Type} [LinearOrderedField K] (M : JSMath K)
    (p s e : Point K) (dx dy t θ : K) :
    pointInRect M { x := p.x + dx, y := p.y + dy } (some { x := s.x + dx, y := s.y + dy })
        (some { x := e.x + dx, y := e.y + dy }) t θ
      = pointInRect M p (some s) (some e) t θ := by
  have hcx : (s.x + dx + (e.x + dx)) / 2 = (s.x + e.x) / 2 + dx := by ring
  have hcy : (s.y + dy + (e.y + dy)) / 2 = (s.y + e.y) / 2 + dy := by ring
  have htp := testPoint_translate M p { x := (s.x + e.x) / 2, y := (s.y + e.y) / 2 } dx dy θ
  simp only [pointInRect, hcx, hcy, htp, min_add_add_right, max_add_add_right]
  rw [Bool.eq_iff_iff]
  simp only [Bool.and_eq_true, decide_eq_true_eq, ge_iff_le]
  constructor
  · rintro ⟨⟨⟨h1, h2⟩, h3⟩, h4⟩
    exact ⟨⟨⟨by linarith, by linarith⟩, by linarith⟩, by linarith⟩
  · rintro ⟨⟨⟨h1, h2⟩, h3⟩, h4⟩
    exact ⟨⟨⟨by linarith, by linarith⟩, by linarith⟩, by linarith⟩

/-- The hit test of an ellipse is unchanged when the point and the ellipse
are shifted by the same vector. -/
theorem pointInEllipse_translate {K : Type} [LinearOrderedField K] (M : JSMath K)
    (p s e : Point K) (dx dy t θ : K) :
    pointInEllipse M { x := p.x + dx, y := p.y + dy } (some { x := s.x + dx, y := s.y + dy })
        (some { x := e.x + dx, y := e.y + dy }) t θ
      = pointInEllipse M p (some s) (some e) t θ := by
  have hcx : (s.x + dx + (e.x + dx)) / 2 = (s.x + e.x) / 2 + dx := by ring
  have hcy : (s.y + dy + (e.y + dy)) / 2 = (s.y + e.y) / 2 + dy := by ring
  have hwx : s.x + dx - (e.x + dx) = s.x - e.x := by ring
  have hwy : s.y + dy - (e.y + dy) = s.y - e.y := by ring
  have htp := testPoint_translate M p { x := (s.x + e.x) / 2, y := (s.y + e.y) / 2 } dx dy θ
  simp only [pointInEllipse, hcx, hcy, hwx, hwy, htp, add_sub_add_right_eq_sub]

/-- C31: hit testing is consistent with translation: for every drawing `d`
with complete geometry, point `p`, delta `(dx, dy)` and tolerance `t`, the
translated drawing is hit at `(p.x + dx, p.y + dy)` exactly when `d` is hit at
`p`, and the centre of the translated drawing is the centre of `d` plus
`(dx, dy)`. -/
theorem hit_translation_consistent (d : Drawing ℝ) (p : Point ℝ) (dx dy t : ℝ)
    (hc : isIncomplete d = false) :
    isPointOnDrawing (JSMath.mk Real.cos Real.sin Real.sqrt) { x := p.x + dx, y := p.y + dy }
        (translateDrawing d dx dy) t
      = isPointOnDrawing (JSMath.mk Real.cos Real.sin Real.sqrt) p d t ∧
    getDrawingCenter (translateDrawing d dx dy)
      = { x := (getDrawingCenter d).x + dx, y := (getDrawingCenter d).y + dy } := by
  have hline : ∀ s e : Point ℝ,
      pointNearLine (JSMath.mk Real.cos Real.sin Real.sqrt) { x := p.x + dx, y := p.y + dy }
          (some { x := s.x + dx, y := s.y + dy }) (some { x := e.x + dx, y := e.y + dy }) t
        = pointNearLine (JSMath.mk Real.cos Real.sin Real.sqrt) p (some s) (some e) t := by
    intro s e
    simp only [pointNearLine, distanceToSegment_translate]
  have hmid : ∀ a b δ : ℝ, (a + δ) / 2 + (b + δ) / 2 = a / 2 + b / 2 + δ := by
    intro a b δ
    ring
  have hframe : ∀ s e : Point ℝ, d.start = some s → d.«end» = some e →
      d.type = DrawingType.line ∨ d.type = DrawingType.segment ∨ d.type = DrawingType.arrow ∨
        d.type = DrawingType.projection ∨ d.type = DrawingType.rectangle ∨
        d.type = DrawingType.ellipse →
      getDrawingCenter (translateDrawing d dx dy)
        = { x := (getDrawingCenter d).x + dx, y := (getDrawingCenter d).y + dy } := by
    intro s e hs he hty
    rcases hty with h | h | h | h | h | h <;>
      simp [getDrawingCenter, translateDrawing, h, hs, he, orElse_zero, hmid]
  unfold isIncomplete at hc
  cases hty : d.type <;> simp only [hty] at hc
  case pencil =>
    cases hp : d.points with
    | none => simp [hp] at hc
    | some pts =>
      simp only [hp, decide_eq_false_iff_not, not_lt] at hc
      cases pts with
      | nil => simp at hc
      | cons p0 rest =>
        constructor
        · simp only [isPointOnDrawing, translateDrawing, hty, hp, pointNearPolyline,
            Option.getD_some, List.length_map, polylineLoop_translate]
        · have hext := extentFold_translate (p0 :: rest) dx dy (p0.x, p0.x, p0.y, p0.y)
          simp only [List.map_cons] at hext
          simp only [getDrawingCenter, translateDrawing, hty, hp, Option.getD_some,
            List.map_cons, hext]
          ext <;> simp only <;> ring
  case unknown => simp at hc
  case text =>
    cases hx : d.x with
    | none => simp [hx] at hc
    | some x =>
      cases hy : d.y with
      | none => simp [hx, hy] at hc
      | some y =>
        have hxz : orElse (some x) 0 = x := by simp [orElse_zero]
        have hyz : orElse (some y) 0 = y := by simp [orElse_zero]
        constructor
        · have htp := testPoint_translate (JSMath.mk Real.cos Real.sin Real.sqrt) p
            { x := x, y := y } dx dy (orElse d.angle 0)
          simp only [isPointOnDrawing, translateDrawing, hty, hx, hy, pointNearText, hxz, hyz,
            htp]
          rw [Bool.eq_iff_iff]
          simp only [Bool.and_eq_true, decide_eq_true_eq, ge_iff_le]
          constructor
          · rintro ⟨⟨⟨h1, h2⟩, h3⟩, h4⟩
            exact ⟨⟨⟨by linarith, by linarith⟩, by linarith⟩, by linarith⟩
          · rintro ⟨⟨⟨h1, h2⟩, h3⟩, h4⟩
            exact ⟨⟨⟨by linarith, by linarith⟩, by linarith⟩, by linarith⟩
        · simp [getDrawingCenter, translateDrawing, hty, hx, hy, orElse_zero]
  case icon =>
    cases hx : d.x with
    | none => simp [hx] at hc
    | some x =>
      cases hy : d.y with
      | none => simp [hx, hy] at hc
      | some y =>
        have hxz : orElse (some x) 0 = x := by simp [orElse_zero]
        have hyz : orElse (some y) 0 = y := by simp [orElse_zero]
        constructor
        · have htp := testPoint_translate (JSMath.mk Real.cos Real.sin Real.sqrt) p
            { x := x, y := y } dx dy (orElse d.angle 0)
          simp only [isPointOnDrawing, translateDrawing, hty, hx, hy, pointNearIcon, hxz, hyz,
            htp, add_sub_add_right_eq_sub]
        · simp [getDrawingCenter, translateDrawing, hty, hx, hy, orElse_zero]
  all_goals
    cases hs : d.start with
    | none => simp [hs] at hc
    | some s =>
      cases he : d.«end» with
      | none => simp [hs, he] at hc
      | some e =>
        refine ⟨?_, hframe s e hs he (by simp [hty])⟩
        simp only [isPointOnDrawing, translateDrawing, hty, hs, he, Option.map_some', hline,
          pointInRect_translate, pointInEllipse_translate]

/-- C31 on the rectangle from `(0, 0)` to `(10, 2)` moved by `(3, 4)`. -/
theorem hit_translation_consistent_witness :
    getDrawingCenter (translateDrawing
        ({ type := .rectangle, start := some ⟨0, 0⟩, «end» := some ⟨10, 2⟩ } : Drawing ℝ) 3 4)
      = { x := (getDrawingCenter
            ({ type := .rectangle, start := some ⟨0, 0⟩, «end» := some ⟨10, 2⟩ } : Drawing ℝ)).x + 3
          y := (getDrawingCenter
            ({ type := .rectangle, start := some ⟨0, 0⟩, «end» := some ⟨10, 2⟩ } : Drawing ℝ)).y
              + 4 } :=
  (hit_translation_consistent
    { type := .rectangle, start := some ⟨0, 0⟩, «end» := some ⟨10, 2⟩ } ⟨1, 1⟩ 3 4 0 rfl).2

end TranslationProps

/-! ## Composition of rotations -/

section ComposeProps

/-- Rotating a line, segment, arrow or projection with both endpoints turns
the endpoints about their midpoint. -/
theorem rotateDrawing_lineLike (d : Drawing ℝ) (s e : Point ℝ) (θ : ℝ)
    (hty : d.type = DrawingType.line ∨ d.type = DrawingType.segment ∨
      d.type = DrawingType.arrow ∨ d.type = DrawingType.projection)
    (hs : d.start = some s) (he : d.«end» = some e) :
    rotateDrawing (JSMath.mk Real.cos Real.sin Real.sqrt) d θ
      = { d with
          start := some (rotatePointAround (JSMath.mk Real.cos Real.sin Real.sqrt) s
            { x := s.x / 2 + e.x / 2, y := s.y / 2 + e.y / 2 } θ)
          «end» := some (rotatePointAround (JSMath.mk Real.cos Real.sin Real.sqrt) e
            { x := s.x / 2 + e.x / 2, y := s.y / 2 + e.y / 2 } θ) } := by
  rcases hty with h | h | h | h <;>
    simp [rotateDrawing, getDrawingCenter, h, hs, he, orElse_zero]

/-- The midpoint of two points turned about their midpoint is that midpoint. -/
theorem midpoint_rotated (s e : Point ℝ) (θ : ℝ) :
    (rotatePointAround (JSMath.mk Real.cos Real.sin Real.sqrt) s
        { x := s.x / 2 + e.x / 2, y := s.y / 2 + e.y / 2 } θ).x / 2
      + (rotatePointAround (JSMath.mk Real.cos Real.sin Real.sqrt) e
        { x := s.x / 2 + e.x / 2, y := s.y / 2 + e.y / 2 } θ).x / 2 = s.x / 2 + e.x / 2 ∧
    (rotatePointAround (JSMath.mk Real.cos Real.sin Real.sqrt) s
        { x := s.x / 2 + e.x / 2, y := s.y / 2 + e.y / 2 } θ).y / 2
      + (rotatePointAround (JSMath.mk Real.cos Real.sin Real.sqrt) e
        { x := s.x / 2 + e.x / 2, y := s.y / 2 + e.y / 2 } θ).y / 2 = s.y / 2 + e.y / 2 := by
  constructor <;> simp only [rotatePointAround] <;> ring

/-- Rotations of a line, segment, arrow or projection with both endpoints
keep the centre and compose additively. -/
theorem lineLike_rotations_compose (d : Drawing ℝ) (s e : Point ℝ) (α β : ℝ)
    (hty : d.type = DrawingType.line ∨ d.type = DrawingType.segment ∨
      d.type = DrawingType.arrow ∨ d.type = DrawingType.projection)
    (hs : d.start = some s) (he : d.«end» = some e) :
    getDrawingCenter (rotateDrawing (JSMath.mk Real.cos Real.sin Real.sqrt) d α)
      = getDrawingCenter d ∧
    rotateDrawing (JSMath.mk Real.cos Real.sin Real.sqrt)
        (rotateDrawing (JSMath.mk Real.cos Real.sin Real.sqrt) d α) β
      = rotateDrawing (JSMath.mk Real.cos Real.sin Real.sqrt) d (α + β) := by
  have hcen : ∀ n : Drawing ℝ, n.type = d.type → ∀ a b : Point ℝ, n.start = some a →
      n.«end» = some b →
      getDrawingCenter n = { x := a.x / 2 + b.x / 2, y := a.y / 2 + b.y / 2 } := by
    intro n hnt a b ha hb
    rcases hty with h | h | h | h <;>
      simp [getDrawingCenter, hnt, h, ha, hb, orElse_zero]
  have key : ∀ n : Drawing ℝ,
      n = { d with
            start := some (rotatePointAround (JSMath.mk Real.cos Real.sin Real.sqrt) s
              { x := s.x / 2 + e.x / 2, y := s.y / 2 + e.y / 2 } α)
            «end» := some (rotatePointAround (JSMath.mk Real.cos Real.sin Real.sqrt) e
              { x := s.x / 2 + e.x / 2, y := s.y / 2 + e.y / 2 } α) } →
      getDrawingCenter n = getDrawingCenter d ∧
      rotateDrawing (JSMath.mk Real.cos Real.sin Real.sqrt) n β
        = rotateDrawing (JSMath.mk Real.cos Real.sin Real.sqrt) d (α + β) := by
    intro n hn
    have hnt : n.type = d.type := by rw [hn]
    have hns : n.start = some (rotatePointAround (JSMath.mk Real.cos Real.sin Real.sqrt) s
        { x := s.x / 2 + e.x / 2, y := s.y / 2 + e.y / 2 } α) := by rw [hn]
    have hne : n.«end» = some (rotatePointAround (JSMath.mk Real.cos Real.sin Real.sqrt) e
        { x := s.x / 2 + e.x / 2, y := s.y / 2 + e.y / 2 } α) := by rw [hn]
    obtain ⟨hmx, hmy⟩ := midpoint_rotated s e α
    constructor
    · rw [hcen n hnt _ _ hns hne, hcen d rfl s e hs he, hmx, hmy]
    · rw [rotateDrawing_lineLike n _ _ β (hnt ▸ hty) hns hne,
        rotateDrawing_lineLike d s e (α + β) hty hs he, hmx, hmy, rotatePointAround_add,
        rotatePointAround_add, hn]
  rw [rotateDrawing_lineLike d s e α hty hs he]
  exact key _ rfl

/-- C33: rotations compose additively for shapes with a fixed centre: for a
line, segment, arrow or projection with both endpoints and for a rectangle,
ellipse, text or icon, rotating keeps `getDrawingCenter`, rotating by `α`
and then by `β` is rotating by `α + β`, and rotating by `α` and then by `-α`
gives back the points, `start`, `end`, `x`, `y` and the angle (an absent
angle counting as `0`) of `d`. -/
theorem rotations_compose (d : Drawing ℝ) (α β : ℝ)
    (hty : ((d.type = DrawingType.line ∨ d.type = DrawingType.segment ∨
        d.type = DrawingType.arrow ∨ d.type = DrawingType.projection) ∧
        d.start.isSome = true ∧ d.«end».isSome = true) ∨
      d.type = DrawingType.rectangle ∨ d.type = DrawingType.ellipse ∨
      d.type = DrawingType.text ∨ d.type = DrawingType.icon) :
    getDrawingCenter (rotateDrawing (JSMath.mk Real.cos Real.sin Real.sqrt) d α)
      = getDrawingCenter d ∧
    rotateDrawing (JSMath.mk Real.cos Real.sin Real.sqrt)
        (rotateDrawing (JSMath.mk Real.cos Real.sin Real.sqrt) d α) β
      = rotateDrawing (JSMath.mk Real.cos Real.sin Real.sqrt) d (α + β) ∧
    (rotateDrawing (JSMath.mk Real.cos Real.sin Real.sqrt)
        (rotateDrawing (JSMath.mk Real.cos Real.sin Real.sqrt) d α) (-α)).points = d.points ∧
    (rotateDrawing (JSMath.mk Real.cos Real.sin Real.sqrt)
        (rotateDrawing (JSMath.mk Real.cos Real.sin Real.sqrt) d α) (-α)).start = d.start ∧
    (rotateDrawing (JSMath.mk Real.cos Real.sin Real.sqrt)
        (rotateDrawing (JSMath.mk Real.cos Real.sin Real.sqrt) d α) (-α)).«end» = d.«end» ∧
    (rotateDrawing (JSMath.mk Real.cos Real.sin Real.sqrt)
        (rotateDrawing (JSMath.mk Real.cos Real.sin Real.sqrt) d α) (-α)).x = d.x ∧
    (rotateDrawing (JSMath.mk Real.cos Real.sin Real.sqrt)
        (rotateDrawing (JSMath.mk Real.cos Real.sin Real.sqrt) d α) (-α)).y = d.y ∧
    orElse (rotateDrawing (JSMath.mk Real.cos Real.sin Real.sqrt)
        (rotateDrawing (JSMath.mk Real.cos Real.sin Real.sqrt) d α) (-α)).angle 0
      = orElse d.angle 0 := by
  rcases hty with ⟨hl, hs, he⟩ | hf
  · obtain ⟨s, hs⟩ := Option.isSome_iff_exists.mp hs
    obtain ⟨e, he⟩ := Option.isSome_iff_exists.mp he
    obtain ⟨h1, h2⟩ := lineLike_rotations_compose d s e α β hl hs he
    obtain ⟨-, h3⟩ := lineLike_rotations_compose d s e α (-α) hl hs he
    refine ⟨h1, h2, ?_⟩
    rw [h3, add_neg_cancel, rotateDrawing_lineLike d s e 0 hl hs he]
    refine ⟨rfl, ?_, ?_, rfl, rfl, rfl⟩
    · show some (rotatePointAround _ s _ 0) = d.start
      rw [rotatePointAround_zero, hs]
    · show some (rotatePointAround _ e _ 0) = d.«end»
      rw [rotatePointAround_zero, he]
  · have hrot : ∀ θ : ℝ, rotateDrawing (JSMath.mk Real.cos Real.sin Real.sqrt) d θ
        = { d with angle := some (d.angle.getD 0 + θ) } := by
      intro θ
      rcases hf with h | h | h | h <;> simp [rotateDrawing, h, orElse_zero]
    have hrot2 : ∀ θ φ : ℝ, rotateDrawing (JSMath.mk Real.cos Real.sin Real.sqrt)
        (rotateDrawing (JSMath.mk Real.cos Real.sin Real.sqrt) d θ) φ
        = { d with angle := some (d.angle.getD 0 + θ + φ) } := by
      intro θ φ
      rw [hrot θ]
      rcases hf with h | h | h | h <;> simp [rotateDrawing, h, orElse_zero]
    refine ⟨?_, ?_, ?_⟩
    · rw [hrot α]
      rcases hf with h | h | h | h <;> simp [getDrawingCenter, h]
    · rw [hrot2, hrot, add_assoc]
    · rw [hrot2]
      simp [orElse_zero]

/-- C33 on the rectangle from `(0, 0)` to `(10, 2)`: turning it by 1 and then
by 2 is turning it by 3. -/
theorem rotations_compose_witness :
    rotateDrawing (JSMath.mk Real.cos Real.sin Real.sqrt)
        (rotateDrawing (JSMath.mk Real.cos Real.sin Real.sqrt)
          { type := .rectangle, start := some ⟨0, 0⟩, «end» := some ⟨10, 2⟩ } 1) 2
      = rotateDrawing (JSMath.mk Real.cos Real.sin Real.sqrt)
          { type := .rectangle, start := some ⟨0, 0⟩, «end» := some ⟨10, 2⟩ } (1 + 2) :=
  (rotations_compose { type := .rectangle, start := some ⟨0, 0⟩, «end» := some ⟨10, 2⟩ } 1 2
    (Or.inr (Or.inl rfl))).2.1

end ComposeProps

/-! ## Rotating a pencil path there and back -/

section PencilProps

/-- Turning a point by `θ` about `c` and then by `-θ` about `c'` shifts it by
the vector from `c` to the image of `c` under the turn by `-θ` about `c'`. -/
theorem rotate_there_and_back (q c c' : Point ℝ) (θ : ℝ) :
    rotatePointAround (JSMath.mk Real.cos Real.sin Real.sqrt)
        (rotatePointAround (JSMath.mk Real.cos Real.sin Real.sqrt) q c θ) c' (-θ)
      = { x := q.x + ((rotatePointAround (JSMath.mk Real.cos Real.sin Real.sqrt) c c' (-θ)).x - c.x)
          y := q.y
            + ((rotatePointAround (JSMath.mk Real.cos Real.sin Real.sqrt) c c' (-θ)).y - c.y) } := by
  ext
  · simp only [rotatePointAround, Real.cos_neg, Real.sin_neg]
    linear_combination (q.x - c.x) * Real.cos_sq_add_sin_sq θ
  · simp only [rotatePointAround, Real.cos_neg, Real.sin_neg]
    linear_combination (q.y - c.y) * Real.cos_sq_add_sin_sq θ

/-- Rotating a pencil path turns each point about the centre of the path. -/
theorem rotateDrawing_pencil (d : Drawing ℝ) (pts : List (Point ℝ)) (θ : ℝ)
    (hty : d.type = DrawingType.pencil) (hp : d.points = some pts) :
    rotateDrawing (JSMath.mk Real.cos Real.sin Real.sqrt) d θ
      = { d with points := some (pts.map fun q =>
            rotatePointAround (JSMath.mk Real.cos Real.sin Real.sqrt) q (getDrawingCenter d) θ) } := by
  simp [rotateDrawing, hty, hp]

/-- The centre of a pencil path of two points is their midpoint. -/
theorem pencil_center_pair (d : Drawing ℝ) (a b : Point ℝ)
    (hty : d.type = DrawingType.pencil) (hp : d.points = some [a, b]) :
    getDrawingCenter d = { x := (a.x + b.x) / 2, y := (a.y + b.y) / 2 } := by
  simp [getDrawingCenter, hty, hp, extentFold, min_add_max]

/-- Rotating a pencil path by `θ` and then by `-θ` shifts every point by one
vector: the vector from the centre `c` of the path to the image of `c` under
the turn by `-θ` about the centre `c'` of the turned path. -/
theorem pencil_round_trip_points (d : Drawing ℝ) (pts : List (Point ℝ)) (θ : ℝ)
    (hty : d.type = DrawingType.pencil) (hp : d.points = some pts) :
    (rotateDrawing (JSMath.mk Real.cos Real.sin Real.sqrt)
        (rotateDrawing (JSMath.mk Real.cos Real.sin Real.sqrt) d θ) (-θ)).points
      = some (pts.map fun q =>
          { x := q.x + ((rotatePointAround (JSMath.mk Real.cos Real.sin Real.sqrt)
                (getDrawingCenter d)
                (getDrawingCenter (rotateDrawing (JSMath.mk Real.cos Real.sin Real.sqrt) d θ))
                (-θ)).x - (getDrawingCenter d).x)
            y := q.y + ((rotatePointAround (JSMath.mk Real.cos Real.sin Real.sqrt)
                (getDrawingCenter d)
                (getDrawingCenter (rotateDrawing (JSMath.mk Real.cos Real.sin Real.sqrt) d θ))
                (-θ)).y - (getDrawingCenter d).y) }) := by
  have key : ∀ n : Drawing ℝ, n.type = DrawingType.pencil →
      n.points = some (pts.map fun q =>
        rotatePointAround (JSMath.mk Real.cos Real.sin Real.sqrt) q (getDrawingCenter d) θ) →
      (rotateDrawing (JSMath.mk Real.cos Real.sin Real.sqrt) n (-θ)).points
        = some (pts.map fun q =>
            { x := q.x + ((rotatePointAround (JSMath.mk Real.cos Real.sin Real.sqrt)
                  (getDrawingCenter d) (getDrawingCenter n) (-θ)).x - (getDrawingCenter d).x)
              y := q.y + ((rotatePointAround (JSMath.mk Real.cos Real.sin Real.sqrt)
                  (getDrawingCenter d) (getDrawingCenter n) (-θ)).y
                    - (getDrawingCenter d).y) }) := by
    intro n hnt hnp
    rw [rotateDrawing_pencil n _ (-θ) hnt hnp]
    simp only [List.map_map, Option.some.injEq]
    apply List.map_congr_left
    intro q _
    exact rotate_there_and_back q _ _ θ
  exact key _ (by rw [rotateDrawing_pencil d pts θ hty hp]; exact hty)
    (by rw [rotateDrawing_pencil d pts θ hty hp])

/-- C34 as stated fails: the path `(0, 0)`, `(4, 0)`, `(0, 2)` has the centre
`(2, 1)`; turned by the angle `arccos(3/5)` (cosine `3/5`, sine `4/5`) it is
the path `(8/5, -6/5)`, `(4, 2)`, `(0, 0)` with the centre `(2, 2/5)`, and
turned back by the opposite angle it is not the path it was. -/
theorem pencil_round_trip_counterexample :
    getDrawingCenter ({ type := .pencil, points := some [⟨0, 0⟩, ⟨4, 0⟩, ⟨0, 2⟩] } : Drawing ℝ)
      = ⟨2, 1⟩ ∧
    (rotateDrawing (JSMath.mk Real.cos Real.sin Real.sqrt)
        { type := .pencil, points := some [⟨0, 0⟩, ⟨4, 0⟩, ⟨0, 2⟩] }
        (Real.arccos (3 / 5))).points = some [⟨8 / 5, -6 / 5⟩, ⟨4, 2⟩, ⟨0, 0⟩] ∧
    getDrawingCenter (rotateDrawing (JSMath.mk Real.cos Real.sin Real.sqrt)
        { type := .pencil, points := some [⟨0, 0⟩, ⟨4, 0⟩, ⟨0, 2⟩] } (Real.arccos (3 / 5)))
      = ⟨2, 2 / 5⟩ ∧
    getDrawingCenter (rotateDrawing (JSMath.mk Real.cos Real.sin Real.sqrt)
        { type := .pencil, points := some [⟨0, 0⟩, ⟨4, 0⟩, ⟨0, 2⟩] } (Real.arccos (3 / 5)))
      ≠ getDrawingCenter
        ({ type := .pencil, points := some [⟨0, 0⟩, ⟨4, 0⟩, ⟨0, 2⟩] } : Drawing ℝ) ∧
    (rotateDrawing (JSMath.mk Real.cos Real.sin Real.sqrt)
        (rotateDrawing (JSMath.mk Real.cos Real.sin Real.sqrt)
          { type := .pencil, points := some [⟨0, 0⟩, ⟨4, 0⟩, ⟨0, 2⟩] } (Real.arccos (3 / 5)))
        (-Real.arccos (3 / 5))).points
      ≠ some [⟨0, 0⟩, ⟨4, 0⟩, ⟨0, 2⟩] := by
  have hcos : Real.cos (Real.arccos (3 / 5)) = 3 / 5 :=
    Real.cos_arccos (by norm_num) (by norm_num)
  have hsin : Real.sin (Real.arccos (3 / 5)) = 4 / 5 := by
    rw [Real.sin_arccos, show (1 : ℝ) - (3 / 5) ^ 2 = (4 / 5) ^ 2 by norm_num]
    exact Real.sqrt_sq (by norm_num)
  have hc : getDrawingCenter
      ({ type := .pencil, points := some [⟨0, 0⟩, ⟨4, 0⟩, ⟨0, 2⟩] } : Drawing ℝ) = ⟨2, 1⟩ := by
    simp only [getDrawingCenter, Option.getD_some, extentFold, List.foldl_cons, List.foldl_nil]
    norm_num
  have hrot : rotateDrawing (JSMath.mk Real.cos Real.sin Real.sqrt)
      { type := .pencil, points := some [⟨0, 0⟩, ⟨4, 0⟩, ⟨0, 2⟩] } (Real.arccos (3 / 5))
      = { type := .pencil, points := some [⟨8 / 5, -6 / 5⟩, ⟨4, 2⟩, ⟨0, 0⟩] } := by
    rw [rotateDrawing_pencil _ [⟨0, 0⟩, ⟨4, 0⟩, ⟨0, 2⟩] _ rfl rfl, hc]
    simp only [List.map_cons, List.map_nil, rotatePointAround, hcos, hsin]
    norm_num
  have hc' : getDrawingCenter
      ({ type := .pencil, points := some [⟨8 / 5, -6 / 5⟩, ⟨4, 2⟩, ⟨0, 0⟩] } : Drawing ℝ)
      = ⟨2, 2 / 5⟩ := by
    simp only [getDrawingCenter, Option.getD_some, extentFold, List.foldl_cons, List.foldl_nil]
    norm_num
  refine ⟨hc, by rw [hrot], by rw [hrot, hc'], ?_, ?_⟩
  · rw [hrot, hc', hc]
    norm_num [Point.ext_iff]
  · rw [pencil_round_trip_points _ [⟨0, 0⟩, ⟨4, 0⟩, ⟨0, 2⟩] _ rfl rfl, hrot, hc', hc]
    simp only [List.map_cons, List.map_nil, rotatePointAround, Real.cos_neg, Real.sin_neg, hcos,
      hsin]
    norm_num [Point.ext_iff]

/-- C34, amended: rotating a pencil path by `θ` turns each point about the
centre `c` of the path, the centre of the axis-aligned extent of its points;
rotating the result by `-θ` turns about the centre `c'` of the turned path,
so it gives the points of `d` each shifted by the one vector
`rotatePointAround(c, c', -θ) - c`.  When `c' = c` these are exactly the
points of `d`, and `c' = c` holds for every path of exactly two points. -/
theorem pencil_rotate_round_trip (d : Drawing ℝ) (pts : List (Point ℝ)) (θ : ℝ)
    (hty : d.type = DrawingType.pencil) (hp : d.points = some pts) :
    (rotateDrawing (JSMath.mk Real.cos Real.sin Real.sqrt) d θ).points
      = some (pts.map fun q =>
          rotatePointAround (JSMath.mk Real.cos Real.sin Real.sqrt) q (getDrawingCenter d) θ) ∧
    (rotateDrawing (JSMath.mk Real.cos Real.sin Real.sqrt)
        (rotateDrawing (JSMath.mk Real.cos Real.sin Real.sqrt) d θ) (-θ)).points
      = some (pts.map fun q =>
          { x := q.x + ((rotatePointAround (JSMath.mk Real.cos Real.sin Real.sqrt)
                (getDrawingCenter d)
                (getDrawingCenter (rotateDrawing (JSMath.mk Real.cos Real.sin Real.sqrt) d θ))
                (-θ)).x - (getDrawingCenter d).x)
            y := q.y + ((rotatePointAround (JSMath.mk Real.cos Real.sin Real.sqrt)
                (getDrawingCenter d)
                (getDrawingCenter (rotateDrawing (JSMath.mk Real.cos Real.sin Real.sqrt) d θ))
                (-θ)).y - (getDrawingCenter d).y) }) ∧
    (getDrawingCenter (rotateDrawing (JSMath.mk Real.cos Real.sin Real.sqrt) d θ)
        = getDrawingCenter d →
      (rotateDrawing (JSMath.mk Real.cos Real.sin Real.sqrt)
        (rotateDrawing (JSMath.mk Real.cos Real.sin Real.sqrt) d θ) (-θ)).points = d.points) ∧
    (pts.length = 2 →
      getDrawingCenter (rotateDrawing (JSMath.mk Real.cos Real.sin Real.sqrt) d θ)
        = getDrawingCenter d) := by
  refine ⟨by rw [rotateDrawing_pencil d pts θ hty hp], pencil_round_trip_points d pts θ hty hp,
    fun hc => ?_, fun hlen => ?_⟩
  · rw [pencil_round_trip_points d pts θ hty hp, hc, hp]
    have hfix : ∀ c : Point ℝ,
        rotatePointAround (JSMath.mk Real.cos Real.sin Real.sqrt) c c (-θ) = c := by
      intro c
      ext <;> simp [rotatePointAround]
    simp [hfix]
  · match pts, hlen, hp with
    | [a, b], _, hp =>
      have hc := pencil_center_pair d a b hty hp
      have key : ∀ n : Drawing ℝ, n.type = DrawingType.pencil →
          n.points = some [rotatePointAround (JSMath.mk Real.cos Real.sin Real.sqrt) a
              { x := (a.x + b.x) / 2, y := (a.y + b.y) / 2 } θ,
            rotatePointAround (JSMath.mk Real.cos Real.sin Real.sqrt) b
              { x := (a.x + b.x) / 2, y := (a.y + b.y) / 2 } θ] →
          getDrawingCenter n = { x := (a.x + b.x) / 2, y := (a.y + b.y) / 2 } := by
        intro n hnt hnp
        rw [pencil_center_pair n _ _ hnt hnp]
        ext <;> simp only [rotatePointAround] <;> ring
      rw [hc]
      apply key
      · rw [rotateDrawing_pencil d _ θ hty hp]
        exact hty
      · rw [rotateDrawing_pencil d _ θ hty hp, hc]
        rfl

/-- C34 amended, on the path from `(0, 0)` to `(4, 2)` turned by 1: the
centre stays where it is. -/
theorem pencil_rotate_round_trip_witness :
    getDrawingCenter (rotateDrawing (JSMath.mk Real.cos Real.sin Real.sqrt)
        { type := .pencil, points := some [⟨0, 0⟩, ⟨4, 2⟩] } 1)
      = getDrawingCenter ({ type := .pencil, points := some [⟨0, 0⟩, ⟨4, 2⟩] } : Drawing ℝ) :=
  (pencil_rotate_round_trip { type := .pencil, points := some [⟨0, 0⟩, ⟨4, 2⟩] }
    [⟨0, 0⟩, ⟨4, 2⟩] 1 rfl rfl).2.2.2 rfl

end PencilProps

/-! ## Rounding -/

section RoundingProps

/-- Over a field the bounding box written for any arithmetic is the bounding
box of the embedding. -/
theorem machine_getBoundingBox_eq {K : Type} [LinearOrderedField K] (M : JSMath K)
    (d : Option (Drawing K)) : Machine.getBoundingBox M d = getBoundingBox M d := rfl

/-- The decimal literal `0.1` denotes `3602879701896397 / 2 ^ 55`, and in
binary64 `0.1 + 0.2` is not `0.3`. -/
theorem Double.tenth :
    Double.ofRat (1 / 10) = ⟨3602879701896397 / 2 ^ 55⟩ ∧
    Double.ofRat (1 / 10) + Double.ofRat (2 / 10) = ⟨5404319552844596 / 2 ^ 54⟩ ∧
    Double.ofRat (1 / 10) + Double.ofRat (2 / 10) ≠ Double.ofRat (3 / 10) := by
  decide!

/-- Over a field the polyline loop written for any arithmetic is the loop of
the embedding. -/
theorem machine_polylineLoop_eq {K : Type} [LinearOrderedField K] (M : JSMath K) (p : Point K)
    (t : K) : ∀ pts : List (Point K), Machine.polylineLoop M p t pts = polylineLoop M p t pts
  | [] => rfl
  | [_] => rfl
  | a :: b :: rest => by
    have ih := machine_polylineLoop_eq M p t (b :: rest)
    simp only [Machine.polylineLoop, polylineLoop, ih]
    rfl

/-- Over a field the hit test written for any arithmetic is the hit test of
the embedding. -/
theorem machine_isPointOnDrawing_eq {K : Type} [LinearOrderedField K] (M : JSMath K)
    (p : Point K) (d : Drawing K) (t : K) :
    Machine.isPointOnDrawing M p d t = isPointOnDrawing M p d t := by
  unfold Machine.isPointOnDrawing isPointOnDrawing
  cases d.type <;> try rfl
  simp only [Machine.pointNearPolyline, pointNearPolyline]
  cases d.points with
  | none => rfl
  | some ps => simp only [machine_polylineLoop_eq]

/-- C25 as stated fails in the arithmetic of JavaScript numbers: for the
rectangle from `(0.1, 0)` to `(1, 1)` without rotation the point `(0.1, 0.5)`
is hit with tolerance 0, while the `minX` of the bounding box, computed as
`center.x - width / 2`, is `7205759403792796 / 2 ^ 56`, two units in the last
place above `0.1 = 7205759403792794 / 2 ^ 56`.  The rectangle has no angle,
so no function of `Math` is evaluated. -/
theorem boundingBox_encloses_counterexample :
    (∀ M : JSMath Double,
      Machine.isPointOnDrawing M ⟨Double.ofRat (1 / 10), Double.ofRat (1 / 2)⟩
        { type := .rectangle, start := some ⟨Double.ofRat (1 / 10), 0⟩, «end» := some ⟨1, 1⟩ } 0
        = true) ∧
    (∀ M : JSMath Double,
      (Machine.getBoundingBox M
        (some { type := .rectangle, start := some ⟨Double.ofRat (1 / 10), 0⟩,
                «end» := some ⟨1, 1⟩ })).minX = ⟨7205759403792796 / 2 ^ 56⟩) ∧
    Double.ofRat (1 / 10) = ⟨7205759403792794 / 2 ^ 56⟩ ∧
    ¬ ((⟨7205759403792796 / 2 ^ 56⟩ : Double) ≤ Double.ofRat (1 / 10)) := by
  refine ⟨fun M => ?_, fun M => ?_, by decide!, by decide!⟩
  · simp only [Machine.isPointOnDrawing, Machine.pointInRect, Machine.orElse, ↓reduceIte]
    decide!
  · simp only [Machine.getBoundingBox, Machine.orElse, ↓reduceIte]
    decide!

/-- The resize step in the arithmetic of JavaScript numbers: for the
rectangle from `(0, 0)` to `(49, 20)` grabbed at `(49, 20)` and dragged to
`(1, 1)` the caller passes the factors `8 / 49` and `8 / 20` and the anchor
`(0, 0)`, and `scalePoint` moves the corner `(49, 20)` to the abscissa
`49 * (8 / 49) = 9007199254740991 / 2 ^ 50`, one unit in the last place
below 8, and the ordinate `8`.  `Math.cos` and `Math.sin` enter only through
their values `1` and `0` at the angle `0`. -/
theorem scalePoint_rounds_below_minimum (M : JSMath Double) (hcos : M.cos 0 = 1)
    (hsin : M.sin 0 = 0) :
    Machine.scalePoint M ⟨49, 20⟩ ⟨0, 0⟩ 0 (8 / 49) (8 / 20)
      = ⟨⟨9007199254740991 / 2 ^ 50⟩, 8⟩ ∧
    ¬ ((8 : Double) ≤ ⟨9007199254740991 / 2 ^ 50⟩) := by
  have hneg : -(0 : Double) = 0 := by decide!
  refine ⟨?_, by decide!⟩
  simp only [Machine.scalePoint, Machine.rotatePointAround, hneg, hcos, hsin]
  decide!

end RoundingProps

end SuperDuperGraphs
